import Mathlib

/-!
Inventory engine of the world server (shared/game/inventory.cpp)

A shallow embedding of `Inventory` : the slot map `m_itemsBySlot`, the cached
per-template counter `m_itemCounter`, the free slot counter `m_freeSlots` and
the owner fields the inventory writes.  Maps are total functions into `Option`;
16 bit locals of the source wrap explicitly (`% 65536`).

Signals (`itemInstanceCreated`, `itemInstanceUpdated`, `itemInstanceDestroyed`,
`inventoryChangeFailure`), quest credit callbacks, forced field updates and the
optional out-parameter `out_addedBySlot` carry no inventory state and are left
out of the model.

The second part embeds the auto attack of `GameUnit` (shared/game/game_unit.cpp):
`calculateArmorReducedDamage` in binary32 arithmetic, and `startAttack`,
`stopAttack`, `onAttackSwing`, `onKilled`, `onVictimKilled`, `onVictimDespawned`
as transitions of a `World` of units addressed by id.  The clock, the damage
roll and the facing test are inputs; countdowns are `Option` end times.

Further parts: the tile passes of `Player::onTileChangePending`
(world/player.cpp), the packed GUID written by `Inventory::addSpawnBlocks` and
the reconstruction of an inventory from realm records, `regeneratePower`,
`PlayerGroup::addMember` (realm/player_group.cpp) and `CheckWildCard`
(stormlib, SFileFindFile.cpp) as a step machine whose reads behind a
terminating NUL are an outcome of their own.
-/

namespace wowpp

/-- Result codes of `game::inventory_change_failure` that inventory.cpp returns. -/
inductive InventoryChangeFailure where
  | Okay
  | CantEquipLevel
  | CantEquipSkill
  | ItemDoesNotGoToSlot
  | InventoryFull
  | CantCarryMoreOfThis
  | NoRequiredProficiency
  | CantEquipWithTwoHanded
  | CantDualWield
  | ItemNotFound
  | YouAreDead
  | InternalBagError
  deriving DecidableEq, Repr

/-- The `game::inventory_type` constants named in inventory.cpp; every other
value of the protocol field is `other raw`. -/
inductive InventoryType where
  | Head | Body | Chest | Robe | Feet | Finger | Trinket | Hands | Legs
  | MainHandWeapon | TwoHandedWeapon | Weapon | OffHandWeapon | Shield
  | Ranged | Shoulders | Tabard | Waist | Wrists
  | other (raw : Nat)
  deriving DecidableEq, Repr

/-- The `game::item_class` constants named in inventory.cpp. -/
inductive ItemClass where
  | Weapon | Armor
  | other (raw : Nat)
  deriving DecidableEq, Repr

/-- The `game::item_subclass_weapon` constants named in `weaponProficiency`. -/
inductive WeaponSubclass where
  | Axe | Axe2 | Bow | CrossBow | Dagger | Fist | Gun | Mace | Mace2 | Polearm
  | Staff | Sword | Sword2 | Thrown | Wand
  deriving DecidableEq, Repr

/-- The `game::item_subclass_armor` constants named in `armorProficiency`. -/
inductive ArmorSubclass where
  | Misc | Buckler | Shield | Cloth | Leather | Mail | Plate
  deriving DecidableEq, Repr

/-- The `game::weapon_prof` constants returned by `weaponProficiency`. -/
inductive WeaponProf where
  | None | OneHandAxe | TwoHandAxe | Bow | Crossbow | Dagger | Fist | Gun
  | OneHandMace | TwoHandMace | Polearm | Staff | OneHandSword | TwoHandSword
  | Throw | Wand
  deriving DecidableEq, Repr

/-- The `game::armor_prof` constants returned by `armorProficiency`. -/
inductive ArmorProf where
  | None | Common | Shield | Cloth | Leather | Mail | Plate
  deriving DecidableEq, Repr

/-- Constants and helpers declared in headers that are not part of the source
tree at hand: the slot numbering (`player_inventory_slots::Bag_0`,
`player_inventory_pack_slots::Start/End`), the GUID constructor
`createEntryGUID(low, entry, guid_type::Item)`, the numeric values of the
proficiency bits and the decoding of the raw item subclass field. -/
structure Env where
  bag0 : Nat
  packStart : Nat
  packEnd : Nat
  createEntryGUID : Nat → Nat → Nat
  weaponProfValue : WeaponProf → Nat
  armorProfValue : ArmorProf → Nat
  weaponSubclass : Nat → Option WeaponSubclass
  armorSubclass : Nat → Option ArmorSubclass

/-- The slot constants fit the `UInt8` loop variable and bag byte of the source. -/
def Env.valid (E : Env) : Prop :=
  E.bag0 < 256 ∧ E.packStart ≤ E.packEnd ∧ E.packEnd ≤ 255

/-- The fields of `proto::ItemEntry` read by inventory.cpp. -/
structure ItemEntry where
  id : Nat
  maxcount : Nat
  maxstack : Nat
  itemclass : ItemClass
  subclass : Nat
  requiredlevel : Nat
  requiredskill : Nat
  inventorytype : InventoryType
  deriving DecidableEq, Repr

/-- A `GameItem` instance: its template, GUID, `item_fields::StackCount` and
`item_fields::Creator`. -/
structure GameItem where
  entry : ItemEntry
  guid : Nat
  stackCount : Nat
  creator : Nat
  deriving DecidableEq, Repr

/-- The state of the owning `GameCharacter` that the inventory reads or writes.
`invSlot i` is the 64 bit field `InvSlotHead + 2*i`, `visibleItem i` the field
`VisibleItem1_0 + 16*i`, `visibleCreator i` the 64 bit field
`VisibleItem1_CREATOR + 16*i`.  `world` is the item id generator of the world
instance the character is in (`none` : `getWorldInstance()` is null). -/
structure GameCharacter where
  guid : Nat
  alive : Bool
  level : Nat
  weaponProficiency : Nat
  armorProficiency : Nat
  hasSkill : Nat → Bool
  canDualWield : Bool
  invSlot : Nat → Nat
  visibleItem : Nat → Nat
  visibleCreator : Nat → Nat
  world : Option Nat

/-- The members of `Inventory`. The mapped values of `itemCounter` are 16 bit
(`getItemCount` returns `UInt16`). The width of `m_freeSlots` is declared in
the absent header: it is a natural number here, incremented without wrap and
decremented with `0 - 1 = 0`. -/
structure Inventory where
  owner : GameCharacter
  itemsBySlot : Nat → Option GameItem
  itemCounter : Nat → Option Nat
  freeSlots : Nat

/-- Point update of a map modelled as a function. -/
def setAt {α : Type} (m : Nat → α) (k : Nat) (v : α) : Nat → α :=
  fun i => if i = k then v else m i

/-- Source: `m_owner.setUInt64Value(character_fields::InvSlotHead + i * 2, guid)`. -/
def GameCharacter.setInvSlot (o : GameCharacter) (i guid : Nat) : GameCharacter :=
  { o with invSlot := setAt o.invSlot i guid }

/-- Source: the pair of writes to `VisibleItem1_0 + i * 16` (entry id) and
`VisibleItem1_CREATOR + i * 16` (creator GUID). -/
def GameCharacter.setVisibleItem (o : GameCharacter) (i entryId creator : Nat) : GameCharacter :=
  { o with
    visibleItem := setAt o.visibleItem i entryId
    visibleCreator := setAt o.visibleCreator i creator }

/-- Source: `Inventory::getAbsoluteSlot`, `(bag << 8) | slot` as `UInt16`. -/
def getAbsoluteSlot (bag slot : Nat) : Nat :=
  ((bag <<< 8) ||| slot) % 65536

/-- Source: `Inventory::getRelativeSlots`; the `bool` it returns is always true. -/
def getRelativeSlots (absoluteSlot : Nat) : Bool × Nat × Nat :=
  (true, (absoluteSlot >>> 8) % 256, (absoluteSlot &&& 255) % 256)

/-- Source: `Inventory::getItemCount`. -/
def getItemCount (inv : Inventory) (itemId : Nat) : Nat :=
  match inv.itemCounter itemId with
  | some c => c
  | none => 0

/-- Source: `Inventory::getItemAtSlot`. -/
def getItemAtSlot (inv : Inventory) (absoluteSlot : Nat) : Option GameItem :=
  inv.itemsBySlot absoluteSlot

/-- Modelled from the spec: `player_equipment_slots::End`, the number of
equipment sub-slots. The enumeration is declared in an absent header; the
equipment sub-slots are the 19 indices 0..18 in the order Head, Neck,
Shoulders, Body, Chest, Waist, Legs, Feet, Wrists, Hands, Finger1, Finger2,
Trinket1, Trinket2, Back, Mainhand, Offhand, Ranged, Tabard. -/
def equipEnd : Nat := 19

/-- Source: `Inventory::isEquipmentSlot`. -/
def isEquipmentSlot (E : Env) (absoluteSlot : Nat) : Bool :=
  decide (absoluteSlot >>> 8 = E.bag0) && decide (absoluteSlot &&& 255 < equipEnd)

/-- Source: `Inventory::isInventorySlot`. -/
def isInventorySlot (E : Env) (absoluteSlot : Nat) : Bool :=
  decide (absoluteSlot >>> 8 = E.bag0) && decide (E.packStart ≤ absoluteSlot &&& 255)
    && decide (absoluteSlot &&& 255 < E.packEnd)

/-- Source: `Inventory::isBagSlot`. -/
def isBagSlot (E : Env) (absoluteSlot : Nat) : Bool :=
  decide (absoluteSlot >>> 8 ≠ E.bag0)

/-- Modelled from the spec: `GameItem::addStacks` (game_item.cpp is absent).
A stack is topped up to at most the template's `maxstack`; the number of units
actually added is returned. -/
def addStacks (item : GameItem) (amount : Nat) : GameItem × Nat :=
  let added := min amount (item.entry.maxstack - item.stackCount)
  ({ item with stackCount := item.stackCount + added }, added)

/-- `m_itemCounter[id] += n` on the `UInt16` mapped value. -/
def counterAdd (m : Nat → Option Nat) (id n : Nat) : Nat → Option Nat :=
  setAt m id (some (((match m id with | some c => c | none => 0) + n) % 65536))

/-- `m_itemCounter[id] -= n` on the `UInt16` mapped value (wraps below zero). -/
def counterSub (m : Nat → Option Nat) (id n : Nat) : Nat → Option Nat :=
  setAt m id (some (((match m id with | some c => c | none => 0) + 65536 - n % 65536) % 65536))

/-- The sub-slots visited by `for (UInt8 slot = Start; slot < End; ++slot)`. -/
def packSubslots (E : Env) : List Nat :=
  (List.range (E.packEnd - E.packStart)).map (fun i => E.packStart + i)

/-- Locals of the slot scan in `createItems`. `LinearSet<UInt16>` (its header is
absent) is taken as a duplicate-free sequence iterated in insertion order; the
scan inserts slots in ascending order, so a sorted set iterates the same way. -/
structure Scan where
  emptySlots : List Nat
  usedCapableSlots : List Nat
  availableStacks : Nat
  itemsProcessed : Nat

/-- Source: the slot scan of `Inventory::createItems` (lines 89-139), with the
early `break` as an early return. The 32 bit difference `maxstack - stackCount`
is taken only where `stackCount < maxstack`, so it does not wrap. -/
def scanSlots (E : Env) (inv : Inventory) (entry : ItemEntry) (itemCount requiredSlots : Nat) :
    List Nat → Scan → Scan
  | [], sc => sc
  | slot :: rest, sc =>
    let absoluteSlot := getAbsoluteSlot E.bag0 slot
    match inv.itemsBySlot absoluteSlot with
    | none =>
      let sc1 : Scan := { sc with
        availableStacks := (sc.availableStacks + entry.maxstack) % 65536
        emptySlots := sc.emptySlots ++ [absoluteSlot] }
      if itemCount ≤ sc1.itemsProcessed ∧ requiredSlots ≤ sc1.emptySlots.length then sc1
      else scanSlots E inv entry itemCount requiredSlots rest sc1
    | some item =>
      if item.entry.id ≠ entry.id then
        scanSlots E inv entry itemCount requiredSlots rest sc
      else
        let stackCount := item.stackCount
        let sc1 : Scan := { sc with itemsProcessed := (sc.itemsProcessed + stackCount) % 65536 }
        if entry.maxstack ≤ stackCount then
          if itemCount ≤ sc1.itemsProcessed ∧ requiredSlots ≤ sc1.emptySlots.length then sc1
          else scanSlots E inv entry itemCount requiredSlots rest sc1
        else
          scanSlots E inv entry itemCount requiredSlots rest { sc1 with
            availableStacks := (sc1.availableStacks + (entry.maxstack - stackCount)) % 65536
            usedCapableSlots := sc1.usedCapableSlots ++ [absoluteSlot] }

/-- Source: first fill phase of `createItems` (lines 150-175): top up the
remembered under-full stacks. Returns the inventory and `amountLeft`. -/
def fillUsed (entry : ItemEntry) : List Nat → Inventory → Nat → Inventory × Nat
  | [], inv, amountLeft => (inv, amountLeft)
  | slot :: rest, inv, amountLeft =>
    match inv.itemsBySlot slot with
    | none => fillUsed entry rest inv amountLeft
    | some item =>
      let r := addStacks item amountLeft
      let left1 := amountLeft - r.2
      let inv1 : Inventory :=
        if 0 < r.2 then
          { inv with
            itemsBySlot := setAt inv.itemsBySlot slot (some r.1)
            itemCounter := counterAdd inv.itemCounter entry.id r.2 }
        else inv
      if left1 = 0 then (inv1, left1) else fillUsed entry rest inv1 left1

/-- Source: `world->getItemIdGenerator().generateId()` (the generator class is
absent; it is taken as a counter). Outside a world instance the source fails
`assert(world)`, the model then hands out id 0. -/
def generateId (o : GameCharacter) : Nat × GameCharacter :=
  match o.world with
  | some n => (n, { o with world := some (n + 1) })
  | none => (0, o)

/-- Modelled from the spec: `GameItem::initialize` followed by `setGuid`
(game_item.cpp is absent): a new stack instance of the template. By the source
comment "One stack has been created by initializing the item" it holds one
unit; its creator field is zero. -/
def newItem (E : Env) (entry : ItemEntry) (newItemId : Nat) : GameItem :=
  { entry := entry, guid := E.createEntryGUID newItemId entry.id, stackCount := 1, creator := 0 }

/-- Source: the owner field writes after a slot received `item`
(lines 217-225 of `createItems`). -/
def notifyCreation (E : Env) (o : GameCharacter) (slot : Nat) (item : GameItem) : GameCharacter :=
  let bag := (getRelativeSlots slot).2.1
  let subslot := (getRelativeSlots slot).2.2
  if bag = E.bag0 then
    let o1 := o.setInvSlot subslot item.guid
    if isEquipmentSlot E slot then o1.setVisibleItem subslot item.entry.id item.creator
    else o1
  else o

/-- Source: second fill phase of `createItems` (lines 181-232): one new stack
per remembered empty slot. Entered with `amountLeft > 0`. -/
def fillEmpty (E : Env) (entry : ItemEntry) : List Nat → Inventory → Nat → Inventory × Nat
  | [], inv, amountLeft => (inv, amountLeft)
  | slot :: rest, inv, amountLeft =>
    let g := generateId inv.owner
    let item0 := newItem E entry g.1
    let left0 := amountLeft - 1
    let r := addStacks item0 left0
    let left1 := left0 - r.2
    let inv1 : Inventory :=
      { owner := notifyCreation E g.2 slot r.1
        itemsBySlot := setAt inv.itemsBySlot slot (some r.1)
        itemCounter := counterAdd inv.itemCounter entry.id (r.2 + 1)
        freeSlots := inv.freeSlots - 1 }
    if left1 = 0 then (inv1, left1) else fillEmpty E entry rest inv1 left1

/-- Source: the two fill loops of `createItems` (lines 149-233) run on the
slots remembered by the scan. Returns the inventory and the final `amountLeft`. -/
def fillPhases (E : Env) (inv : Inventory) (entry : ItemEntry) (sc : Scan) (amount : Nat) :
    Inventory × Nat :=
  let p1 := fillUsed entry sc.usedCapableSlots inv amount
  if p1.2 ≠ 0 then fillEmpty E entry sc.emptySlots p1.1 p1.2 else p1

/-- Source: `Inventory::createItems`. `amount` is a `UInt16`. For
`entry.maxstack = 0` the source divides by zero; the model follows the
convention `n / 0 = 0` there. The branch `0 < amountLeft` after the fill is the
one the source guards with `assert(amountLeft == 0)`. -/
def createItems (E : Env) (inv : Inventory) (entry : ItemEntry) (amount0 : Nat) :
    InventoryChangeFailure × Inventory :=
  let amount := if amount0 = 0 then 1 else amount0
  let itemCount := getItemCount inv entry.id
  if 0 < entry.maxcount ∧ entry.maxcount < itemCount + amount then
    (InventoryChangeFailure.CantCarryMoreOfThis, inv)
  else
    let requiredSlots := ((amount - 1) / entry.maxstack + 1) % 65536
    if (itemCount = 0 ∨ entry.maxstack ≤ 1) ∧ inv.freeSlots < requiredSlots then
      (InventoryChangeFailure.InventoryFull, inv)
    else
      let sc := scanSlots E inv entry itemCount requiredSlots (packSubslots E) ⟨[], [], 0, 0⟩
      if sc.availableStacks < amount then
        (InventoryChangeFailure.InventoryFull, inv)
      else
        let p2 := fillPhases E inv entry sc amount
        if 0 < p2.2 then (InventoryChangeFailure.InventoryFull, p2.1)
        else (InventoryChangeFailure.Okay, p2.1)

/-- Source: `Inventory::removeItem(absoluteSlot, stacks)`. The parameter
`stacks` is a `UInt16`, so `stacks = stackCount` keeps the low 16 bits. -/
def removeItem (E : Env) (inv : Inventory) (absoluteSlot : Nat) (stacksArg : Nat) :
    InventoryChangeFailure × Inventory :=
  match inv.itemsBySlot absoluteSlot with
  | none => (InventoryChangeFailure.ItemNotFound, inv)
  | some item =>
    let stackCount := item.stackCount
    let nStacks := if stacksArg = 0 ∨ stackCount < stacksArg then stackCount % 65536 else stacksArg
    let counter := counterSub inv.itemCounter item.entry.id nStacks
    if stackCount = nStacks then
      let bag := (getRelativeSlots absoluteSlot).2.1
      let subslot := (getRelativeSlots absoluteSlot).2.2
      let o := inv.owner
      let o1 : GameCharacter :=
        if bag = E.bag0 then
          let o2 := o.setInvSlot subslot 0
          if isEquipmentSlot E absoluteSlot then
            o2.setVisibleItem subslot item.entry.id item.creator
          else o2
        else o
      (InventoryChangeFailure.Okay,
        { owner := o1
          itemsBySlot := setAt inv.itemsBySlot absoluteSlot none
          itemCounter := counter
          freeSlots := inv.freeSlots + 1 })
    else
      (InventoryChangeFailure.Okay,
        { inv with
          itemsBySlot :=
            setAt inv.itemsBySlot absoluteSlot (some { item with stackCount := stackCount - nStacks })
          itemCounter := counter })

/-- Source: the slot loop of `Inventory::removeItems` (lines 267-316). Returns
the inventory and `itemsToDelete`. -/
def removeLoop (E : Env) (entry : ItemEntry) : List Nat → Inventory → Nat → Inventory × Nat
  | [], inv, itemsToDelete => (inv, itemsToDelete)
  | slot :: rest, inv, itemsToDelete =>
    let absoluteSlot := getAbsoluteSlot E.bag0 slot
    match inv.itemsBySlot absoluteSlot with
    | none => removeLoop E entry rest inv itemsToDelete
    | some item =>
      if item.entry.id ≠ entry.id then removeLoop E entry rest inv itemsToDelete
      else
        let stackCount := item.stackCount
        let p : Inventory × Nat :=
          if stackCount ≤ itemsToDelete then
            let r := removeItem E inv absoluteSlot 0
            if r.1 ≠ InventoryChangeFailure.Okay then (r.2, itemsToDelete)
            else (r.2, itemsToDelete - stackCount)
          else
            ({ inv with
                itemsBySlot :=
                  setAt inv.itemsBySlot absoluteSlot
                    (some { item with stackCount := stackCount - itemsToDelete })
                itemCounter := counterSub inv.itemCounter entry.id (stackCount - itemsToDelete) }, 0)
        if p.2 = 0 then p else removeLoop E entry rest p.1 p.2

/-- Source: `Inventory::removeItems`. `amount` is a `UInt16`. -/
def removeItems (E : Env) (inv : Inventory) (entry : ItemEntry) (amount0 : Nat) :
    InventoryChangeFailure × Inventory :=
  let itemCount := getItemCount inv entry.id
  let amount := if amount0 = 0 then itemCount else amount0
  if itemCount < amount then (InventoryChangeFailure.ItemNotFound, inv)
  else (InventoryChangeFailure.Okay, (removeLoop E entry (packSubslots E) inv amount).1)

/-- Source: `Inventory::canStoreItems`. The default of `amount` is declared in
the absent header; callers without the argument pass 1 here (0 behaves alike). -/
def canStoreItems (inv : Inventory) (entry : ItemEntry) (amount0 : Nat) : InventoryChangeFailure :=
  let amount := if amount0 = 0 then 1 else amount0
  let itemCount := getItemCount inv entry.id
  if 0 < entry.maxcount ∧ entry.maxcount < itemCount + amount then
    InventoryChangeFailure.CantCarryMoreOfThis
  else
    let requiredSlots := ((amount - 1) / entry.maxstack + 1) % 65536
    if (itemCount = 0 ∨ entry.maxstack ≤ 1) ∧ inv.freeSlots < requiredSlots then
      InventoryChangeFailure.InventoryFull
    else InventoryChangeFailure.Okay

/-- Source: `weaponProficiency` (anonymous namespace of inventory.cpp). -/
def weaponProficiency (E : Env) (subclass : Nat) : WeaponProf :=
  match E.weaponSubclass subclass with
  | some WeaponSubclass.Axe => WeaponProf.OneHandAxe
  | some WeaponSubclass.Axe2 => WeaponProf.TwoHandAxe
  | some WeaponSubclass.Bow => WeaponProf.Bow
  | some WeaponSubclass.CrossBow => WeaponProf.Crossbow
  | some WeaponSubclass.Dagger => WeaponProf.Dagger
  | some WeaponSubclass.Fist => WeaponProf.Fist
  | some WeaponSubclass.Gun => WeaponProf.Gun
  | some WeaponSubclass.Mace => WeaponProf.OneHandMace
  | some WeaponSubclass.Mace2 => WeaponProf.TwoHandMace
  | some WeaponSubclass.Polearm => WeaponProf.Polearm
  | some WeaponSubclass.Staff => WeaponProf.Staff
  | some WeaponSubclass.Sword => WeaponProf.OneHandSword
  | some WeaponSubclass.Sword2 => WeaponProf.TwoHandSword
  | some WeaponSubclass.Thrown => WeaponProf.Throw
  | some WeaponSubclass.Wand => WeaponProf.Wand
  | none => WeaponProf.None

/-- Source: `armorProficiency` (anonymous namespace of inventory.cpp). -/
def armorProficiency (E : Env) (subclass : Nat) : ArmorProf :=
  match E.armorSubclass subclass with
  | some ArmorSubclass.Misc => ArmorProf.Common
  | some ArmorSubclass.Buckler => ArmorProf.Shield
  | some ArmorSubclass.Shield => ArmorProf.Shield
  | some ArmorSubclass.Cloth => ArmorProf.Cloth
  | some ArmorSubclass.Leather => ArmorProf.Leather
  | some ArmorSubclass.Mail => ArmorProf.Mail
  | some ArmorSubclass.Plate => ArmorProf.Plate
  | none => ArmorProf.None

namespace player_equipment_slots

/-- Modelled from the spec: `player_equipment_slots::Head` (absent header), sub-slot 0 of
the 19 equipment sub-slots numbered 0..18 in their listed order. -/
def Head : Nat := 0

/-- Modelled from the spec: `player_equipment_slots::Neck` (absent header), sub-slot 1 of
the 19 equipment sub-slots numbered 0..18 in their listed order. -/
def Neck : Nat := 1

/-- Modelled from the spec: `player_equipment_slots::Shoulders` (absent header), sub-slot 2 of
the 19 equipment sub-slots numbered 0..18 in their listed order. -/
def Shoulders : Nat := 2

/-- Modelled from the spec: `player_equipment_slots::Body` (absent header), sub-slot 3 of
the 19 equipment sub-slots numbered 0..18 in their listed order. -/
def Body : Nat := 3

/-- Modelled from the spec: `player_equipment_slots::Chest` (absent header), sub-slot 4 of
the 19 equipment sub-slots numbered 0..18 in their listed order. -/
def Chest : Nat := 4

/-- Modelled from the spec: `player_equipment_slots::Waist` (absent header), sub-slot 5 of
the 19 equipment sub-slots numbered 0..18 in their listed order. -/
def Waist : Nat := 5

/-- Modelled from the spec: `player_equipment_slots::Legs` (absent header), sub-slot 6 of
the 19 equipment sub-slots numbered 0..18 in their listed order. -/
def Legs : Nat := 6

/-- Modelled from the spec: `player_equipment_slots::Feet` (absent header), sub-slot 7 of
the 19 equipment sub-slots numbered 0..18 in their listed order. -/
def Feet : Nat := 7

/-- Modelled from the spec: `player_equipment_slots::Wrists` (absent header), sub-slot 8 of
the 19 equipment sub-slots numbered 0..18 in their listed order. -/
def Wrists : Nat := 8

/-- Modelled from the spec: `player_equipment_slots::Hands` (absent header), sub-slot 9 of
the 19 equipment sub-slots numbered 0..18 in their listed order. -/
def Hands : Nat := 9

/-- Modelled from the spec: `player_equipment_slots::Finger1` (absent header), sub-slot 10 of
the 19 equipment sub-slots numbered 0..18 in their listed order. -/
def Finger1 : Nat := 10

/-- Modelled from the spec: `player_equipment_slots::Finger2` (absent header), sub-slot 11 of
the 19 equipment sub-slots numbered 0..18 in their listed order. -/
def Finger2 : Nat := 11

/-- Modelled from the spec: `player_equipment_slots::Trinket1` (absent header), sub-slot 12 of
the 19 equipment sub-slots numbered 0..18 in their listed order. -/
def Trinket1 : Nat := 12

/-- Modelled from the spec: `player_equipment_slots::Trinket2` (absent header), sub-slot 13 of
the 19 equipment sub-slots numbered 0..18 in their listed order. -/
def Trinket2 : Nat := 13

/-- Modelled from the spec: `player_equipment_slots::Back` (absent header), sub-slot 14 of
the 19 equipment sub-slots numbered 0..18 in their listed order. -/
def Back : Nat := 14

/-- Modelled from the spec: `player_equipment_slots::Mainhand` (absent header), sub-slot 15 of
the 19 equipment sub-slots numbered 0..18 in their listed order. -/
def Mainhand : Nat := 15

/-- Modelled from the spec: `player_equipment_slots::Offhand` (absent header), sub-slot 16 of
the 19 equipment sub-slots numbered 0..18 in their listed order. -/
def Offhand : Nat := 16

/-- Modelled from the spec: `player_equipment_slots::Ranged` (absent header), sub-slot 17 of
the 19 equipment sub-slots numbered 0..18 in their listed order. -/
def Ranged : Nat := 17

/-- Modelled from the spec: `player_equipment_slots::Tabard` (absent header), sub-slot 18 of
the 19 equipment sub-slots numbered 0..18 in their listed order. -/
def Tabard : Nat := 18

end player_equipment_slots

/-- The result `ItemDoesNotGoToSlot` unless `ok`. -/
def slotTypeCheck (ok : Bool) : InventoryChangeFailure :=
  if ok then InventoryChangeFailure.Okay else InventoryChangeFailure.ItemDoesNotGoToSlot

/-- Source: the `switch (subslot)` of `Inventory::isValidSlot` (lines 549-653). -/
def equipSlotSwitch (E : Env) (inv : Inventory) (subslot : Nat) (entry : ItemEntry) :
    InventoryChangeFailure :=
  let srcInvType := entry.inventorytype
  if subslot = player_equipment_slots.Head then slotTypeCheck (srcInvType = InventoryType.Head)
  else if subslot = player_equipment_slots.Body then slotTypeCheck (srcInvType = InventoryType.Body)
  else if subslot = player_equipment_slots.Chest then
    slotTypeCheck (srcInvType = InventoryType.Chest ∨ srcInvType = InventoryType.Robe)
  else if subslot = player_equipment_slots.Feet then slotTypeCheck (srcInvType = InventoryType.Feet)
  else if subslot = player_equipment_slots.Finger1 ∨ subslot = player_equipment_slots.Finger2 then
    slotTypeCheck (srcInvType = InventoryType.Finger)
  else if subslot = player_equipment_slots.Trinket1 ∨ subslot = player_equipment_slots.Trinket2 then
    slotTypeCheck (srcInvType = InventoryType.Trinket)
  else if subslot = player_equipment_slots.Hands then slotTypeCheck (srcInvType = InventoryType.Hands)
  else if subslot = player_equipment_slots.Legs then slotTypeCheck (srcInvType = InventoryType.Legs)
  else if subslot = player_equipment_slots.Mainhand then
    if srcInvType ≠ InventoryType.MainHandWeapon ∧ srcInvType ≠ InventoryType.TwoHandedWeapon ∧
        srcInvType ≠ InventoryType.Weapon then
      InventoryChangeFailure.ItemDoesNotGoToSlot
    else if srcInvType = InventoryType.TwoHandedWeapon then
      match getItemAtSlot inv (getAbsoluteSlot E.bag0 player_equipment_slots.Offhand) with
      | some offhand => canStoreItems inv offhand.entry 1
      | none => InventoryChangeFailure.Okay
    else InventoryChangeFailure.Okay
  else if subslot = player_equipment_slots.Offhand then
    if srcInvType ≠ InventoryType.OffHandWeapon ∧ srcInvType ≠ InventoryType.Shield ∧
        srcInvType ≠ InventoryType.Weapon then
      InventoryChangeFailure.ItemDoesNotGoToSlot
    else if srcInvType ≠ InventoryType.Shield ∧ inv.owner.canDualWield = false then
      InventoryChangeFailure.CantDualWield
    else
      match getItemAtSlot inv (getAbsoluteSlot E.bag0 player_equipment_slots.Mainhand) with
      | some item =>
        if item.entry.inventorytype = InventoryType.TwoHandedWeapon then
          InventoryChangeFailure.CantEquipWithTwoHanded
        else InventoryChangeFailure.Okay
      | none => InventoryChangeFailure.Okay
  else if subslot = player_equipment_slots.Ranged then slotTypeCheck (srcInvType = InventoryType.Ranged)
  else if subslot = player_equipment_slots.Shoulders then
    slotTypeCheck (srcInvType = InventoryType.Shoulders)
  else if subslot = player_equipment_slots.Tabard then slotTypeCheck (srcInvType = InventoryType.Tabard)
  else if subslot = player_equipment_slots.Waist then slotTypeCheck (srcInvType = InventoryType.Waist)
  else if subslot = player_equipment_slots.Wrists then slotTypeCheck (srcInvType = InventoryType.Wrists)
  else InventoryChangeFailure.ItemDoesNotGoToSlot

/-- Source: `Inventory::isValidSlot`. -/
def isValidSlot (E : Env) (inv : Inventory) (slot : Nat) (entry : ItemEntry) :
    InventoryChangeFailure :=
  let rel := getRelativeSlots slot
  if rel.1 = false then InventoryChangeFailure.InternalBagError
  else if isEquipmentSlot E slot then
    let armorProf := inv.owner.armorProficiency
    let weaponProf := inv.owner.weaponProficiency
    if entry.itemclass = ItemClass.Weapon ∧
        weaponProf &&& E.weaponProfValue (weaponProficiency E entry.subclass) = 0 then
      InventoryChangeFailure.NoRequiredProficiency
    else if entry.itemclass = ItemClass.Armor ∧
        armorProf &&& E.armorProfValue (armorProficiency E entry.subclass) = 0 then
      InventoryChangeFailure.NoRequiredProficiency
    else if 0 < entry.requiredlevel ∧ inv.owner.level < entry.requiredlevel then
      InventoryChangeFailure.CantEquipLevel
    else if entry.requiredskill ≠ 0 ∧ inv.owner.hasSkill entry.requiredskill = false then
      InventoryChangeFailure.CantEquipSkill
    else equipSlotSwitch E inv rel.2.2 entry
  else InventoryChangeFailure.Okay

/-- Source: the mutating tail of `Inventory::swapItems` (lines 411-441), run
once both slot validations passed. -/
def swapCommit (E : Env) (inv : Inventory) (slotA slotB : Nat) (srcItem : GameItem)
    (dstItem : Option GameItem) : Inventory :=
  let o := inv.owner
  let dstGuid := match dstItem with | some d => d.guid | none => 0
  let dstEntryId := match dstItem with | some d => d.entry.id | none => 0
  let dstCreator := match dstItem with | some d => d.creator | none => 0
  let o2 := (o.setInvSlot (slotA &&& 255) dstGuid).setInvSlot (slotB &&& 255) srcItem.guid
  let swapped := setAt (setAt inv.itemsBySlot slotA (inv.itemsBySlot slotB)) slotB
    (inv.itemsBySlot slotA)
  let items := if dstItem.isNone then setAt swapped slotA none else swapped
  let free :=
    if dstItem.isNone then
      if isInventorySlot E slotA then inv.freeSlots + 1
      else if isInventorySlot E slotB then inv.freeSlots - 1
      else inv.freeSlots
    else inv.freeSlots
  let o3 :=
    if isEquipmentSlot E slotA then o2.setVisibleItem (slotA &&& 255) dstEntryId dstCreator
    else o2
  let o4 :=
    if isEquipmentSlot E slotB then
      o3.setVisibleItem (slotB &&& 255) srcItem.entry.id srcItem.creator
    else o3
  { owner := o4, itemsBySlot := items, itemCounter := inv.itemCounter, freeSlots := free }

/-- Source: `Inventory::swapItems`. -/
def swapItems (E : Env) (inv : Inventory) (slotA slotB : Nat) :
    InventoryChangeFailure × Inventory :=
  match getItemAtSlot inv slotA with
  | none => (InventoryChangeFailure.ItemNotFound, inv)
  | some srcItem =>
    let dstItem := getItemAtSlot inv slotB
    if inv.owner.alive = false then (InventoryChangeFailure.YouAreDead, inv)
    else
      let result := isValidSlot E inv slotB srcItem.entry
      if result ≠ InventoryChangeFailure.Okay then (result, inv)
      else
        let result2 :=
          match dstItem with
          | some d => isValidSlot E inv slotA d.entry
          | none => InventoryChangeFailure.Okay
        if result2 ≠ InventoryChangeFailure.Okay then (result2, inv)
        else (InventoryChangeFailure.Okay, swapCommit E inv slotA slotB srcItem dstItem)

/-- Source: the constructor `Inventory::Inventory`: no items, no counters,
`m_freeSlots = player_inventory_pack_slots::End - Start`. -/
def Inventory.init (E : Env) (owner : GameCharacter) : Inventory :=
  { owner := owner
    itemsBySlot := fun _ => none
    itemCounter := fun _ => none
    freeSlots := E.packEnd - E.packStart }

/-- A concrete instance of the absent constants, used for evaluating the
model on examples: backpack bag id 255 with pack sub-slots 23..38, GUIDs made of
the counter, the entry shifted by 24 bits and an item type tag, proficiency
bit `i` for the `i`-th named proficiency and no decoded subclasses. -/
def stdEnv : Env :=
  { bag0 := 255
    packStart := 23
    packEnd := 39
    createEntryGUID := fun low entry => low + entry * 16777216 + 4611686018427387904
    weaponProfValue := fun _ => 1
    armorProfValue := fun _ => 1
    weaponSubclass := fun _ => none
    armorSubclass := fun _ => none }

/-- A living level 1 character inside a world instance, all fields zero. -/
def stdOwner : GameCharacter :=
  { guid := 1, alive := true, level := 1, weaponProficiency := 0, armorProficiency := 0
    hasSkill := fun _ => false, canDualWield := false
    invSlot := fun _ => 0, visibleItem := fun _ => 0, visibleCreator := fun _ => 0
    world := some 1 }

/-- A stackable template without count cap: id 7, stacks of up to 20. -/
def stdEntry : ItemEntry :=
  { id := 7, maxcount := 0, maxstack := 20, itemclass := ItemClass.other 0, subclass := 0
    requiredlevel := 0, requiredskill := 0, inventorytype := InventoryType.other 0 }

/-- The absolute slots of the backpack, in the order the loops visit them. -/
def packSlots (E : Env) : List Nat :=
  (packSubslots E).map (getAbsoluteSlot E.bag0)

/-- Units of template `id` held at `slot`. -/
def slotStack (items : Nat → Option GameItem) (id slot : Nat) : Nat :=
  match items slot with
  | some it => if it.entry.id = id then it.stackCount else 0
  | none => 0

/-- Total of the stack counts of the items of template `id` present in
`m_itemsBySlot` (keys are `UInt16`). -/
def stackTotal (inv : Inventory) (id : Nat) : Nat :=
  ∑ slot in Finset.range 65536, slotStack inv.itemsBySlot id slot

/-- Total of the stack counts of template `id` over a list of slots. -/
def stackSum (items : Nat → Option GameItem) (id : Nat) (slots : List Nat) : Nat :=
  (slots.map (slotStack items id)).sum

/-- Number of pack-range slots without an entry in `m_itemsBySlot`. -/
def emptyPackSlots (E : Env) (inv : Inventory) : Nat :=
  (packSlots E).countP (fun s => (inv.itemsBySlot s).isNone)

/-- The cached counter agrees with the slot map for every template. -/
def countersConsistent (inv : Inventory) : Prop :=
  ∀ id, getItemCount inv id = stackTotal inv id

/-- The free slot counter agrees with the slot map. -/
def freeSlotsConsistent (E : Env) (inv : Inventory) : Prop :=
  inv.freeSlots = emptyPackSlots E inv

/-- One call of the public mutators `createItems` / `removeItems`. -/
inductive Op where
  | create (entry : ItemEntry) (amount : Nat)
  | remove (entry : ItemEntry) (amount : Nat)

/-- State after one call; the return code is dropped. -/
def applyOp (E : Env) (inv : Inventory) : Op → Inventory
  | Op.create entry amount => (createItems E inv entry amount).2
  | Op.remove entry amount => (removeItems E inv entry amount).2

/-- State after a finite sequence of calls. -/
def runOps (E : Env) (inv : Inventory) (ops : List Op) : Inventory :=
  ops.foldl (applyOp E) inv

/-- The entry id shown for an optional occupant (0 when empty). -/
def occupantEntry (o : Option GameItem) : Nat :=
  match o with
  | some d => d.entry.id
  | none => 0

/-- The creator shown for an optional occupant (0 when empty). -/
def occupantCreator (o : Option GameItem) : Nat :=
  match o with
  | some d => d.creator
  | none => 0

/-- An unstackable head piece: id 9, `maxstack` 1, inventory type Head. -/
def stdHelmet : ItemEntry :=
  { id := 9, maxcount := 0, maxstack := 1, itemclass := ItemClass.other 0, subclass := 0
    requiredlevel := 0, requiredskill := 0, inventorytype := InventoryType.Head }

/-- Inventory after `createItems(stdEntry, 5)` on a fresh inventory: one stack
of 5 in the first pack slot (absolute slot 65303). -/
def oneStackInv : Inventory :=
  runOps stdEnv (Inventory.init stdEnv stdOwner) [Op.create stdEntry 5]

/-- Inventory after `createItems(stdHelmet, 1)` and moving the head piece from
the first pack slot (65303) to the head equipment slot (65280). -/
def equippedInv : Inventory :=
  (swapItems stdEnv (createItems stdEnv (Inventory.init stdEnv stdOwner) stdHelmet 1).2
    65303 65280).2

/-- Slot `s` has no entry in the slot map. -/
def isEmptyAt (items : Nat → Option GameItem) (s : Nat) : Bool :=
  (items s).isNone

/-- Slot `s` holds a stack of template `entry` below `entry.maxstack`. -/
def isUnderfull (items : Nat → Option GameItem) (entry : ItemEntry) (s : Nat) : Bool :=
  match items s with
  | some it => decide (it.entry.id = entry.id) && decide (it.stackCount < entry.maxstack)
  | none => false

/-- Stack count of the item at `s` (0 when empty). -/
def stackAt (items : Nat → Option GameItem) (s : Nat) : Nat :=
  match items s with
  | some it => it.stackCount
  | none => 0

/-- Room left below `maxstack` summed over a list of occupied slots. -/
def capSum (items : Nat → Option GameItem) (maxstack : Nat) (slots : List Nat) : Nat :=
  (slots.map (fun s => maxstack - stackAt items s)).sum

/-- What the fill contract observes of the slot map: template and stack count
of each occupied slot. -/
def stackView (items : Nat → Option GameItem) : Nat → Option (ItemEntry × Nat) :=
  fun s => (items s).map (fun it => (it.entry, it.stackCount))

/-- Spec of the first fill phase, following the contract's words: existing
under-full stacks of the template are topped up in the order of `slots`, each
up to `maxstack`. Returns the slot view and the amount still to place. -/
def specTopUp (entry : ItemEntry) :
    List Nat → (Nat → Option (ItemEntry × Nat)) → Nat → (Nat → Option (ItemEntry × Nat)) × Nat
  | [], v, left => (v, left)
  | s :: rest, v, left =>
    match v s with
    | some (e, c) =>
      if e.id = entry.id ∧ c < entry.maxstack then
        specTopUp entry rest (setAt v s (some (e, c + min left (entry.maxstack - c))))
          (left - min left (entry.maxstack - c))
      else specTopUp entry rest v left
    | none => specTopUp entry rest v left

/-- Spec of the second fill phase, following the contract's words: the
remaining amount consumes empty slots one at a time in the order of `slots`,
each new stack capped at `maxstack`. -/
def specNewStacks (entry : ItemEntry) :
    List Nat → (Nat → Option (ItemEntry × Nat)) → Nat → (Nat → Option (ItemEntry × Nat)) × Nat
  | [], v, left => (v, left)
  | s :: rest, v, left =>
    if left = 0 then (v, left)
    else
      match v s with
      | none =>
        specNewStacks entry rest (setAt v s (some (entry, min left entry.maxstack)))
          (left - min left entry.maxstack)
      | some _ => specNewStacks entry rest v left

/-- Spec of the two-phase fill over `slots`. -/
def specFill (entry : ItemEntry) (slots : List Nat) (v : Nat → Option (ItemEntry × Nat))
    (amount : Nat) : (Nat → Option (ItemEntry × Nat)) × Nat :=
  specNewStacks entry slots (specTopUp entry slots v amount).1 (specTopUp entry slots v amount).2

/-- Items carrying the id of `entry` carry `entry` itself: item instances and
the argument of `createItems` refer to the one template of the project. -/
def sameTemplate (items : Nat → Option GameItem) (entry : ItemEntry) : Prop :=
  ∀ s it, items s = some it → it.entry.id = entry.id → it.entry = entry

/-- Units of template `id` at `s` as seen through a slot view. -/
def viewStack (v : Nat → Option (ItemEntry × Nat)) (id s : Nat) : Nat :=
  match v s with
  | some (e, c) => if e.id = id then c else 0
  | none => 0

/-- Total units of template `id` over `slots` as seen through a slot view. -/
def viewSum (v : Nat → Option (ItemEntry × Nat)) (id : Nat) (slots : List Nat) : Nat :=
  (slots.map (viewStack v id)).sum

/-- Room below `maxstack` in the under-full stacks of `entry` over `slots`. -/
def viewCap (entry : ItemEntry) (v : Nat → Option (ItemEntry × Nat)) (slots : List Nat) : Nat :=
  (slots.map (fun s =>
    match v s with
    | some (e, c) => if e.id = entry.id ∧ c < entry.maxstack then entry.maxstack - c else 0
    | none => 0)).sum

/-- Number of empty slots among `slots` in a slot view. -/
def viewEmpty (v : Nat → Option (ItemEntry × Nat)) (slots : List Nat) : Nat :=
  slots.countP (fun s => (v s).isNone)

/-- The amount `createItems` works with: a requested 0 counts as 1. -/
def effectiveAmount (amount : Nat) : Nat :=
  if amount = 0 then 1 else amount

/-- The slot scan exactly as `createItems(entry, amount)` runs it on `inv`. -/
def createScan (E : Env) (inv : Inventory) (entry : ItemEntry) (amount : Nat) : Scan :=
  scanSlots E inv entry (getItemCount inv entry.id)
    (((effectiveAmount amount - 1) / entry.maxstack + 1) % 65536) (packSubslots E) ⟨[], [], 0, 0⟩

/-- Final `amountLeft` of `createItems(entry, amount)` when the fill loops run
on `inv` : the quantity checked by `assert(amountLeft == 0)`. -/
def createAmountLeft (E : Env) (inv : Inventory) (entry : ItemEntry) (amount : Nat) : Nat :=
  (fillPhases E inv entry (createScan E inv entry amount) (effectiveAmount amount)).2

/-- Inventory after `createItems(stdHelmet, 1)`, `createItems(stdEntry, 3)`,
`removeItems(stdHelmet, 1)`, `removeItems(stdEntry, 1)`, `removeItems(stdEntry, 1)` :
the first pack slot (65303) is empty again, the second (65304) holds a stack of
one unit of `stdEntry`. -/
def staleCounterInv : Inventory :=
  runOps stdEnv (Inventory.init stdEnv stdOwner)
    [Op.create stdHelmet 1, Op.create stdEntry 3, Op.remove stdHelmet 1,
      Op.remove stdEntry 1, Op.remove stdEntry 1]

/-- Proficiency requirement of the equip rules: a weapon's (resp. armor's)
subclass proficiency bit is set in the owner's weapon (resp. armor) mask. -/
def meetsProficiency (E : Env) (owner : GameCharacter) (entry : ItemEntry) : Bool :=
  (decide (entry.itemclass ≠ ItemClass.Weapon) ||
    decide (owner.weaponProficiency &&& E.weaponProfValue (weaponProficiency E entry.subclass) ≠ 0)) &&
  (decide (entry.itemclass ≠ ItemClass.Armor) ||
    decide (owner.armorProficiency &&& E.armorProfValue (armorProficiency E entry.subclass) ≠ 0))

/-- Level requirement of the equip rules: `requiredlevel` is 0 or at most the
owner's level. -/
def meetsLevel (owner : GameCharacter) (entry : ItemEntry) : Bool :=
  decide (entry.requiredlevel = 0) || decide (entry.requiredlevel ≤ owner.level)

/-- Skill requirement of the equip rules: `requiredskill` is 0 or a skill the
owner has. -/
def meetsSkill (owner : GameCharacter) (entry : ItemEntry) : Bool :=
  decide (entry.requiredskill = 0) || owner.hasSkill entry.requiredskill

/-- The per-slot whitelist of inventory types as the equip rules state it:
head slot Head only, chest Chest or Robe, finger slots Finger, trinket slots
Trinket, main hand MainHandWeapon, TwoHandedWeapon or Weapon, off hand
OffHandWeapon, Shield or Weapon, each remaining slot the type of its own name.
The neck and back slots have no inventory type named in inventory.cpp and get
the empty whitelist. -/
def slotWhitelist (subslot : Nat) (t : InventoryType) : Bool :=
  if subslot = player_equipment_slots.Head then decide (t = InventoryType.Head)
  else if subslot = player_equipment_slots.Shoulders then decide (t = InventoryType.Shoulders)
  else if subslot = player_equipment_slots.Body then decide (t = InventoryType.Body)
  else if subslot = player_equipment_slots.Chest then
    decide (t = InventoryType.Chest) || decide (t = InventoryType.Robe)
  else if subslot = player_equipment_slots.Waist then decide (t = InventoryType.Waist)
  else if subslot = player_equipment_slots.Legs then decide (t = InventoryType.Legs)
  else if subslot = player_equipment_slots.Feet then decide (t = InventoryType.Feet)
  else if subslot = player_equipment_slots.Wrists then decide (t = InventoryType.Wrists)
  else if subslot = player_equipment_slots.Hands then decide (t = InventoryType.Hands)
  else if subslot = player_equipment_slots.Finger1 then decide (t = InventoryType.Finger)
  else if subslot = player_equipment_slots.Finger2 then decide (t = InventoryType.Finger)
  else if subslot = player_equipment_slots.Trinket1 then decide (t = InventoryType.Trinket)
  else if subslot = player_equipment_slots.Trinket2 then decide (t = InventoryType.Trinket)
  else if subslot = player_equipment_slots.Mainhand then
    decide (t = InventoryType.MainHandWeapon) || decide (t = InventoryType.TwoHandedWeapon) ||
      decide (t = InventoryType.Weapon)
  else if subslot = player_equipment_slots.Offhand then
    decide (t = InventoryType.OffHandWeapon) || decide (t = InventoryType.Shield) ||
      decide (t = InventoryType.Weapon)
  else if subslot = player_equipment_slots.Ranged then decide (t = InventoryType.Ranged)
  else if subslot = player_equipment_slots.Tabard then decide (t = InventoryType.Tabard)
  else false

/-- A two-handed weapon template without requirements: id 11. -/
def stdTwoHander : ItemEntry :=
  { id := 11, maxcount := 0, maxstack := 1, itemclass := ItemClass.other 0, subclass := 0
    requiredlevel := 0, requiredskill := 0, inventorytype := InventoryType.TwoHandedWeapon }

/-- A shield template without requirements: id 12. -/
def stdShield : ItemEntry :=
  { id := 12, maxcount := 0, maxstack := 1, itemclass := ItemClass.other 0, subclass := 0
    requiredlevel := 0, requiredskill := 0, inventorytype := InventoryType.Shield }

/-- An off-hand weapon template without requirements: id 13. -/
def stdOffhandWeapon : ItemEntry :=
  { id := 13, maxcount := 0, maxstack := 1, itemclass := ItemClass.other 0, subclass := 0
    requiredlevel := 0, requiredskill := 0, inventorytype := InventoryType.OffHandWeapon }

/-- Inventory after `createItems(stdShield, 1)` and moving the shield from the
first pack slot (65303) to the off-hand equipment slot (65296). -/
def shieldEquippedInv : Inventory :=
  (swapItems stdEnv (createItems stdEnv (Inventory.init stdEnv stdOwner) stdShield 1).2
    65303 65296).2
/-- The main-hand equipment slot holds a TwoHandedWeapon. -/
def mainhandIsTwoHanded (E : Env) (inv : Inventory) : Bool :=
  match inv.itemsBySlot (getAbsoluteSlot E.bag0 player_equipment_slots.Mainhand) with
  | some item => decide (item.entry.inventorytype = InventoryType.TwoHandedWeapon)
  | none => false

/-- The `power_type` constants. By the field comments of `GameUnit::initialize`
the power fields `Power1 .. Power5` hold Mana, Rage, Focus, Energy, Happiness. -/
inductive PowerType where
  | Mana | Rage | Focus | Energy | Happiness
  | other (raw : Nat)
  deriving DecidableEq, Repr

/-- Offset of a power type from `unit_fields::Power1`
(`Power1 + static_cast<Int8>(power)`). -/
def PowerType.index : PowerType → Nat
  | PowerType.Mana => 0
  | PowerType.Rage => 1
  | PowerType.Focus => 2
  | PowerType.Energy => 3
  | PowerType.Happiness => 4
  | PowerType.other raw => raw

/-- The state of a `GameUnit` that combat and regeneration read or write.
`power i` / `maxPower i` are the fields `Power1 + i` / `MaxPower1 + i`; `victim` is
`m_victim` (the id of the unit pointed to); a countdown is `some end` while it
is running; `inWorld` tells whether `getTileIndex` succeeds, i.e. the unit
belongs to a world instance. Float fields are kept as exact rationals. -/
structure GameUnit where
  health : Nat
  level : Nat
  resistances : Nat
  baseAttackTime : Nat
  powerType : PowerType
  power : Nat → Nat
  maxPower : Nat → Nat
  isPlayer : Bool
  modManaRegen : ℚ
  victim : Option Nat
  attackSwingCountdown : Option Nat
  despawnCountdown : Option Nat
  regenCountdown : Option Nat
  lastAttackSwing : Nat
  inWorld : Bool

/-- Rounding of a rational to the nearest integer, ties to the even one. -/
def roundHalfEven (y : ℚ) : ℤ :=
  if y - ⌊y⌋ < 1 / 2 then ⌊y⌋
  else if 1 / 2 < y - ⌊y⌋ then ⌊y⌋ + 1
  else if ⌊y⌋ % 2 = 0 then ⌊y⌋
  else ⌊y⌋ + 1

/-- The binary exponent of a binary32 value of magnitude `|x|` : the `e` with
`2 ^ e <= |x| < 2 ^ (e + 1)`, not below -126 (subnormal numbers share the
exponent of the smallest normal ones). -/
def f32Exponent (x : ℚ) : ℤ :=
  max (Int.log 2 |x|) (-126)

/-- The value of the C type `float` (IEEE 754 binary32) nearest to `x`, ties to
the even significand, which is what a conversion to `float` and every `float`
operation returns in the default rounding mode: `x` is rounded to a multiple of
`2 ^ (e - 23)`, the spacing of the 24 bit significands at its exponent `e`.
Magnitudes from `2 ^ 128` on (infinities) do not arise from 32 bit fields and
are not modelled. -/
def f32 (x : ℚ) : ℚ :=
  (roundHalfEven (x / 2 ^ (f32Exponent x - 23)) : ℚ) * 2 ^ (f32Exponent x - 23)

/-- The conversion `UInt32(x)` of a `float` : the fractional part is cut off.
For a value outside the range of `UInt32` the conversion is undefined in C++;
the model keeps the low 32 bits. -/
def f32ToUInt32 (x : ℚ) : Nat :=
  ⌊x⌋₊ % 4294967296

/-- Source: `calculateArmorReducedDamage`. Every conversion to `float` and
every `float` operation is rounded to binary32 (`f32`); the literals 400,
85, 22167.5, 467.5, 10557.5 and 0.75 are binary32 values. -/
def calculateArmorReducedDamage (attacker victim : GameUnit) (damage : Nat) : Nat :=
  let armor0 : ℚ := f32 (victim.resistances : ℚ)
  let armor : ℚ := if armor0 < 0 then 0 else armor0
  let attackerLevel := attacker.level
  let level : ℚ := f32 (attackerLevel : ℚ)
  let tmp0 : ℚ :=
    if attackerLevel < 60 then f32 (armor / f32 (f32 (armor + 400) + f32 (85 * level)))
    else if attackerLevel < 70 then
      f32 (armor / f32 (f32 (armor - 22167.5) + f32 (467.5 * level)))
    else f32 (armor / f32 (armor + 10557.5))
  let tmp1 : ℚ := if tmp0 < 0 then 0 else tmp0
  let tmp : ℚ := if tmp1 > 0.75 then 0.75 else tmp1
  let d : ℚ := f32 (damage : ℚ)
  let newDamage : Nat := f32ToUInt32 (f32 (d - f32 (d * tmp)))
  if newDamage > 1 then newDamage else 1

/-- The mitigation fraction of the combat contract: `armor/(armor+400+85*level)`
below level 60, `armor/(armor-22167.5+467.5*level)` below level 70,
`armor/(armor+10557.5)` otherwise, clamped to `[0, 0.75]`. -/
def mitigationFraction (armor level : Nat) : ℚ :=
  let f : ℚ :=
    if level < 60 then (armor : ℚ) / ((armor : ℚ) + 400 + 85 * (level : ℚ))
    else if level < 70 then (armor : ℚ) / ((armor : ℚ) - 22167.5 + 467.5 * (level : ℚ))
    else (armor : ℚ) / ((armor : ℚ) + 10557.5)
  max 0 (min f 0.75)

/-- The final damage as the combat contract words it:
`max(1, round(damage * (1 - f)))`. -/
def specRoundedDamage (damage armor level : Nat) : Int :=
  max 1 (round ((damage : ℚ) * (1 - mitigationFraction armor level)))

/-- The mitigation fraction of the combat contract evaluated in binary32: the
same three formulas with every operand converted to `float` and every
operation rounded, clamped to `[0, 0.75]`. -/
def f32MitigationFraction (armor level : Nat) : ℚ :=
  let a : ℚ := f32 (armor : ℚ)
  let l : ℚ := f32 (level : ℚ)
  let f : ℚ :=
    if level < 60 then f32 (a / f32 (f32 (a + 400) + f32 (85 * l)))
    else if level < 70 then f32 (a / f32 (f32 (a - 22167.5) + f32 (467.5 * l)))
    else f32 (a / f32 (a + 10557.5))
  max 0 (min f 0.75)

/-- The final damage of the combat contract evaluated in binary32 and cut off:
`max(1, trunc(damage - damage * f))`, the product and the difference rounded
to `float`. -/
def specBinary32Damage (damage armor level : Nat) : Nat :=
  max 1 (f32ToUInt32
    (f32 (f32 (damage : ℚ) - f32 (f32 (damage : ℚ) * f32MitigationFraction armor level))))

/-- A level 1 unit with 60 health, no armor, a two second swing, mana as power
type, outside combat and inside a world instance. -/
def stdUnit : GameUnit :=
  { health := 60, level := 1, resistances := 0, baseAttackTime := 2000
    powerType := PowerType.Mana, power := fun _ => 0, maxPower := fun _ => 100
    isPlayer := false, modManaRegen := 0
    victim := none, attackSwingCountdown := none, despawnCountdown := none
    regenCountdown := none, lastAttackSwing := 0, inWorld := true }

/-- The standard unit wearing 10000 armor. -/
def armoredUnit : GameUnit :=
  { stdUnit with resistances := 10000 }

/-- The standard unit wearing 1375 armor. -/
def lightArmorUnit : GameUnit :=
  { stdUnit with resistances := 1375 }

/-- The standard unit at level 10. -/
def levelTenUnit : GameUnit :=
  { stdUnit with level := 10 }

/-- The standard unit wearing 100000 armor. -/
def heavyArmorUnit : GameUnit :=
  { stdUnit with resistances := 100000 }

/-- Packets broadcast to the tile subscribers in sight and `autoAttackError`
signals raised by the combat handlers of `GameUnit`. -/
inductive CombatEvent where
  | attackStart (attacker victim : Nat)
  | attackStop (attacker victim : Nat)
  | attackStateUpdate (attacker victim damage : Nat)
  | attackErrorTargetDead (unit : Nat)
  | attackErrorWrongFacing (unit : Nat)
  deriving DecidableEq, Repr

/-- The units of one world instance, addressed by an id below `unitCount`, the
clock `getCurrentTime()`, the constant `constants::OneSecond` of the absent
header, the facing relation `inArc a v` (`a.isInArc(2*pi/3, location of v)`,
a function of positions no handler modelled here changes) and the log of
events sent so far. -/
structure World where
  units : Nat → GameUnit
  unitCount : Nat
  now : Nat
  oneSecond : Nat
  inArc : Nat → Nat → Bool
  log : List CombatEvent

/-- Apply a field update to one unit. -/
def World.modify (w : World) (id : Nat) (f : GameUnit → GameUnit) : World :=
  { w with units := setAt w.units id (f (w.units id)) }

/-- Append an event to the log. -/
def World.emit (w : World) (e : CombatEvent) : World :=
  { w with log := w.log ++ [e] }

/-- Source: `GameUnit::startAttack`. -/
def startAttack (w : World) (self target : Nat) : World :=
  if (w.units self).victim = some target then w
  else if (w.units target).health = 0 then w.emit (CombatEvent.attackErrorTargetDead self)
  else if (w.units self).inWorld = false then w
  else
    let w1 := w.emit (CombatEvent.attackStart self target)
    let nextAttackSwing := w1.now
    let attackSwingCooldown := (w1.units self).lastAttackSwing + (w1.units self).baseAttackTime
    let next := if attackSwingCooldown > nextAttackSwing then attackSwingCooldown else nextAttackSwing
    w1.modify self (fun u => { u with victim := some target, attackSwingCountdown := some next })

/-- Source: `GameUnit::stopAttack`. -/
def stopAttack (w : World) (self : Nat) : World :=
  match (w.units self).victim with
  | none => w
  | some victimGUID =>
    let w1 := w.modify self (fun u => { u with attackSwingCountdown := none, victim := none })
    if (w1.units self).inWorld = false then w1
    else w1.emit (CombatEvent.attackStop self victimGUID)

/-- Source: `GameUnit::triggerDespawnTimer`. -/
def triggerDespawnTimer (w : World) (self despawnDelay : Nat) : World :=
  w.modify self (fun u => { u with despawnCountdown := some (w.now + despawnDelay) })

/-- Source: `GameUnit::onKilled`. -/
def onKilled (w : World) (self : Nat) : World :=
  triggerDespawnTimer w self (w.oneSecond * 30)

/-- Source: `GameUnit::onVictimKilled`. -/
def onVictimKilled (w : World) (self : Nat) : World :=
  stopAttack w self

/-- Source: `GameUnit::onVictimDespawned`. -/
def onVictimDespawned (w : World) (self : Nat) : World :=
  stopAttack w self

/-- The slots of `self.killed` connected by `startAttack` : every unit of
`listeners` whose victim is `self` runs `onVictimKilled`. The connection
members `m_victimDied` / `m_victimDespawned` are declared in the absent header
and taken as scoped connections, so a unit listens to its current victim only. -/
def notifyVictimKilled (self : Nat) : List Nat → World → World
  | [], w => w
  | x :: rest, w =>
    notifyVictimKilled self rest
      (if (w.units x).victim = some self then onVictimKilled w x else w)

/-- The signal `self.killed(killer)` : the unit's own `onKilled` (connected in
the constructor) followed by the `onVictimKilled` of its attackers. -/
def killedSignal (w : World) (self : Nat) : World :=
  notifyVictimKilled self (List.range w.unitCount) (onKilled w self)

/-- Source: the rage branch of `GameUnit::onAttackSwing` (lines 403-421), float
arithmetic over exact rationals. Returns the new value of `Power2`. -/
def rageAfterHit (u : GameUnit) (damage : Nat) : Nat :=
  let weaponSpeedHitFactor : ℚ := ((u.baseAttackTime : ℚ) / 1000) * 3.5
  let level : ℚ := (u.level : ℚ)
  let rageconversion : ℚ := ((0.0091107836 * level * level) + 3.225598133 * level) + 4.2652911
  let addRage : ℚ := (((damage : ℚ) / rageconversion * 7.5 + weaponSpeedHitFactor) / 2) * 10
  let currentRage := u.power PowerType.Rage.index
  let maxRage := u.maxPower PowerType.Rage.index
  if (currentRage : ℚ) + addRage > (maxRage : ℚ) then maxRage
  else ⌊(currentRage : ℚ) + addRage⌋₊

/-- Source: the tail of `GameUnit::onAttackSwing` (lines 443-445): schedule the
next swing at `m_lastAttackSwing + BaseAttackTime`. -/
def rearmSwing (w : World) (self : Nat) : World :=
  w.modify self (fun u =>
    { u with attackSwingCountdown := some (u.lastAttackSwing + u.baseAttackTime) })

/-- Source: the hit of `GameUnit::onAttackSwing` (lines 381-433): damage roll
reduced by armor, attack state packet, rage for rage users, and the victim's
health lowered with a floor at 0. `roll` is the value
`UInt32(distribution(randomGenerator))` drawn for this swing. -/
def swingHit (w1 : World) (self v roll : Nat) : World :=
  let damage := calculateArmorReducedDamage (w1.units self) (w1.units v) roll
  let w2 := w1.emit (CombatEvent.attackStateUpdate self v damage)
  let w3 :=
    if (w2.units self).powerType = PowerType.Rage then
      w2.modify self (fun u =>
        { u with power := setAt u.power PowerType.Rage.index (rageAfterHit u damage) })
    else w2
  let health := (w3.units v).health
  let health1 := if health > damage then health - damage else 0
  w3.modify v (fun u => { u with health := health1 })

/-- Source: `GameUnit::onAttackSwing`. -/
def onAttackSwing (w : World) (self roll : Nat) : World :=
  match (w.units self).victim with
  | none => w
  | some v =>
    let w1 := w.modify self (fun u => { u with lastAttackSwing := w.now })
    if w1.inArc self v = false then
      rearmSwing (w1.emit (CombatEvent.attackErrorWrongFacing self)) self
    else if (w1.units self).inWorld = false then w1
    else
      let w4 := swingHit w1 self v roll
      if (w4.units v).health = 0 then killedSignal w4 v
      else rearmSwing w4 self

/-- The attack swing countdown of `self` ends: it stops running and its
`ended` signal calls `onAttackSwing`. Nothing happens while the countdown is
not running or its end lies in the future. -/
def attackSwingTimerFires (w : World) (self roll : Nat) : World :=
  match (w.units self).attackSwingCountdown with
  | none => w
  | some t =>
    if t ≤ w.now then
      onAttackSwing (w.modify self (fun u => { u with attackSwingCountdown := none })) self roll
    else w

/-- The transitions of the attack state machine: the two public calls, the
swing timer, the handlers `onVictimKilled` / `onVictimDespawned` of one unit,
the `killed` signal of a unit (its `onKilled` and its attackers' handlers) and
the passing of time. -/
inductive UnitAction where
  | startAttack (self target : Nat)
  | stopAttack (self : Nat)
  | swingTimer (self roll : Nat)
  | victimKilled (self : Nat)
  | victimDespawned (self : Nat)
  | killed (self : Nat)
  | advance (dt : Nat)

/-- One transition; actions naming a unit that does not exist do nothing. -/
def stepUnit (w : World) : UnitAction → World
  | UnitAction.startAttack self target =>
    if self < w.unitCount ∧ target < w.unitCount then startAttack w self target else w
  | UnitAction.stopAttack self => if self < w.unitCount then stopAttack w self else w
  | UnitAction.swingTimer self roll =>
    if self < w.unitCount then attackSwingTimerFires w self roll else w
  | UnitAction.victimKilled self => if self < w.unitCount then onVictimKilled w self else w
  | UnitAction.victimDespawned self =>
    if self < w.unitCount then onVictimDespawned w self else w
  | UnitAction.killed self => if self < w.unitCount then killedSignal w self else w
  | UnitAction.advance dt => { w with now := w.now + dt }

/-- The world after a finite sequence of transitions. -/
def runUnitActions (w : World) (actions : List UnitAction) : World :=
  actions.foldl stepUnit w

/-- A world of freshly constructed units: nobody has a victim and no attack
swing countdown is running (`m_victim(nullptr)`, countdowns not started). -/
def World.fresh (w : World) : Prop :=
  ∀ u, (w.units u).victim = none ∧ (w.units u).attackSwingCountdown = none

/-- Two standard units facing each other in one world instance at time 0. -/
def duelWorld : World :=
  { units := fun _ => stdUnit, unitCount := 2, now := 0, oneSecond := 1000
    inArc := fun _ _ => true, log := [] }

/-- A unit with a victim has a running attack swing countdown, belongs to a
world instance and exists. -/
def victimHasSwingTimer (w : World) : Prop :=
  ∀ u, (w.units u).victim ≠ none →
    (w.units u).attackSwingCountdown ≠ none ∧ (w.units u).inWorld = true ∧ u < w.unitCount

/-- World `w2` differs from `w1` at most in the power and health fields of its
units. -/
def onlyPowerHealthChanged (w1 w2 : World) : Prop :=
  ∀ u, ∃ p h, w2.units u = { w1.units u with power := p, health := h }

/-- The event is an attack start notification. -/
def CombatEvent.isAttackStart : CombatEvent → Bool
  | CombatEvent.attackStart _ _ => true
  | _ => false

/-- The duel after both units started attacking each other at time 0 (their
first swings are due at time 2000) and 2000 milliseconds passed. -/
def duelStarted : World :=
  runUnitActions duelWorld
    [UnitAction.startAttack 0 1, UnitAction.startAttack 1 0, UnitAction.advance 2000]

/-- One swing of attacker `a` : time passes until the end of its attack swing
countdown and the countdown fires with damage roll `roll`. A unit without a
running countdown does not swing. -/
def swingRound (w : World) (a roll : Nat) : World :=
  match (w.units a).attackSwingCountdown with
  | none => w
  | some t =>
    stepUnit (stepUnit w (UnitAction.advance (t - w.now))) (UnitAction.swingTimer a roll)

/-- Repeated swings of attacker `a`, one per damage roll of the list. -/
def swingRounds (w : World) (a : Nat) (rolls : List Nat) : World :=
  rolls.foldl (fun x roll => swingRound x a roll) w

/-- Twelve damage rolls between 5 and 10. -/
def duelRolls : List Nat := [5, 10, 7, 8, 6, 9, 5, 10, 7, 8, 6, 9]

/-- Coordinates of a tile of the visibility grid (`TileIndex2D`). -/
abbrev TileIndex2D := Int × Int

/-- The Chebyshev distance of two tiles. -/
def chebyshev (a b : TileIndex2D) : Nat :=
  max (a.1 - b.1).natAbs (a.2 - b.2).natAbs

/-- The offsets of the sight radius 1 along one axis. -/
def sightOffsets : List Int := [-1, 0, 1]

/-- Modelled from the spec: `forEachTileInSight` (its header is not part of
the sources) invokes the callback once per tile of the 3x3 neighbourhood of
`center`; the list holds the tiles in the order of the calls, row by row. -/
def forEachTileInSight (center : TileIndex2D) : List TileIndex2D :=
  sightOffsets.flatMap (fun dy => sightOffsets.map (fun dx => (center.1 + dx, center.2 + dy)))

/-- Modelled from the spec: `forEachTileInSightWithout` (same absent header)
invokes the callback for the tiles of the neighbourhood of `newCenter` that are
not in the neighbourhood of `oldCenter`. -/
def forEachTileInSightWithout (newCenter oldCenter : TileIndex2D) : List TileIndex2D :=
  (forEachTileInSight newCenter).filter (fun t => decide (t ∉ forEachTileInSight oldCenter))

/-- The two sets of a `VisibilityTile` per tile of the grid: the watchers
(subscribers, by id) and the game objects (by id). -/
structure VisibilityGrid where
  watchers : TileIndex2D → Finset Nat
  gameObjects : TileIndex2D → Finset Nat

/-- One pass of `Player::onTileChangePending` over the tiles handed to its
callback: on every tile the loop over the watchers asserts
`subscriber != this` before it sends the packet. The result is `none` when an
assertion fails and the list of visited tiles otherwise. -/
def tileChangePass (g : VisibilityGrid) (self : Nat) : List TileIndex2D → Option (List TileIndex2D)
  | [] => some []
  | t :: rest =>
    if self ∈ g.watchers t then none
    else (tileChangePass g self rest).map (fun visited => t :: visited)

/-- What one call of `Player::onTileChangePending` did: the grid afterwards and
the tiles visited by the spawn pass and by the despawn pass. -/
structure TileChange where
  grid : VisibilityGrid
  spawnTiles : List TileIndex2D
  despawnTiles : List TileIndex2D

/-- Source: `Player::onTileChangePending` (world/player.cpp). The player `self`
stops watching the old tile, runs the spawn pass over
`forEachTileInSightWithout(new, old)` and the despawn pass over
`forEachTileInSightWithout(old, new)`, then watches the new tile. -/
def onTileChangePending (g : VisibilityGrid) (self : Nat) (oldTile newTile : TileIndex2D) :
    Option TileChange :=
  let g1 : VisibilityGrid :=
    { g with watchers := Function.update g.watchers oldTile ((g.watchers oldTile).erase self) }
  match tileChangePass g1 self (forEachTileInSightWithout newTile oldTile) with
  | none => none
  | some spawned =>
    match tileChangePass g1 self (forEachTileInSightWithout oldTile newTile) with
    | none => none
    | some despawned =>
      some
        { grid :=
            { g1 with
              watchers := Function.update g1.watchers newTile (insert self (g1.watchers newTile)) }
          spawnTiles := spawned
          despawnTiles := despawned }

/-- A grid in which player 7 watches tile (5, 6) and player 8 watches tile
(5, 4). -/
def stdGrid : VisibilityGrid :=
  { watchers := fun t => if t = (5, 6) then {7} else if t = (5, 4) then {8} else ∅
    gameObjects := fun _ => ∅ }

/-- Source: the `packGUID` loop of `Inventory::addSpawnBlocks`
(`for (UInt8 i = 0; guidCopy != 0; ++i)`). `mask` is `packGUID[0]`, `bytes` are
`packGUID[1 .. size - 1]`; the `UInt8` counter and the `UInt8(1 << i)` cast wrap
at 256. -/
def packGuidLoop (guidCopy i mask : Nat) (bytes : List Nat) : Nat × List Nat :=
  if h : guidCopy = 0 then (mask, bytes)
  else if guidCopy &&& 0xFF ≠ 0 then
    packGuidLoop (guidCopy >>> 8) ((i + 1) % 256) (mask ||| ((1 <<< i) % 256))
      (bytes ++ [guidCopy &&& 0xFF])
  else packGuidLoop (guidCopy >>> 8) ((i + 1) % 256) mask bytes
termination_by guidCopy
decreasing_by
  all_goals
    simp_wf
    rw [Nat.shiftRight_eq_div_pow]
    exact Nat.div_lt_self (Nat.pos_of_ne_zero h) (by norm_num)

/-- Source: the bytes `packGUID[0 .. size - 1]` that `addSpawnBlocks` writes
for a guid: the mask byte followed by the packed bytes. -/
def packGuid (guid : Nat) : List Nat :=
  (packGuidLoop guid 0 0 []).1 :: (packGuidLoop guid 0 0 []).2

/-- Byte `j` of a guid, least significant first. -/
def guidByte (guid j : Nat) : Nat :=
  (guid >>> (8 * j)) &&& 0xFF

/-- The number of bits set among the low eight bits of a mask byte. -/
def popcount8 (mask : Nat) : Nat :=
  ((List.range 8).filter (fun i => mask.testBit i)).length

/-- Decoding of a packed guid: for each of the `n` mask bits from bit `i` on
that is set, the next byte of the stream is byte `i` of the guid. -/
def unpackGuidFrom : Nat → Nat → Nat → List Nat → Nat
  | 0, _, _, _ => 0
  | n + 1, i, mask, bytes =>
    if mask.testBit i then
      match bytes with
      | [] => 0
      | b :: rest => (b <<< (8 * i)) + unpackGuidFrom n (i + 1) mask rest
    else unpackGuidFrom n (i + 1) mask bytes

/-- Decoding of the bytes written by `packGuid`. -/
def unpackGuid : List Nat → Nat
  | [] => 0
  | mask :: bytes => unpackGuidFrom 8 0 mask bytes

/-- The fields of a realm item record (`ItemData`, declared in an absent
header) that decide the state of the inventory: template id, absolute slot
(`UInt16`), stack count and creator. `contained`, `durability` and the random
property indices are copied to item fields the model does not hold. -/
structure ItemData where
  entry : Nat
  slot : Nat
  stackCount : Nat
  creator : Nat
  deriving DecidableEq, Repr

/-- Source: `operator>>(io::Reader&, Inventory&)`: the inventory is emptied,
`m_freeSlots` reset to `End - Start`, the counters cleared and the records read
from the stream stored in `m_realmData`. -/
def readInventory (E : Env) (inv : Inventory) (records : List ItemData) :
    Inventory × List ItemData :=
  ({ owner := inv.owner
     itemsBySlot := fun _ => none
     itemCounter := fun _ => none
     freeSlots := E.packEnd - E.packStart }, records)

/-- Source: the body of the reconstruction loop of `Inventory::addSpawnBlocks`
(lines 771-811) for one record. `project` is `getProject().items.getById`. The
difference `data.stackCount - 1` handed to `addStacks` is taken as a 16 bit
amount, like the amounts `createItems` passes. -/
def reconstructItem (E : Env) (project : Nat → Option ItemEntry) (inv : Inventory)
    (data : ItemData) : Inventory :=
  match project data.entry with
  | none => inv
  | some entry =>
    let g := generateId inv.owner
    let item0 : GameItem := { newItem E entry g.1 with creator := data.creator }
    let o1 := notifyCreation E g.2 data.slot item0
    let r := addStacks item0 ((data.stackCount + 65535) % 65536)
    { owner := o1
      itemsBySlot := setAt inv.itemsBySlot data.slot (some r.1)
      itemCounter := counterAdd inv.itemCounter data.entry data.stackCount
      freeSlots := if isInventorySlot E data.slot then inv.freeSlots - 1 else inv.freeSlots }

/-- Source: the reconstruction part of `Inventory::addSpawnBlocks` (lines
758-817): with realm data at hand and the owner in a world instance every
record is turned into an item and the realm data is cleared; without a world
instance nothing happens. The creation blocks written afterwards change no
state. Returns the inventory and the remaining `m_realmData`. -/
def addSpawnBlocks (E : Env) (project : Nat → Option ItemEntry) (inv : Inventory)
    (realmData : List ItemData) : Inventory × List ItemData :=
  if realmData.isEmpty then (inv, realmData)
  else
    match inv.owner.world with
    | none => (inv, realmData)
    | some _ => (realmData.foldl (reconstructItem E project) inv, [])

/-- Units of template `id` that a list of realm item records carries. -/
def recordTotal (records : List ItemData) (id : Nat) : Nat :=
  (records.map (fun r => if r.entry = id then r.stackCount else 0)).sum

/-- An item project that knows the standard template (id 7) and the head piece
(id 9). -/
def stdProject (id : Nat) : Option ItemEntry :=
  if id = 7 then some stdEntry else if id = 9 then some stdHelmet else none

/-- A realm record of five head pieces in one stack in the first pack slot;
the template of the head piece stacks to 1. -/
def overfullRecord : ItemData :=
  { entry := 9, slot := 65303, stackCount := 5, creator := 0 }

/-- The inventory after reading `records` from the stream and reconstructing
them in `addSpawnBlocks`. -/
def loadInventory (E : Env) (project : Nat → Option ItemEntry) (inv : Inventory)
    (records : List ItemData) : Inventory :=
  (addSpawnBlocks E project (readInventory E inv records).1 (readInventory E inv records).2).1

/-- A realm item record is well formed for a project: its template is known
under its id, its stack count lies between 1 and the template's `maxstack`, and
its slot is a `UInt16`. -/
def ItemData.wellFormed (project : Nat → Option ItemEntry) (r : ItemData) : Prop :=
  ∃ e, project r.entry = some e ∧ e.id = r.entry ∧ 1 ≤ r.stackCount ∧
    r.stackCount ≤ e.maxstack ∧ r.slot < 65536

/-- Two well formed realm records: five units of the standard template in the
first pack slot and a head piece in the head equipment slot. -/
def stdRecords : List ItemData :=
  [{ entry := 7, slot := 65303, stackCount := 5, creator := 0 },
   { entry := 9, slot := 65280, stackCount := 1, creator := 0 }]

/-- Source: `GameUnit::regeneratePower`. The `float` amount is an exact
rational, `UInt32(addPower)` truncates it and keeps the low 32 bits, and
`current += ...` wraps at `2 ^ 32`. -/
def regeneratePower (u : GameUnit) (power : PowerType) : GameUnit :=
  let current := u.power power.index
  let max := u.maxPower power.index
  let addPower : ℚ :=
    match power with
    | PowerType.Mana => if u.isPlayer then u.modManaRegen * 2 else 0
    | PowerType.Energy => 20
    | PowerType.Rage => 30
    | _ => 0
  let add : Nat := ⌊addPower⌋₊ % 4294967296
  let current1 : Nat :=
    if power ≠ PowerType.Rage then
      let c := (current + add) % 4294967296
      if c > max then max else c
    else if current ≤ add then 0
    else current - add
  { u with power := setAt u.power power.index current1 }

/-- The standard unit with 90 of 100 energy and 25 rage. -/
def energyUnit : GameUnit :=
  { stdUnit with
    power := fun i => if i = 3 then 90 else if i = 1 then 25 else 0 }

/-- The `game::party_result` codes that player_group.cpp returns. -/
inductive PartyResult where
  | Ok
  | NotInYourParty
  | PartyFull
  deriving DecidableEq, Repr

/-- The fields of a group member entry that player_group.cpp writes. -/
structure GroupMember where
  status : Nat
  name : String
  group : Nat
  assistant : Bool
  deriving DecidableEq, Repr

/-- The members of `PlayerGroup` that `addMember`, `addInvite` and `isMember`
read or write: the map `m_members` (its key set and the entry stored under
each key), the set `m_invited` and the leader GUID. -/
structure PlayerGroup where
  memberGuids : Finset Nat
  memberInfo : Nat → GroupMember
  invited : Finset Nat
  leaderGUID : Nat

/-- What player_group.cpp takes from outside: `isFull()` (defined in the absent
header), whether `getPlayerByCharacterGuid` finds a player for a GUID, and the
two `game::group_member_status` constants. -/
structure GroupEnv where
  isFull : PlayerGroup → Bool
  online : Nat → Bool
  statusOffline : Nat
  statusOnline : Nat

/-- Source: `PlayerGroup::isMember`. -/
def isMember (g : PlayerGroup) (guid : Nat) : Bool :=
  decide (guid ∈ g.memberGuids)

/-- Source: `PlayerGroup::sendUpdate`: the status of every member is refreshed;
the packets sent carry no group state. -/
def sendUpdate (G : GroupEnv) (g : PlayerGroup) : PlayerGroup :=
  { g with
    memberInfo := fun k =>
      if k ∈ g.memberGuids then
        { g.memberInfo k with status := if G.online k then G.statusOnline else G.statusOffline }
      else g.memberInfo k }

/-- Source: `PlayerGroup::addMember`; `guid` and `name` are `member.getGuid()`
and `member.getName()`. The update flags of the character and the packets sent
to the members are not part of the group state. -/
def addMember (G : GroupEnv) (g : PlayerGroup) (guid : Nat) (name : String) :
    PartyResult × PlayerGroup :=
  if guid ∉ g.invited then (PartyResult.NotInYourParty, g)
  else
    let g1 : PlayerGroup := { g with invited := g.invited.erase guid }
    if G.isFull g1 then (PartyResult.PartyFull, g1)
    else
      let newMember : GroupMember := { status := 1, name := name, group := 0, assistant := false }
      let g2 : PlayerGroup :=
        { g1 with
          memberGuids := insert guid g1.memberGuids
          memberInfo := setAt g1.memberInfo guid newMember }
      (PartyResult.Ok, sendUpdate G g2)

/-- Source: `PlayerGroup::addInvite`. -/
def addInvite (G : GroupEnv) (g : PlayerGroup) (inviteGuid : Nat) : PartyResult × PlayerGroup :=
  if G.isFull g then (PartyResult.PartyFull, g)
  else (PartyResult.Ok, { g with invited := insert inviteGuid g.invited })

/-- A group environment in which a group is full with five members and every
player is online. -/
def stdGroupEnv : GroupEnv :=
  { isFull := fun g => decide (5 ≤ g.memberGuids.card)
    online := fun _ => true
    statusOffline := 0
    statusOnline := 1 }

/-- A group of the leader (GUID 1) alone with a pending invite for GUID 2. -/
def stdGroup : PlayerGroup :=
  { memberGuids := {1}
    memberInfo := fun _ => { status := 1, name := "leader", group := 0, assistant := false }
    invited := {2}
    leaderGUID := 1 }

/-- How a run of `CheckWildCard` ends: with its result, with a read of
`szString` or `szWildCard` at a position behind the terminating NUL, or
unfinished after the given number of steps. -/
inductive WildCardOutcome where
  | result (matched : Bool)
  | readBeyondString (pos : Nat)
  | readBeyondMask (pos : Nat)
  | unfinished
  deriving DecidableEq, Repr

/-- The program points of `CheckWildCard` at which a loop condition or a branch
is evaluated. -/
inductive WildCardPoint where
  | skipQuestion
  | testStar
  | skipStars
  | afterStars
  | scanSubString
  | search
  | matchLoop
  | afterMatch
  | compare
  deriving DecidableEq, Repr

/-- The locals of `CheckWildCard` : the program point, the offsets of
`szString`, `szWildCard` and `szSubString` from the start of their buffers,
`nSubStringLength` and `nMatchCount`. -/
structure WildCardState where
  point : WildCardPoint
  si : Nat
  wi : Nat
  sub : Nat
  len : Nat
  n : Nat
  deriving DecidableEq, Repr

/-- A read of a NUL-terminated buffer whose characters before the NUL are
`str` : the character at `i`, the NUL at `i = length`, nothing behind it. -/
def readChar (str : List Nat) (i : Nat) : Option Nat :=
  if i < str.length then some (str.getD i 0)
  else if i = str.length then some 0
  else none

/-- Source: one evaluation of a loop condition or branch of the `for(;;)` body
of `CheckWildCard`. `upper` is `AsciiToUpperTable` (defined outside the sources
at hand), 63 is the question mark and 42 the star. -/
def wildCardStep (upper : Nat → Nat) (str mask : List Nat) (st : WildCardState) :
    WildCardState ⊕ WildCardOutcome :=
  match st.point with
  | WildCardPoint.skipQuestion =>
    match readChar mask st.wi with
    | none => Sum.inr (WildCardOutcome.readBeyondMask st.wi)
    | some c =>
      if c = 63 then Sum.inl { st with wi := st.wi + 1, si := st.si + 1 }
      else Sum.inl { st with point := WildCardPoint.testStar }
  | WildCardPoint.testStar =>
    match readChar mask st.wi with
    | none => Sum.inr (WildCardOutcome.readBeyondMask st.wi)
    | some c =>
      if c = 42 then Sum.inl { st with point := WildCardPoint.skipStars }
      else Sum.inl { st with point := WildCardPoint.compare }
  | WildCardPoint.skipStars =>
    match readChar mask st.wi with
    | none => Sum.inr (WildCardOutcome.readBeyondMask st.wi)
    | some c =>
      if c = 42 ∨ c = 63 then Sum.inl { st with wi := st.wi + 1 }
      else Sum.inl { st with point := WildCardPoint.afterStars }
  | WildCardPoint.afterStars =>
    match readChar mask st.wi with
    | none => Sum.inr (WildCardOutcome.readBeyondMask st.wi)
    | some c =>
      if c = 0 then Sum.inr (WildCardOutcome.result true)
      else Sum.inl { st with point := WildCardPoint.scanSubString, sub := st.wi }
  | WildCardPoint.scanSubString =>
    match readChar mask st.sub with
    | none => Sum.inr (WildCardOutcome.readBeyondMask st.sub)
    | some c =>
      if c ≠ 0 ∧ c ≠ 63 ∧ c ≠ 42 then Sum.inl { st with sub := st.sub + 1 }
      else Sum.inl { st with point := WildCardPoint.search, len := st.sub - st.wi, n := 0 }
  | WildCardPoint.search =>
    match readChar str st.si with
    | none => Sum.inr (WildCardOutcome.readBeyondString st.si)
    | some c =>
      if c ≠ 0 then Sum.inl { st with point := WildCardPoint.matchLoop }
      else Sum.inl { st with point := WildCardPoint.skipQuestion }
  | WildCardPoint.matchLoop =>
    if st.n < st.len then
      match readChar str (st.si + st.n) with
      | none => Sum.inr (WildCardOutcome.readBeyondString (st.si + st.n))
      | some c =>
        match readChar mask (st.wi + st.n) with
        | none => Sum.inr (WildCardOutcome.readBeyondMask (st.wi + st.n))
        | some m =>
          if upper c ≠ upper m then Sum.inl { st with point := WildCardPoint.afterMatch }
          else if c = 0 then Sum.inl { st with point := WildCardPoint.afterMatch }
          else Sum.inl { st with n := st.n + 1 }
    else Sum.inl { st with point := WildCardPoint.afterMatch }
  | WildCardPoint.afterMatch =>
    if st.n = st.len then
      Sum.inl { st with point := WildCardPoint.skipQuestion, wi := st.wi + st.n, si := st.si + st.n }
    else Sum.inl { st with point := WildCardPoint.search, n := 0, si := st.si + 1 }
  | WildCardPoint.compare =>
    match readChar str st.si with
    | none => Sum.inr (WildCardOutcome.readBeyondString st.si)
    | some c =>
      match readChar mask st.wi with
      | none => Sum.inr (WildCardOutcome.readBeyondMask st.wi)
      | some m =>
        if upper c ≠ upper m then Sum.inr (WildCardOutcome.result false)
        else if c = 0 then Sum.inr (WildCardOutcome.result true)
        else Sum.inl { st with point := WildCardPoint.skipQuestion, wi := st.wi + 1, si := st.si + 1 }

/-- The `for(;;)` loop of `CheckWildCard` run for at most `fuel` steps. -/
def wildCardLoop (upper : Nat → Nat) (str mask : List Nat) : Nat → WildCardState → WildCardOutcome
  | 0, _ => WildCardOutcome.unfinished
  | fuel + 1, st =>
    match wildCardStep upper str mask st with
    | Sum.inr out => out
    | Sum.inl st1 => wildCardLoop upper str mask fuel st1

/-- Source: `CheckWildCard(szString, szWildCard)` for two non-null
NUL-terminated buffers, run for at most `fuel` steps of its loop: the empty
mask never matches, the mask of one star always matches, otherwise the loop
decides. -/
def CheckWildCard (upper : Nat → Nat) (fuel : Nat) (str mask : List Nat) : WildCardOutcome :=
  if readChar mask 0 = some 0 then WildCardOutcome.result false
  else if readChar mask 0 = some 42 ∧ readChar mask 1 = some 0 then WildCardOutcome.result true
  else wildCardLoop upper str mask fuel ⟨WildCardPoint.skipQuestion, 0, 0, 0, 0, 0⟩

/-- The upper case table of ASCII: the letters `a` to `z` map to `A` to `Z`,
every other character to itself. -/
def asciiUpper (c : Nat) : Nat :=
  if 97 ≤ c ∧ c ≤ 122 then c - 32 else c

/-! ## Theorems -/

/-! ### Bit arithmetic of absolute slots -/

theorem slot_eq_of_parts (a b : Nat) (h1 : a >>> 8 = b >>> 8) (h2 : a &&& 255 = b &&& 255) :
    a = b := by
  have ha : a &&& 255 = a % 256 := Nat.and_pow_two_sub_one_eq_mod a 8
  have hb : b &&& 255 = b % 256 := Nat.and_pow_two_sub_one_eq_mod b 8
  rw [ha, hb] at h2
  rw [Nat.shiftRight_eq_div_pow, Nat.shiftRight_eq_div_pow] at h1
  norm_num at h1
  omega

theorem equip_subslot_ne (E : Env) (a b : Nat) (ha : isEquipmentSlot E a = true)
    (hb : isEquipmentSlot E b = true) (hab : a ≠ b) : a &&& 255 ≠ b &&& 255 := by
  intro h
  apply hab
  unfold isEquipmentSlot at ha hb
  simp only [Bool.and_eq_true, decide_eq_true_eq] at ha hb
  exact slot_eq_of_parts a b (ha.1.trans hb.1.symm) h

theorem swapItems_cases (E : Env) (inv : Inventory) (a b : Nat) :
    (∃ src, inv.itemsBySlot a = some src ∧
      swapItems E inv a b =
        (InventoryChangeFailure.Okay, swapCommit E inv a b src (inv.itemsBySlot b))) ∨
    ((swapItems E inv a b).1 ≠ InventoryChangeFailure.Okay ∧ (swapItems E inv a b).2 = inv) := by
  unfold swapItems getItemAtSlot
  cases hsrc : inv.itemsBySlot a with
  | none => right; simp
  | some src =>
    simp only []
    split_ifs with h1 h2 h3
    · right; simp
    · right; exact ⟨h2, rfl⟩
    · right; exact ⟨h3, rfl⟩
    · left; exact ⟨src, rfl, rfl⟩

theorem swapCommit_slotB (E : Env) (inv : Inventory) (a b : Nat) (src : GameItem)
    (h : inv.itemsBySlot a = some src) :
    (swapCommit E inv a b src (inv.itemsBySlot b)).itemsBySlot b = inv.itemsBySlot a := by
  unfold swapCommit
  by_cases hab : b = a
  · subst hab; simp [setAt, h]
  · cases hdst : inv.itemsBySlot b <;> simp [setAt, hab]

theorem swapCommit_slotA (E : Env) (inv : Inventory) (a b : Nat) (src : GameItem) :
    (swapCommit E inv a b src (inv.itemsBySlot b)).itemsBySlot a = inv.itemsBySlot b := by
  unfold swapCommit
  by_cases hab : a = b
  · subst hab; cases hdst : inv.itemsBySlot a <;> simp [setAt]
  · cases hdst : inv.itemsBySlot b <;> simp [setAt, hab]

theorem swapCommit_visibleB (E : Env) (inv : Inventory) (a b : Nat) (src : GameItem)
    (dst : Option GameItem) (hb : isEquipmentSlot E b = true) :
    (swapCommit E inv a b src dst).owner.visibleItem (b &&& 255) = src.entry.id ∧
    (swapCommit E inv a b src dst).owner.visibleCreator (b &&& 255) = src.creator := by
  unfold swapCommit
  simp [hb, GameCharacter.setVisibleItem, setAt]

theorem swapCommit_visibleA (E : Env) (inv : Inventory) (a b : Nat) (src : GameItem)
    (dst : Option GameItem) (ha : isEquipmentSlot E a = true) (hab : a ≠ b) :
    (swapCommit E inv a b src dst).owner.visibleItem (a &&& 255) = occupantEntry dst ∧
    (swapCommit E inv a b src dst).owner.visibleCreator (a &&& 255) = occupantCreator dst := by
  unfold swapCommit
  by_cases hb : isEquipmentSlot E b = true
  · have hne := equip_subslot_ne E a b ha hb hab
    cases dst <;>
      simp [ha, hb, hne, GameCharacter.setVisibleItem, setAt, occupantEntry, occupantCreator]
  · cases dst <;>
      simp [ha, hb, GameCharacter.setVisibleItem, setAt, occupantEntry, occupantCreator]

/-- C3: `swapItems(a, b)` is all-or-nothing. Either it returns `Okay`, slot `b`
holds the item that was in `a`, slot `a` holds what was in `b` (no entry when
`b` was empty) and for each of `a`, `b` that is an equipment slot the owner's
visible-item fields show the new occupant (0 when empty); or it returns a
failure code and the whole inventory state, owner fields included, is unchanged. -/
theorem swapItems_all_or_nothing (E : Env) (inv : Inventory) (a b : Nat) :
    ((swapItems E inv a b).1 = InventoryChangeFailure.Okay ∧
      (inv.itemsBySlot a).isSome = true ∧
      (swapItems E inv a b).2.itemsBySlot b = inv.itemsBySlot a ∧
      (swapItems E inv a b).2.itemsBySlot a = inv.itemsBySlot b ∧
      (∀ s, (s = a ∨ s = b) → isEquipmentSlot E s = true →
        (swapItems E inv a b).2.owner.visibleItem (s &&& 255) =
            occupantEntry ((swapItems E inv a b).2.itemsBySlot s) ∧
        (swapItems E inv a b).2.owner.visibleCreator (s &&& 255) =
            occupantCreator ((swapItems E inv a b).2.itemsBySlot s))) ∨
    ((swapItems E inv a b).1 ≠ InventoryChangeFailure.Okay ∧ (swapItems E inv a b).2 = inv) := by
  rcases swapItems_cases E inv a b with ⟨src, hsrc, heq⟩ | hfail
  · left
    rw [heq]
    refine ⟨rfl, by simp [hsrc], swapCommit_slotB E inv a b src hsrc,
      swapCommit_slotA E inv a b src, ?_⟩
    intro s hs hequip
    have hB := swapCommit_slotB E inv a b src hsrc
    have hA := swapCommit_slotA E inv a b src
    simp only []
    rcases hs with rfl | rfl
    · by_cases hab : s = b
      · subst hab
        rw [hB, hsrc]
        exact swapCommit_visibleB E inv s s src _ hequip
      · rw [hA]
        exact swapCommit_visibleA E inv s b src _ hequip hab
    · rw [hB, hsrc]
      exact swapCommit_visibleB E inv a s src _ hequip
  · right; exact hfail

/-! ### Totals over the slot map -/

theorem stackTotal_eq_of_support (inv : Inventory) (id : Nat) (l : List Nat) (hnd : l.Nodup)
    (hlt : ∀ s ∈ l, s < 65536) (hsup : ∀ s, s ∉ l → inv.itemsBySlot s = none) :
    stackTotal inv id = stackSum inv.itemsBySlot id l := by
  unfold stackTotal stackSum
  rw [← List.sum_toFinset _ hnd]
  symm
  apply Finset.sum_subset
  · intro s hs
    exact Finset.mem_range.mpr (hlt s (List.mem_toFinset.mp hs))
  · intro s _ hs
    have : s ∉ l := fun h => hs (List.mem_toFinset.mpr h)
    simp [slotStack, hsup s this]

/-! ### Early rejections of createItems and removeItems -/

/-- C5: `createItems` returns `CantCarryMoreOfThis` exactly when the template
has a count cap (`maxcount > 0`) and `getItemCount + amount` exceeds it (an
amount of 0 counting as 1); the inventory is then unchanged. In particular a
template with `maxcount = 0` never yields `CantCarryMoreOfThis`. -/
theorem createItems_cantCarry_iff (E : Env) (inv : Inventory) (entry : ItemEntry) (amount : Nat) :
    ((createItems E inv entry amount).1 = InventoryChangeFailure.CantCarryMoreOfThis ↔
      (0 < entry.maxcount ∧
        entry.maxcount < getItemCount inv entry.id + (if amount = 0 then 1 else amount))) ∧
    ((createItems E inv entry amount).1 = InventoryChangeFailure.CantCarryMoreOfThis →
      (createItems E inv entry amount).2 = inv) := by
  unfold createItems
  simp only []
  split_ifs <;> simp_all

/-- C9: for `amount > 0`, `removeItems` returns `ItemNotFound` if and only if
`getItemCount` of the template is smaller than `amount`, and the inventory is
then unchanged. -/
theorem removeItems_notFound_iff (E : Env) (inv : Inventory) (entry : ItemEntry) (amount : Nat)
    (h : 0 < amount) :
    ((removeItems E inv entry amount).1 = InventoryChangeFailure.ItemNotFound ↔
      getItemCount inv entry.id < amount) ∧
    ((removeItems E inv entry amount).1 = InventoryChangeFailure.ItemNotFound →
      (removeItems E inv entry amount).2 = inv) := by
  unfold removeItems
  have h0 : amount ≠ 0 := Nat.pos_iff_ne_zero.mp h
  simp only [h0, if_false]
  split_ifs <;> simp_all

/-- Witness of C9 on a stack of 5: asking for 6 units is rejected, asking for 5 is not. -/
theorem removeItems_notFound_iff_witness :
    ((removeItems stdEnv oneStackInv stdEntry 6).1 = InventoryChangeFailure.ItemNotFound ↔
      getItemCount oneStackInv stdEntry.id < 6) ∧
    ((removeItems stdEnv oneStackInv stdEntry 6).1 = InventoryChangeFailure.ItemNotFound →
      (removeItems stdEnv oneStackInv stdEntry 6).2 = oneStackInv) :=
  removeItems_notFound_iff stdEnv oneStackInv stdEntry 6 (by decide)

theorem scanSlots_spec (E : Env) (inv : Inventory) (entry : ItemEntry)
    (itemCount requiredSlots : Nat) (l : List Nat) :
    ∀ sc : Scan, ∃ k, k ≤ l.length ∧
      (scanSlots E inv entry itemCount requiredSlots l sc).emptySlots =
        sc.emptySlots ++
          ((l.take k).map (getAbsoluteSlot E.bag0)).filter (isEmptyAt inv.itemsBySlot) ∧
      (scanSlots E inv entry itemCount requiredSlots l sc).usedCapableSlots =
        sc.usedCapableSlots ++
          ((l.take k).map (getAbsoluteSlot E.bag0)).filter (isUnderfull inv.itemsBySlot entry) ∧
      (scanSlots E inv entry itemCount requiredSlots l sc).itemsProcessed ≤
        sc.itemsProcessed +
          stackSum inv.itemsBySlot entry.id ((l.take k).map (getAbsoluteSlot E.bag0)) ∧
      (scanSlots E inv entry itemCount requiredSlots l sc).availableStacks ≤
        sc.availableStacks +
          entry.maxstack *
            (((l.take k).map (getAbsoluteSlot E.bag0)).filter (isEmptyAt inv.itemsBySlot)).length +
          capSum inv.itemsBySlot entry.maxstack
            (((l.take k).map (getAbsoluteSlot E.bag0)).filter (isUnderfull inv.itemsBySlot entry)) ∧
      (k < l.length →
        itemCount ≤ (scanSlots E inv entry itemCount requiredSlots l sc).itemsProcessed ∧
        requiredSlots ≤ (scanSlots E inv entry itemCount requiredSlots l sc).emptySlots.length) := by
  induction l with
  | nil =>
    intro sc
    exact ⟨0, by simp [scanSlots, stackSum, capSum]⟩
  | cons slot rest ih =>
    intro sc
    cases hlook : inv.itemsBySlot (getAbsoluteSlot E.bag0 slot) with
    | none =>
      have hE : isEmptyAt inv.itemsBySlot (getAbsoluteSlot E.bag0 slot) = true := by
        simp [isEmptyAt, hlook]
      have hU : isUnderfull inv.itemsBySlot entry (getAbsoluteSlot E.bag0 slot) = false := by
        simp [isUnderfull, hlook]
      have hS : slotStack inv.itemsBySlot entry.id (getAbsoluteSlot E.bag0 slot) = 0 := by
        simp [slotStack, hlook]
      by_cases hbrk : itemCount ≤ sc.itemsProcessed ∧
          requiredSlots ≤ (sc.emptySlots ++ [getAbsoluteSlot E.bag0 slot]).length
      · refine ⟨1, by simp, ?_⟩
        simp only [scanSlots, hlook, hbrk, and_self, if_true]
        simp [hE, hU, hS, stackSum, capSum]
        exact Nat.mod_le (sc.availableStacks + entry.maxstack) 65536
      · obtain ⟨k, hk, h1, h2, h3, h4, h5⟩ := ih
          { sc with
            availableStacks := (sc.availableStacks + entry.maxstack) % 65536
            emptySlots := sc.emptySlots ++ [getAbsoluteSlot E.bag0 slot] }
        refine ⟨k + 1, by simp [hk], ?_⟩
        simp only [scanSlots, hlook, hbrk, if_false]
        simp only [List.take_succ_cons, List.map_cons, List.filter_cons, hE, hU, if_true,
          Bool.false_eq_true, if_false, List.length_cons]
        refine ⟨by rw [h1]; simp, h2, ?_, ?_, ?_⟩
        · simpa [stackSum, hS] using h3
        · have := Nat.mod_le (sc.availableStacks + entry.maxstack) 65536
          simp only [] at h4
          rw [Nat.mul_succ]
          omega
        · intro hlt
          exact h5 (by simpa using hlt)
    | some item =>
      have hE : isEmptyAt inv.itemsBySlot (getAbsoluteSlot E.bag0 slot) = false := by
        simp [isEmptyAt, hlook]
      by_cases hid : item.entry.id = entry.id
      · have hS : slotStack inv.itemsBySlot entry.id (getAbsoluteSlot E.bag0 slot) =
            item.stackCount := by
          simp [slotStack, hlook, hid]
        have hmod := Nat.mod_le (sc.itemsProcessed + item.stackCount) 65536
        by_cases hfull : entry.maxstack ≤ item.stackCount
        · have hU : isUnderfull inv.itemsBySlot entry (getAbsoluteSlot E.bag0 slot) = false := by
            simp [isUnderfull, hlook, hid, hfull]
          by_cases hbrk : itemCount ≤ (sc.itemsProcessed + item.stackCount) % 65536 ∧
              requiredSlots ≤ sc.emptySlots.length
          · refine ⟨1, by simp, ?_⟩
            simp only [scanSlots, hlook, hid, hfull, hbrk, and_self, if_true, ne_eq,
              not_true_eq_false, if_false]
            simp [hE, hU, hS, stackSum, capSum]
            exact hmod
          · obtain ⟨k, hk, h1, h2, h3, h4, h5⟩ := ih
              { sc with itemsProcessed := (sc.itemsProcessed + item.stackCount) % 65536 }
            refine ⟨k + 1, by simp [hk], ?_⟩
            simp only [scanSlots, hlook, hid, hfull, hbrk, if_true, ne_eq,
              not_true_eq_false, if_false]
            simp only [List.take_succ_cons, List.map_cons, List.filter_cons, hE, hU,
              Bool.false_eq_true, if_false]
            refine ⟨h1, h2, ?_, h4, ?_⟩
            · simp only [stackSum, List.map_cons, List.sum_cons, hS] at h3 ⊢
              omega
            · intro hlt
              exact h5 (by simpa using hlt)
        · have hU : isUnderfull inv.itemsBySlot entry (getAbsoluteSlot E.bag0 slot) = true := by
            simp [isUnderfull, hlook, hid]; omega
          have hA : stackAt inv.itemsBySlot (getAbsoluteSlot E.bag0 slot) = item.stackCount := by
            simp [stackAt, hlook]
          obtain ⟨k, hk, h1, h2, h3, h4, h5⟩ := ih
            { sc with
              itemsProcessed := (sc.itemsProcessed + item.stackCount) % 65536
              availableStacks :=
                (sc.availableStacks + (entry.maxstack - item.stackCount)) % 65536
              usedCapableSlots := sc.usedCapableSlots ++ [getAbsoluteSlot E.bag0 slot] }
          refine ⟨k + 1, by simp [hk], ?_⟩
          simp only [scanSlots, hlook, hid, hfull, if_true, ne_eq,
            not_true_eq_false, if_false]
          simp only [List.take_succ_cons, List.map_cons, List.filter_cons, hE, hU,
            Bool.false_eq_true, if_false, if_true]
          refine ⟨h1, by rw [h2]; simp, ?_, ?_, ?_⟩
          · simp only [stackSum, List.map_cons, List.sum_cons, hS] at h3 ⊢
            omega
          · have := Nat.mod_le (sc.availableStacks + (entry.maxstack - item.stackCount)) 65536
            simp only [capSum, List.map_cons, List.sum_cons, hA] at h4 ⊢
            omega
          · intro hlt
            exact h5 (by simpa using hlt)
      · have hU : isUnderfull inv.itemsBySlot entry (getAbsoluteSlot E.bag0 slot) = false := by
          simp [isUnderfull, hlook, hid]
        have hS : slotStack inv.itemsBySlot entry.id (getAbsoluteSlot E.bag0 slot) = 0 := by
          simp [slotStack, hlook, hid]
        obtain ⟨k, hk, h1, h2, h3, h4, h5⟩ := ih sc
        refine ⟨k + 1, by simp [hk], ?_⟩
        simp only [scanSlots, hlook, hid, ne_eq, not_false_eq_true, if_true]
        simp only [List.take_succ_cons, List.map_cons, List.filter_cons, hE, hU,
          Bool.false_eq_true, if_false]
        refine ⟨h1, h2, ?_, h4, ?_⟩
        · simpa [stackSum, hS] using h3
        · intro hlt
          exact h5 (by simpa using hlt)

/-! ### Pack slots -/

theorem getAbsoluteSlot_eq (bag slot : Nat) (hb : bag < 256) (hs : slot < 256) :
    getAbsoluteSlot bag slot = bag * 256 + slot := by
  unfold getAbsoluteSlot
  have h : 2 ^ 8 * bag + slot = 2 ^ 8 * bag ||| slot :=
    Nat.mul_add_lt_is_or (by simpa using hs) bag
  rw [Nat.shiftLeft_eq, Nat.mul_comm bag, ← h]
  norm_num
  omega

theorem packSubslots_lt (E : Env) (hv : E.valid) (s : Nat) (h : s ∈ packSubslots E) : s < 256 := by
  obtain ⟨_, _, h3⟩ := hv
  simp only [packSubslots, List.mem_map, List.mem_range] at h
  obtain ⟨i, hi, rfl⟩ := h
  omega

theorem packSubslots_nodup (E : Env) : (packSubslots E).Nodup := by
  unfold packSubslots
  exact (List.nodup_range _).map (fun a b h => by simpa using h)

theorem packSlots_nodup (E : Env) (hv : E.valid) : (packSlots E).Nodup := by
  unfold packSlots
  refine List.Nodup.map_on ?_ (packSubslots_nodup E)
  intro a ha b hb h
  rw [getAbsoluteSlot_eq _ _ hv.1 (packSubslots_lt E hv a ha),
    getAbsoluteSlot_eq _ _ hv.1 (packSubslots_lt E hv b hb)] at h
  omega

theorem packSlots_lt (E : Env) (s : Nat) (h : s ∈ packSlots E) : s < 65536 := by
  simp only [packSlots, List.mem_map] at h
  obtain ⟨i, _, rfl⟩ := h
  exact Nat.mod_lt _ (by norm_num)

/-! ### Counting empty slots -/

theorem countP_empty_congr (l : List Nat) (m m2 : Nat → Option GameItem)
    (h : ∀ s ∈ l, (m2 s).isNone = (m s).isNone) :
    l.countP (fun s => (m2 s).isNone) = l.countP (fun s => (m s).isNone) := by
  induction l with
  | nil => rfl
  | cons x xs ih =>
    have hx := h x (List.mem_cons_self _ _)
    have hxs := ih (fun s hs => h s (List.mem_cons_of_mem _ hs))
    simp only [List.countP_cons, hx, hxs]

theorem countP_empty_fill (l : List Nat) (m : Nat → Option GameItem) (k : Nat) (v : GameItem)
    (hnd : l.Nodup) (hk : k ∈ l) (hm : m k = none) :
    l.countP (fun s => (setAt m k (some v) s).isNone) + 1 =
      l.countP (fun s => (m s).isNone) := by
  induction l with
  | nil => cases hk
  | cons x xs ih =>
    rw [List.nodup_cons] at hnd
    by_cases hx : x = k
    · subst hx
      have hrest : xs.countP (fun s => (setAt m x (some v) s).isNone) =
          xs.countP (fun s => (m s).isNone) := by
        apply countP_empty_congr
        intro s hs
        have : s ≠ x := fun h => hnd.1 (h ▸ hs)
        simp [setAt, this]
      simp only [List.countP_cons, hrest]
      simp [setAt, hm]
    · have hk2 : k ∈ xs := by
        rcases List.mem_cons.mp hk with h | h
        · exact absurd h.symm hx
        · exact h
      have := ih hnd.2 hk2
      simp only [List.countP_cons, setAt, hx, if_false]
      simp only [setAt] at this
      omega

theorem countP_empty_erase (l : List Nat) (m : Nat → Option GameItem) (k : Nat) (v : GameItem)
    (hnd : l.Nodup) (hk : k ∈ l) (hm : m k = some v) :
    l.countP (fun s => (setAt m k none s).isNone) =
      l.countP (fun s => (m s).isNone) + 1 := by
  induction l with
  | nil => cases hk
  | cons x xs ih =>
    rw [List.nodup_cons] at hnd
    by_cases hx : x = k
    · subst hx
      have hrest : xs.countP (fun s => (setAt m x none s).isNone) =
          xs.countP (fun s => (m s).isNone) := by
        apply countP_empty_congr
        intro s hs
        have : s ≠ x := fun h => hnd.1 (h ▸ hs)
        simp [setAt, this]
      simp only [List.countP_cons, hrest]
      simp [setAt, hm]
    · have hk2 : k ∈ xs := by
        rcases List.mem_cons.mp hk with h | h
        · exact absurd h.symm hx
        · exact h
      have := ih hnd.2 hk2
      simp only [List.countP_cons, setAt, hx, if_false]
      simp only [setAt] at this
      omega

/-! ### createItems and removeItems keep the free slot counter exact -/

theorem fillUsed_frame (entry : ItemEntry) (l : List Nat) :
    ∀ (inv : Inventory) (n : Nat),
      (fillUsed entry l inv n).1.freeSlots = inv.freeSlots ∧
      (fillUsed entry l inv n).1.owner = inv.owner ∧
      ∀ s, ((fillUsed entry l inv n).1.itemsBySlot s).isNone = (inv.itemsBySlot s).isNone := by
  induction l with
  | nil => intro inv n; simp [fillUsed]
  | cons slot rest ih =>
    intro inv n
    cases hlook : inv.itemsBySlot slot with
    | none =>
      simp only [fillUsed, hlook]
      exact ih inv n
    | some item =>
      simp only [fillUsed, hlook]
      have hstep : ∀ inv1 : Inventory,
          inv1 = (if 0 < (addStacks item n).2 then
            { inv with
              itemsBySlot := setAt inv.itemsBySlot slot (some (addStacks item n).1)
              itemCounter := counterAdd inv.itemCounter entry.id (addStacks item n).2 }
            else inv) →
          inv1.freeSlots = inv.freeSlots ∧ inv1.owner = inv.owner ∧
          ∀ s, (inv1.itemsBySlot s).isNone = (inv.itemsBySlot s).isNone := by
        intro inv1 h1
        subst h1
        split_ifs
        · refine ⟨rfl, rfl, ?_⟩
          intro s
          by_cases hs : s = slot
          · subst hs; simp [setAt, hlook]
          · simp [setAt, hs]
        · exact ⟨rfl, rfl, fun _ => rfl⟩
      obtain ⟨h1, h2, h3⟩ := hstep _ rfl
      by_cases hz : n - (addStacks item n).2 = 0
      · rw [if_pos hz]
        exact ⟨h1, h2, h3⟩
      · rw [if_neg hz]
        obtain ⟨i1, i2, i3⟩ := ih
          (if 0 < (addStacks item n).2 then
            { inv with
              itemsBySlot := setAt inv.itemsBySlot slot (some (addStacks item n).1)
              itemCounter := counterAdd inv.itemCounter entry.id (addStacks item n).2 }
            else inv) (n - (addStacks item n).2)
        exact ⟨i1.trans h1, i2.trans h2, fun s => (i3 s).trans (h3 s)⟩

theorem fillEmpty_freeConsistent (E : Env) (hv : E.valid) (entry : ItemEntry) (l : List Nat) :
    ∀ (inv : Inventory) (n : Nat), l.Nodup →
      (∀ x ∈ l, x ∈ packSlots E ∧ inv.itemsBySlot x = none) →
      freeSlotsConsistent E inv →
      freeSlotsConsistent E (fillEmpty E entry l inv n).1 := by
  induction l with
  | nil => intro inv n _ _ h; simpa [fillEmpty] using h
  | cons slot rest ih =>
    intro inv n hnd hall hcons
    rw [List.nodup_cons] at hnd
    obtain ⟨hpack, hnone⟩ := hall slot (List.mem_cons_self _ _)
    have hcount := countP_empty_fill (packSlots E) inv.itemsBySlot slot
      (addStacks (newItem E entry (generateId inv.owner).1) (n - 1)).1
      (packSlots_nodup E hv) hpack hnone
    have hstep : freeSlotsConsistent E
        { owner := notifyCreation E (generateId inv.owner).2 slot
            (addStacks (newItem E entry (generateId inv.owner).1) (n - 1)).1
          itemsBySlot := setAt inv.itemsBySlot slot
            (some (addStacks (newItem E entry (generateId inv.owner).1) (n - 1)).1)
          itemCounter := counterAdd inv.itemCounter entry.id
            ((addStacks (newItem E entry (generateId inv.owner).1) (n - 1)).2 + 1)
          freeSlots := inv.freeSlots - 1 } := by
      unfold freeSlotsConsistent emptyPackSlots at hcons ⊢
      simp only []
      omega
    simp only [fillEmpty]
    by_cases hz : n - 1 - (addStacks (newItem E entry (generateId inv.owner).1) (n - 1)).2 = 0
    · rw [if_pos hz]
      exact hstep
    · rw [if_neg hz]
      apply ih _ _ hnd.2 _ hstep
      intro x hx
      obtain ⟨hxp, hxn⟩ := hall x (List.mem_cons_of_mem _ hx)
      refine ⟨hxp, ?_⟩
      have : x ≠ slot := fun h => hnd.1 (h ▸ hx)
      simp [setAt, this, hxn]

theorem scan_emptySlots_facts (E : Env) (hv : E.valid) (inv : Inventory) (entry : ItemEntry)
    (itemCount requiredSlots : Nat) :
    (scanSlots E inv entry itemCount requiredSlots (packSubslots E) ⟨[], [], 0, 0⟩).emptySlots.Nodup ∧
    ∀ x ∈ (scanSlots E inv entry itemCount requiredSlots (packSubslots E) ⟨[], [], 0, 0⟩).emptySlots,
      x ∈ packSlots E ∧ inv.itemsBySlot x = none := by
  obtain ⟨k, _, h1, _⟩ := scanSlots_spec E inv entry itemCount requiredSlots (packSubslots E)
    ⟨[], [], 0, 0⟩
  rw [h1]
  simp only [List.nil_append]
  have hsub : (((packSubslots E).take k).map (getAbsoluteSlot E.bag0)).Sublist (packSlots E) :=
    (List.take_sublist k _).map _
  constructor
  · exact ((packSlots_nodup E hv).sublist hsub).filter _
  · intro x hx
    rw [List.mem_filter] at hx
    refine ⟨hsub.subset hx.1, ?_⟩
    simpa [isEmptyAt] using hx.2

theorem createItems_freeConsistent (E : Env) (hv : E.valid) (inv : Inventory) (entry : ItemEntry)
    (amount : Nat) (h : freeSlotsConsistent E inv) :
    freeSlotsConsistent E (createItems E inv entry amount).2 := by
  have hused : ∀ l n, freeSlotsConsistent E (fillUsed entry l inv n).1 := by
    intro l n
    unfold freeSlotsConsistent emptyPackSlots at h ⊢
    rw [(fillUsed_frame entry l inv n).1, h]
    exact (countP_empty_congr _ _ _ (fun s _ => (fillUsed_frame entry l inv n).2.2 s)).symm
  have hfill : ∀ ic rs n m, freeSlotsConsistent E
      (fillEmpty E entry (scanSlots E inv entry ic rs (packSubslots E) ⟨[], [], 0, 0⟩).emptySlots
        (fillUsed entry (scanSlots E inv entry ic rs (packSubslots E) ⟨[], [], 0, 0⟩).usedCapableSlots
          inv n).1 m).1 := by
    intro ic rs n m
    apply fillEmpty_freeConsistent E hv
    · exact (scan_emptySlots_facts E hv inv entry _ _).1
    · intro x hx
      obtain ⟨hp, hn⟩ := (scan_emptySlots_facts E hv inv entry _ _).2 x hx
      refine ⟨hp, ?_⟩
      have := (fillUsed_frame entry
        (scanSlots E inv entry ic rs (packSubslots E) ⟨[], [], 0, 0⟩).usedCapableSlots inv n).2.2 x
      rw [hn] at this
      simpa using this
    · exact hused _ _
  have hphase : ∀ ic rs n, freeSlotsConsistent E
      (fillPhases E inv entry (scanSlots E inv entry ic rs (packSubslots E) ⟨[], [], 0, 0⟩) n).1 := by
    intro ic rs n
    unfold fillPhases
    simp only []
    split_ifs
    · exact hfill _ _ _ _
    · exact hused _ _
  unfold createItems
  simp only []
  split_ifs with h1 h2 h3 h4 h5 h6 h7
  all_goals first
    | exact h
    | exact hphase _ _ _

theorem freeConsistent_of_some_to_some (E : Env) (inv inv2 : Inventory)
    (hf : inv2.freeSlots = inv.freeSlots)
    (hn : ∀ s, (inv2.itemsBySlot s).isNone = (inv.itemsBySlot s).isNone)
    (h : freeSlotsConsistent E inv) : freeSlotsConsistent E inv2 := by
  unfold freeSlotsConsistent emptyPackSlots at h ⊢
  rw [hf, h]
  exact (countP_empty_congr _ _ _ (fun s _ => hn s)).symm

theorem removeItem_freeConsistent (E : Env) (hv : E.valid) (inv : Inventory) (slot n : Nat)
    (hpack : slot ∈ packSlots E) (hcons : freeSlotsConsistent E inv) :
    freeSlotsConsistent E (removeItem E inv slot n).2 := by
  unfold removeItem
  cases hlook : inv.itemsBySlot slot with
  | none => exact hcons
  | some item =>
    simp only []
    split_ifs
    all_goals first
      | (have hc := countP_empty_erase (packSlots E) inv.itemsBySlot slot item
           (packSlots_nodup E hv) hpack hlook
         unfold freeSlotsConsistent emptyPackSlots at hcons ⊢
         simp only []
         rw [hc, hcons])
      | (refine freeConsistent_of_some_to_some E inv _ rfl ?_ hcons
         intro s
         by_cases hs : s = slot
         · subst hs; simp [setAt, hlook]
         · simp [setAt, hs])

theorem removeLoop_freeConsistent (E : Env) (hv : E.valid) (entry : ItemEntry) (l : List Nat) :
    ∀ (inv : Inventory) (n : Nat), (∀ s ∈ l, s ∈ packSubslots E) →
      freeSlotsConsistent E inv → freeSlotsConsistent E (removeLoop E entry l inv n).1 := by
  induction l with
  | nil => intro inv n _ h; simpa [removeLoop] using h
  | cons slot rest ih =>
    intro inv n hsub hcons
    have hrest : ∀ s ∈ rest, s ∈ packSubslots E := fun s hs => hsub s (List.mem_cons_of_mem _ hs)
    have hpack : getAbsoluteSlot E.bag0 slot ∈ packSlots E :=
      List.mem_map_of_mem _ (hsub slot (List.mem_cons_self _ _))
    cases hlook : inv.itemsBySlot (getAbsoluteSlot E.bag0 slot) with
    | none =>
      simp only [removeLoop, hlook]
      exact ih inv n hrest hcons
    | some item =>
      by_cases hid : item.entry.id = entry.id
      · have hwhole := removeItem_freeConsistent E hv inv (getAbsoluteSlot E.bag0 slot) 0 hpack hcons
        have hpart : freeSlotsConsistent E
            { inv with
              itemsBySlot := setAt inv.itemsBySlot (getAbsoluteSlot E.bag0 slot)
                (some { item with stackCount := item.stackCount - n })
              itemCounter := counterSub inv.itemCounter entry.id (item.stackCount - n) } := by
          refine freeConsistent_of_some_to_some E inv _ rfl ?_ hcons
          intro s
          by_cases hs : s = getAbsoluteSlot E.bag0 slot
          · subst hs; simp [setAt, hlook]
          · simp [setAt, hs]
        simp only [removeLoop, hlook, hid, ne_eq, not_true_eq_false, if_false]
        by_cases hle : item.stackCount ≤ n
        · simp only [hle, if_true]
          by_cases hr : (removeItem E inv (getAbsoluteSlot E.bag0 slot) 0).1 =
              InventoryChangeFailure.Okay
          · simp only [hr, not_true_eq_false, if_false]
            by_cases hz : n - item.stackCount = 0
            · rw [if_pos hz]; exact hwhole
            · rw [if_neg hz]; exact ih _ _ hrest hwhole
          · simp only [hr, not_false_eq_true, if_true]
            by_cases hz : n = 0
            · rw [if_pos hz]; exact hwhole
            · rw [if_neg hz]; exact ih _ _ hrest hwhole
        · simp only [hle, if_false, if_true]
          exact hpart
      · simp only [removeLoop, hlook, hid, ne_eq, not_false_eq_true, if_true]
        exact ih inv n hrest hcons

theorem removeItems_freeConsistent (E : Env) (hv : E.valid) (inv : Inventory) (entry : ItemEntry)
    (amount : Nat) (h : freeSlotsConsistent E inv) :
    freeSlotsConsistent E (removeItems E inv entry amount).2 := by
  unfold removeItems
  simp only []
  split_ifs
  all_goals first
    | exact h
    | exact removeLoop_freeConsistent E hv entry _ inv _ (fun _ hs => hs) h

theorem init_freeConsistent (E : Env) (owner : GameCharacter) :
    freeSlotsConsistent E (Inventory.init E owner) := by
  simp [freeSlotsConsistent, emptyPackSlots, Inventory.init, packSlots, packSubslots]

theorem runOps_freeConsistent (E : Env) (hv : E.valid) (ops : List Op) :
    ∀ inv, freeSlotsConsistent E inv → freeSlotsConsistent E (runOps E inv ops) := by
  induction ops with
  | nil => intro inv h; exact h
  | cons op rest ih =>
    intro inv h
    simp only [runOps, List.foldl_cons]
    apply ih
    cases op with
    | create entry amount => exact createItems_freeConsistent E hv inv entry amount h
    | remove entry amount => exact removeItems_freeConsistent E hv inv entry amount h

/-- C2: starting from the freshly constructed inventory (`m_freeSlots` = number
of backpack slots), after every finite sequence of `createItems` and
`removeItems` calls `m_freeSlots` equals the number of pack-range slots without
an entry in `m_itemsBySlot`. -/
theorem freeSlots_invariant (E : Env) (hv : E.valid) (owner : GameCharacter) (ops : List Op) :
    (runOps E (Inventory.init E owner) ops).freeSlots =
      emptyPackSlots E (runOps E (Inventory.init E owner) ops) :=
  runOps_freeConsistent E hv ops _ (init_freeConsistent E owner)

/-- Witness of C2: create 5, then remove 2 of a stackable template. -/
theorem freeSlots_invariant_witness :
    (runOps stdEnv (Inventory.init stdEnv stdOwner)
        [Op.create stdEntry 5, Op.remove stdEntry 2]).freeSlots =
      emptyPackSlots stdEnv (runOps stdEnv (Inventory.init stdEnv stdOwner)
        [Op.create stdEntry 5, Op.remove stdEntry 2]) :=
  freeSlots_invariant stdEnv (by unfold Env.valid; decide) stdOwner [Op.create stdEntry 5, Op.remove stdEntry 2]

/-! ### The fill loops refine the two-phase fill of the contract -/

theorem stackView_setAt (items : Nat → Option GameItem) (s : Nat) (it : GameItem) :
    stackView (setAt items s (some it)) = setAt (stackView items) s (some (it.entry, it.stackCount)) := by
  funext x
  by_cases hx : x = s <;> simp [stackView, setAt, hx]

theorem setAt_self {α : Type} (m : Nat → α) (s : Nat) (v : α) (h : m s = v) : setAt m s v = m := by
  funext x
  by_cases hx : x = s
  · subst hx; simp [setAt, h]
  · simp [setAt, hx]

theorem specTopUp_zero (entry : ItemEntry) (l : List Nat) :
    ∀ v, specTopUp entry l v 0 = (v, 0) := by
  induction l with
  | nil => intro v; rfl
  | cons s rest ih =>
    intro v
    cases hv : v s with
    | none => simp only [specTopUp, hv]; exact ih v
    | some p =>
      obtain ⟨e, c⟩ := p
      simp only [specTopUp, hv]
      split_ifs
      · simp only [Nat.zero_min, Nat.add_zero, Nat.sub_zero]
        rw [setAt_self v s _ hv]
        exact ih v
      · exact ih v

theorem filter_underfull_congr (entry : ItemEntry) (items items2 : Nat → Option GameItem)
    (l : List Nat) (h : ∀ x ∈ l, items2 x = items x) :
    l.filter (isUnderfull items2 entry) = l.filter (isUnderfull items entry) := by
  apply List.filter_congr
  intro x hx
  simp [isUnderfull, h x hx]

theorem sameTemplate_setAt (items : Nat → Option GameItem) (entry : ItemEntry) (s : Nat)
    (it : GameItem) (h : sameTemplate items entry) (hit : it.entry.id = entry.id → it.entry = entry) :
    sameTemplate (setAt items s (some it)) entry := by
  intro x i hx hid
  by_cases hxs : x = s
  · subst hxs
    simp [setAt] at hx
    subst hx
    exact hit hid
  · simp [setAt, hxs] at hx
    exact h x i hx hid

theorem fillUsed_refines (entry : ItemEntry) (l : List Nat) :
    ∀ (inv : Inventory) (n : Nat), l.Nodup → sameTemplate inv.itemsBySlot entry →
      stackView (fillUsed entry (l.filter (isUnderfull inv.itemsBySlot entry)) inv n).1.itemsBySlot =
          (specTopUp entry l (stackView inv.itemsBySlot) n).1 ∧
      (fillUsed entry (l.filter (isUnderfull inv.itemsBySlot entry)) inv n).2 =
          (specTopUp entry l (stackView inv.itemsBySlot) n).2 := by
  induction l with
  | nil => intro inv n _ _; simp [fillUsed, specTopUp]
  | cons s rest ih =>
    intro inv n hnd hst
    rw [List.nodup_cons] at hnd
    cases hlook : inv.itemsBySlot s with
    | none =>
      have hU : isUnderfull inv.itemsBySlot entry s = false := by simp [isUnderfull, hlook]
      have hV : stackView inv.itemsBySlot s = none := by simp [stackView, hlook]
      simp only [List.filter_cons, hU, Bool.false_eq_true, if_false, specTopUp, hV]
      exact ih inv n hnd.2 hst
    | some item =>
      have hV : stackView inv.itemsBySlot s = some (item.entry, item.stackCount) := by
        simp [stackView, hlook]
      by_cases hcond : item.entry.id = entry.id ∧ item.stackCount < entry.maxstack
      · have hU : isUnderfull inv.itemsBySlot entry s = true := by
          simp [isUnderfull, hlook, hcond.1, hcond.2]
        have hent : item.entry = entry := hst s item hlook hcond.1
        have hadd : (addStacks item n).2 = min n (entry.maxstack - item.stackCount) := by
          simp [addStacks, hent]
        have hitem : (addStacks item n).1 =
            { item with stackCount := item.stackCount + min n (entry.maxstack - item.stackCount) } := by
          simp [addStacks, hent]
        simp only [List.filter_cons, hU, if_true, specTopUp, hV, hcond, and_self, fillUsed, hlook]
        rw [hadd, hitem]
        by_cases hpos : 0 < min n (entry.maxstack - item.stackCount)
        · simp only [hpos, if_true]
          by_cases hz : n - min n (entry.maxstack - item.stackCount) = 0
          · rw [if_pos hz, hz, specTopUp_zero]
            simp [stackView_setAt]
          · rw [if_neg hz]
            have hfil := filter_underfull_congr entry inv.itemsBySlot
              (setAt inv.itemsBySlot s (some { item with
                stackCount := item.stackCount + min n (entry.maxstack - item.stackCount) })) rest
              (fun x hx => by
                have : x ≠ s := fun h => hnd.1 (h ▸ hx)
                simp [setAt, this])
            have := ih
              { inv with
                itemsBySlot := setAt inv.itemsBySlot s (some { item with
                  stackCount := item.stackCount + min n (entry.maxstack - item.stackCount) })
                itemCounter := counterAdd inv.itemCounter entry.id
                  (min n (entry.maxstack - item.stackCount)) }
              (n - min n (entry.maxstack - item.stackCount)) hnd.2
              (sameTemplate_setAt _ _ _ _ hst (fun _ => hent))
            simp only [hfil, stackView_setAt] at this
            exact this
        · have h0 : min n (entry.maxstack - item.stackCount) = 0 := by omega
          simp only [h0, lt_irrefl, if_false, Nat.add_zero, Nat.sub_zero]
          rw [setAt_self (stackView inv.itemsBySlot) s _ hV]
          by_cases hz : n = 0
          · subst hz
            simp [specTopUp_zero]
          · rw [if_neg hz]
            exact ih inv n hnd.2 hst
      · have hU : isUnderfull inv.itemsBySlot entry s = false := by
          simp only [isUnderfull, hlook]
          simp only [not_and_or] at hcond
          rcases hcond with h | h <;> simp [h]
        simp only [List.filter_cons, hU, Bool.false_eq_true, if_false, specTopUp, hV, hcond]
        exact ih inv n hnd.2 hst

theorem filter_empty_congr (items items2 : Nat → Option GameItem) (l : List Nat)
    (h : ∀ x ∈ l, (items2 x).isNone = (items x).isNone) :
    l.filter (isEmptyAt items2) = l.filter (isEmptyAt items) := by
  apply List.filter_congr
  intro x hx
  simp [isEmptyAt, h x hx]

theorem newStack_units (E : Env) (entry : ItemEntry) (g n : Nat) (hn : 1 ≤ n)
    (hm : 1 ≤ entry.maxstack) :
    (addStacks (newItem E entry g) (n - 1)).1.stackCount = min n entry.maxstack ∧
    (addStacks (newItem E entry g) (n - 1)).1.entry = entry ∧
    n - 1 - (addStacks (newItem E entry g) (n - 1)).2 = n - min n entry.maxstack := by
  refine ⟨?_, rfl, ?_⟩
  · simp only [addStacks, newItem]
    omega
  · simp only [addStacks, newItem]
    omega

theorem fillEmpty_refines (E : Env) (entry : ItemEntry) (hm : 1 ≤ entry.maxstack) (l : List Nat) :
    ∀ (inv : Inventory) (n : Nat), l.Nodup → 1 ≤ n →
      stackView (fillEmpty E entry (l.filter (isEmptyAt inv.itemsBySlot)) inv n).1.itemsBySlot =
          (specNewStacks entry l (stackView inv.itemsBySlot) n).1 ∧
      (fillEmpty E entry (l.filter (isEmptyAt inv.itemsBySlot)) inv n).2 =
          (specNewStacks entry l (stackView inv.itemsBySlot) n).2 := by
  induction l with
  | nil => intro inv n _ _; simp [fillEmpty, specNewStacks]
  | cons s rest ih =>
    intro inv n hnd hn
    rw [List.nodup_cons] at hnd
    have hn0 : n ≠ 0 := by omega
    cases hlook : inv.itemsBySlot s with
    | none =>
      have hE : isEmptyAt inv.itemsBySlot s = true := by simp [isEmptyAt, hlook]
      have hV : stackView inv.itemsBySlot s = none := by simp [stackView, hlook]
      obtain ⟨u1, u2, u3⟩ := newStack_units E entry (generateId inv.owner).1 n hn hm
      simp only [List.filter_cons, hE, if_true, specNewStacks, hn0, if_false, hV, fillEmpty]
      rw [u3]
      have hview : stackView (setAt inv.itemsBySlot s
          (some (addStacks (newItem E entry (generateId inv.owner).1) (n - 1)).1)) =
          setAt (stackView inv.itemsBySlot) s (some (entry, min n entry.maxstack)) := by
        rw [stackView_setAt, u1, u2]
      by_cases hz : n - min n entry.maxstack = 0
      · rw [if_pos hz, hz]
        cases rest with
        | nil => simp [specNewStacks, hview]
        | cons r rs => simp [specNewStacks, hview]
      · rw [if_neg hz]
        have hfil := filter_empty_congr inv.itemsBySlot
          (setAt inv.itemsBySlot s
            (some (addStacks (newItem E entry (generateId inv.owner).1) (n - 1)).1)) rest
          (fun x hx => by
            have : x ≠ s := fun h => hnd.1 (h ▸ hx)
            simp [setAt, this])
        have := ih
          { owner := notifyCreation E (generateId inv.owner).2 s
              (addStacks (newItem E entry (generateId inv.owner).1) (n - 1)).1
            itemsBySlot := setAt inv.itemsBySlot s
              (some (addStacks (newItem E entry (generateId inv.owner).1) (n - 1)).1)
            itemCounter := counterAdd inv.itemCounter entry.id
              ((addStacks (newItem E entry (generateId inv.owner).1) (n - 1)).2 + 1)
            freeSlots := inv.freeSlots - 1 }
          (n - min n entry.maxstack) hnd.2 (by omega)
        simp only [hfil, hview] at this
        exact this
    | some item =>
      have hE : isEmptyAt inv.itemsBySlot s = false := by simp [isEmptyAt, hlook]
      have hV : stackView inv.itemsBySlot s = some (item.entry, item.stackCount) := by
        simp [stackView, hlook]
      simp only [List.filter_cons, hE, Bool.false_eq_true, if_false, specNewStacks, hn0, hV]
      exact ih inv n hnd.2 hn

theorem specNewStacks_zero (entry : ItemEntry) (l : List Nat) (v : Nat → Option (ItemEntry × Nat)) :
    specNewStacks entry l v 0 = (v, 0) := by
  cases l <;> simp [specNewStacks]

theorem fillPhases_refines (E : Env) (inv : Inventory) (entry : ItemEntry)
    (hm : 1 ≤ entry.maxstack) (hst : sameTemplate inv.itemsBySlot entry) (l : List Nat)
    (hnd : l.Nodup) (sc : Scan)
    (hu : sc.usedCapableSlots = l.filter (isUnderfull inv.itemsBySlot entry))
    (he : sc.emptySlots = l.filter (isEmptyAt inv.itemsBySlot)) (n : Nat) :
    stackView (fillPhases E inv entry sc n).1.itemsBySlot =
        (specFill entry l (stackView inv.itemsBySlot) n).1 ∧
    (fillPhases E inv entry sc n).2 = (specFill entry l (stackView inv.itemsBySlot) n).2 := by
  obtain ⟨a1, a2⟩ := fillUsed_refines entry l inv n hnd hst
  unfold fillPhases specFill
  simp only [hu, he]
  by_cases hz : (fillUsed entry (l.filter (isUnderfull inv.itemsBySlot entry)) inv n).2 = 0
  · rw [if_neg (by simpa using hz)]
    rw [← a2, ← a1, hz, specNewStacks_zero]
    exact ⟨rfl, rfl⟩
  · rw [if_pos hz]
    have hfil := filter_empty_congr inv.itemsBySlot
      (fillUsed entry (l.filter (isUnderfull inv.itemsBySlot entry)) inv n).1.itemsBySlot l
      (fun x _ => (fillUsed_frame entry _ inv n).2.2 x)
    have := fillEmpty_refines E entry hm l
      (fillUsed entry (l.filter (isUnderfull inv.itemsBySlot entry)) inv n).1
      (fillUsed entry (l.filter (isUnderfull inv.itemsBySlot entry)) inv n).2 hnd (by omega)
    rw [hfil, a1, a2] at this
    rw [a2]
    exact this

/-! ### Properties of the two-phase fill -/

theorem viewCap_congr (entry : ItemEntry) (v v2 : Nat → Option (ItemEntry × Nat)) (l : List Nat)
    (h : ∀ x ∈ l, v2 x = v x) : viewCap entry v2 l = viewCap entry v l := by
  unfold viewCap
  congr 1
  apply List.map_congr_left
  intro x hx
  rw [h x hx]

theorem viewEmpty_congr (v v2 : Nat → Option (ItemEntry × Nat)) (l : List Nat)
    (h : ∀ x ∈ l, (v2 x).isNone = (v x).isNone) : viewEmpty v2 l = viewEmpty v l := by
  unfold viewEmpty
  induction l with
  | nil => rfl
  | cons x xs ih =>
    have hx := h x (List.mem_cons_self _ _)
    have hxs := ih (fun s hs => h s (List.mem_cons_of_mem _ hs))
    simp only [List.countP_cons, hx, hxs]

theorem specTopUp_left (entry : ItemEntry) (l : List Nat) :
    ∀ (v : Nat → Option (ItemEntry × Nat)) (n : Nat), l.Nodup →
      (specTopUp entry l v n).2 = n - viewCap entry v l := by
  induction l with
  | nil => intro v n _; simp [specTopUp, viewCap]
  | cons s rest ih =>
    intro v n hnd
    rw [List.nodup_cons] at hnd
    cases hv : v s with
    | none =>
      simp only [specTopUp, hv]
      rw [ih v n hnd.2]
      simp [viewCap, hv]
    | some p =>
      obtain ⟨e, c⟩ := p
      simp only [specTopUp, hv]
      by_cases hcond : e.id = entry.id ∧ c < entry.maxstack
      · rw [if_pos hcond, ih _ _ hnd.2]
        have hc := viewCap_congr entry v (setAt v s (some (e, c + min n (entry.maxstack - c)))) rest
          (fun x hx => by
            have : x ≠ s := fun h => hnd.1 (h ▸ hx)
            simp [setAt, this])
        rw [hc]
        have : viewCap entry v (s :: rest) = (entry.maxstack - c) + viewCap entry v rest := by
          simp [viewCap, hv, hcond]
        rw [this]
        omega
      · rw [if_neg hcond, ih v n hnd.2]
        have : viewCap entry v (s :: rest) = viewCap entry v rest := by
          simp only [viewCap, List.map_cons, List.sum_cons, hv, hcond, if_false, Nat.zero_add]
        rw [this]

theorem specTopUp_isNone (entry : ItemEntry) (l : List Nat) :
    ∀ (v : Nat → Option (ItemEntry × Nat)) (n : Nat) (x : Nat),
      ((specTopUp entry l v n).1 x).isNone = (v x).isNone := by
  induction l with
  | nil => intro v n x; rfl
  | cons s rest ih =>
    intro v n x
    cases hv : v s with
    | none => simp only [specTopUp, hv]; exact ih v n x
    | some p =>
      obtain ⟨e, c⟩ := p
      simp only [specTopUp, hv]
      split_ifs
      · rw [ih]
        by_cases hx : x = s
        · subst hx; simp [setAt, hv]
        · simp [setAt, hx]
      · exact ih v n x

theorem specNewStacks_left (entry : ItemEntry) (l : List Nat) :
    ∀ (v : Nat → Option (ItemEntry × Nat)) (n : Nat), l.Nodup →
      (specNewStacks entry l v n).2 = n - entry.maxstack * viewEmpty v l := by
  induction l with
  | nil => intro v n _; simp [specNewStacks, viewEmpty]
  | cons s rest ih =>
    intro v n hnd
    rw [List.nodup_cons] at hnd
    by_cases hn : n = 0
    · subst hn; simp [specNewStacks]
    · cases hv : v s with
      | none =>
        simp only [specNewStacks, hn, if_false, hv]
        rw [ih _ _ hnd.2]
        have hc := viewEmpty_congr v (setAt v s (some (entry, min n entry.maxstack))) rest
          (fun x hx => by
            have : x ≠ s := fun h => hnd.1 (h ▸ hx)
            simp [setAt, this])
        rw [hc]
        have : viewEmpty v (s :: rest) = viewEmpty v rest + 1 := by
          simp [viewEmpty, hv]
        rw [this, Nat.mul_succ]
        omega
      | some p =>
        simp only [specNewStacks, hn, if_false, hv]
        rw [ih v n hnd.2]
        have : viewEmpty v (s :: rest) = viewEmpty v rest := by
          simp [viewEmpty, hv]
        rw [this]

theorem specFill_left (entry : ItemEntry) (l : List Nat) (v : Nat → Option (ItemEntry × Nat))
    (n : Nat) (hnd : l.Nodup) :
    (specFill entry l v n).2 = n - viewCap entry v l - entry.maxstack * viewEmpty v l := by
  unfold specFill
  rw [specNewStacks_left entry l _ _ hnd, specTopUp_left entry l v n hnd,
    viewEmpty_congr v _ l (fun x _ => specTopUp_isNone entry l v n x)]

theorem viewSum_congr (v v2 : Nat → Option (ItemEntry × Nat)) (id : Nat) (l : List Nat)
    (h : ∀ x ∈ l, v2 x = v x) : viewSum v2 id l = viewSum v id l := by
  unfold viewSum
  congr 1
  apply List.map_congr_left
  intro x hx
  simp [viewStack, h x hx]

theorem viewSum_setAt (v : Nat → Option (ItemEntry × Nat)) (id s : Nat)
    (x : Option (ItemEntry × Nat)) (L : List Nat) (hnd : L.Nodup) (hs : s ∈ L) :
    viewSum (setAt v s x) id L + viewStack v id s =
      viewSum v id L + viewStack (setAt v s x) id s := by
  induction L with
  | nil => cases hs
  | cons y ys ih =>
    rw [List.nodup_cons] at hnd
    by_cases hy : y = s
    · subst hy
      have hrest := viewSum_congr v (setAt v y x) id ys (fun z hz => by
        have : z ≠ y := fun h => hnd.1 (h ▸ hz)
        simp [setAt, this])
      simp only [viewSum, List.map_cons, List.sum_cons] at hrest ⊢
      omega
    · have hs2 : s ∈ ys := by
        rcases List.mem_cons.mp hs with h | h
        · exact absurd h.symm hy
        · exact h
      have := ih hnd.2 hs2
      have hyv : viewStack (setAt v s x) id y = viewStack v id y := by
        simp [viewStack, setAt, hy]
      simp only [viewSum, List.map_cons, List.sum_cons, hyv] at this ⊢
      omega

theorem specTopUp_conserves (entry : ItemEntry) (L : List Nat) (hL : L.Nodup) (l : List Nat) :
    ∀ (v : Nat → Option (ItemEntry × Nat)) (n : Nat), (∀ s ∈ l, s ∈ L) →
      viewSum (specTopUp entry l v n).1 entry.id L + (specTopUp entry l v n).2 =
        viewSum v entry.id L + n := by
  induction l with
  | nil => intro v n _; rfl
  | cons s rest ih =>
    intro v n hsub
    have hrest : ∀ x ∈ rest, x ∈ L := fun x hx => hsub x (List.mem_cons_of_mem _ hx)
    cases hv : v s with
    | none => simp only [specTopUp, hv]; exact ih v n hrest
    | some p =>
      obtain ⟨e, c⟩ := p
      simp only [specTopUp, hv]
      by_cases hcond : e.id = entry.id ∧ c < entry.maxstack
      · rw [if_pos hcond, ih _ _ hrest]
        have h := viewSum_setAt v entry.id s (some (e, c + min n (entry.maxstack - c))) L hL
          (hsub s (List.mem_cons_self _ _))
        have h1 : viewStack v entry.id s = c := by simp [viewStack, hv, hcond.1]
        have h2 : viewStack (setAt v s (some (e, c + min n (entry.maxstack - c)))) entry.id s =
            c + min n (entry.maxstack - c) := by simp [viewStack, setAt, hcond.1]
        rw [h1, h2] at h
        omega
      · rw [if_neg hcond]; exact ih v n hrest

theorem specNewStacks_conserves (entry : ItemEntry) (L : List Nat) (hL : L.Nodup) (l : List Nat) :
    ∀ (v : Nat → Option (ItemEntry × Nat)) (n : Nat), (∀ s ∈ l, s ∈ L) →
      viewSum (specNewStacks entry l v n).1 entry.id L + (specNewStacks entry l v n).2 =
        viewSum v entry.id L + n := by
  induction l with
  | nil => intro v n _; rfl
  | cons s rest ih =>
    intro v n hsub
    have hrest : ∀ x ∈ rest, x ∈ L := fun x hx => hsub x (List.mem_cons_of_mem _ hx)
    by_cases hn : n = 0
    · subst hn; simp [specNewStacks]
    · cases hv : v s with
      | none =>
        simp only [specNewStacks, hn, if_false, hv]
        rw [ih _ _ hrest]
        have h := viewSum_setAt v entry.id s (some (entry, min n entry.maxstack)) L hL
          (hsub s (List.mem_cons_self _ _))
        have h1 : viewStack v entry.id s = 0 := by simp [viewStack, hv]
        have h2 : viewStack (setAt v s (some (entry, min n entry.maxstack))) entry.id s =
            min n entry.maxstack := by simp [viewStack, setAt]
        rw [h1, h2] at h
        omega
      | some p =>
        simp only [specNewStacks, hn, if_false, hv]
        exact ih v n hrest

theorem specFill_conserves (entry : ItemEntry) (L : List Nat) (hL : L.Nodup) (l : List Nat)
    (v : Nat → Option (ItemEntry × Nat)) (n : Nat) (hsub : ∀ s ∈ l, s ∈ L) :
    viewSum (specFill entry l v n).1 entry.id L + (specFill entry l v n).2 =
      viewSum v entry.id L + n := by
  unfold specFill
  rw [specNewStacks_conserves entry L hL l _ _ hsub, specTopUp_conserves entry L hL l v n hsub]

theorem specTopUp_frame (entry : ItemEntry) (l : List Nat) :
    ∀ (v : Nat → Option (ItemEntry × Nat)) (n : Nat) (x : Nat), x ∉ l →
      (specTopUp entry l v n).1 x = v x := by
  induction l with
  | nil => intro v n x _; rfl
  | cons s rest ih =>
    intro v n x hx
    have hxs : x ≠ s := fun h => hx (h ▸ List.mem_cons_self _ _)
    have hxr : x ∉ rest := fun h => hx (List.mem_cons_of_mem _ h)
    cases hv : v s with
    | none => simp only [specTopUp, hv]; exact ih v n x hxr
    | some p =>
      obtain ⟨e, c⟩ := p
      simp only [specTopUp, hv]
      split_ifs
      · rw [ih _ _ x hxr]; simp [setAt, hxs]
      · exact ih v n x hxr

theorem specNewStacks_frame (entry : ItemEntry) (l : List Nat) :
    ∀ (v : Nat → Option (ItemEntry × Nat)) (n : Nat) (x : Nat), x ∉ l →
      (specNewStacks entry l v n).1 x = v x := by
  induction l with
  | nil => intro v n x _; rfl
  | cons s rest ih =>
    intro v n x hx
    have hxs : x ≠ s := fun h => hx (h ▸ List.mem_cons_self _ _)
    have hxr : x ∉ rest := fun h => hx (List.mem_cons_of_mem _ h)
    by_cases hn : n = 0
    · subst hn; simp [specNewStacks]
    · cases hv : v s with
      | none =>
        simp only [specNewStacks, hn, if_false, hv]
        rw [ih _ _ x hxr]; simp [setAt, hxs]
      | some p =>
        simp only [specNewStacks, hn, if_false, hv]
        exact ih v n x hxr

theorem specTopUp_slot (entry : ItemEntry) (l : List Nat) :
    ∀ (v : Nat → Option (ItemEntry × Nat)) (n : Nat) (x : Nat), l.Nodup →
      (specTopUp entry l v n).1 x = v x ∨
      ∃ e c c2, v x = some (e, c) ∧ e.id = entry.id ∧ c < entry.maxstack ∧
        (specTopUp entry l v n).1 x = some (e, c2) ∧ c ≤ c2 ∧ c2 ≤ entry.maxstack := by
  induction l with
  | nil => intro v n x _; left; rfl
  | cons s rest ih =>
    intro v n x hnd
    rw [List.nodup_cons] at hnd
    cases hv : v s with
    | none => simp only [specTopUp, hv]; exact ih v n x hnd.2
    | some p =>
      obtain ⟨e, c⟩ := p
      simp only [specTopUp, hv]
      by_cases hcond : e.id = entry.id ∧ c < entry.maxstack
      · rw [if_pos hcond]
        by_cases hx : x = s
        · subst hx
          right
          refine ⟨e, c, c + min n (entry.maxstack - c), hv, hcond.1, hcond.2, ?_, by omega, by omega⟩
          rw [specTopUp_frame entry rest _ _ x hnd.1]
          simp [setAt]
        · rcases ih (setAt v s (some (e, c + min n (entry.maxstack - c))))
            (n - min n (entry.maxstack - c)) x hnd.2 with h | h
          · left; rw [h]; simp [setAt, hx]
          · right
            simpa [setAt, hx] using h
      · rw [if_neg hcond]; exact ih v n x hnd.2

theorem specNewStacks_slot (entry : ItemEntry) (l : List Nat) :
    ∀ (v : Nat → Option (ItemEntry × Nat)) (n : Nat) (x : Nat), l.Nodup →
      (specNewStacks entry l v n).1 x = v x ∨
      (v x = none ∧ ∃ c, (specNewStacks entry l v n).1 x = some (entry, c) ∧
        c ≤ entry.maxstack) := by
  induction l with
  | nil => intro v n x _; left; rfl
  | cons s rest ih =>
    intro v n x hnd
    rw [List.nodup_cons] at hnd
    by_cases hn : n = 0
    · subst hn; left; simp [specNewStacks]
    · cases hv : v s with
      | none =>
        simp only [specNewStacks, hn, if_false, hv]
        by_cases hx : x = s
        · subst hx
          right
          refine ⟨hv, min n entry.maxstack, ?_, by omega⟩
          rw [specNewStacks_frame entry rest _ _ x hnd.1]
          simp [setAt]
        · rcases ih (setAt v s (some (entry, min n entry.maxstack)))
            (n - min n entry.maxstack) x hnd.2 with h | h
          · left; rw [h]; simp [setAt, hx]
          · right
            simpa [setAt, hx] using h
      | some p =>
        simp only [specNewStacks, hn, if_false, hv]
        exact ih v n x hnd.2

theorem capSum_eq_viewCap (entry : ItemEntry) (items : Nat → Option GameItem) (l : List Nat) :
    capSum items entry.maxstack (l.filter (isUnderfull items entry)) =
      viewCap entry (stackView items) l := by
  induction l with
  | nil => rfl
  | cons s rest ih =>
    cases hlook : items s with
    | none =>
      have hU : isUnderfull items entry s = false := by simp [isUnderfull, hlook]
      simp only [List.filter_cons, hU, Bool.false_eq_true, if_false, ih]
      simp [viewCap, stackView, hlook]
    | some it =>
      by_cases hcond : it.entry.id = entry.id ∧ it.stackCount < entry.maxstack
      · have hU : isUnderfull items entry s = true := by
          simp [isUnderfull, hlook, hcond.1, hcond.2]
        simp only [List.filter_cons, hU, if_true]
        simp only [capSum, List.map_cons, List.sum_cons] at ih ⊢
        rw [ih]
        simp [viewCap, stackView, stackAt, hlook, hcond.1, hcond.2]
      · have hU : isUnderfull items entry s = false := by
          simp only [isUnderfull, hlook]
          simp only [not_and_or] at hcond
          rcases hcond with h | h <;> simp [h]
        simp only [List.filter_cons, hU, Bool.false_eq_true, if_false, ih]
        simp [viewCap, stackView, hlook, hcond]

theorem emptyFilter_length (items : Nat → Option GameItem) (l : List Nat) :
    (l.filter (isEmptyAt items)).length = viewEmpty (stackView items) l := by
  unfold viewEmpty
  rw [← List.countP_eq_length_filter]
  congr 1
  funext s
  simp [isEmptyAt, stackView]

theorem stackSum_eq_viewSum (items : Nat → Option GameItem) (id : Nat) (l : List Nat) :
    stackSum items id l = viewSum (stackView items) id l := by
  unfold stackSum viewSum
  congr 1
  apply List.map_congr_left
  intro s _
  cases h : items s <;> simp [slotStack, viewStack, stackView, h]

theorem fillUsed_items_frame (entry : ItemEntry) (l : List Nat) :
    ∀ (inv : Inventory) (n : Nat) (x : Nat), x ∉ l →
      (fillUsed entry l inv n).1.itemsBySlot x = inv.itemsBySlot x := by
  induction l with
  | nil => intro inv n x _; rfl
  | cons s rest ih =>
    intro inv n x hx
    have hxs : x ≠ s := fun h => hx (h ▸ List.mem_cons_self _ _)
    have hxr : x ∉ rest := fun h => hx (List.mem_cons_of_mem _ h)
    cases hlook : inv.itemsBySlot s with
    | none => simp only [fillUsed, hlook]; exact ih inv n x hxr
    | some item =>
      simp only [fillUsed, hlook]
      have hstep : (if 0 < (addStacks item n).2 then
            { inv with
              itemsBySlot := setAt inv.itemsBySlot s (some (addStacks item n).1)
              itemCounter := counterAdd inv.itemCounter entry.id (addStacks item n).2 }
            else inv).itemsBySlot x = inv.itemsBySlot x := by
        split_ifs
        · simp [setAt, hxs]
        · rfl
      by_cases hz : n - (addStacks item n).2 = 0
      · rw [if_pos hz]; exact hstep
      · rw [if_neg hz, ih _ _ x hxr]; exact hstep

theorem fillEmpty_items_frame (E : Env) (entry : ItemEntry) (l : List Nat) :
    ∀ (inv : Inventory) (n : Nat) (x : Nat), x ∉ l →
      (fillEmpty E entry l inv n).1.itemsBySlot x = inv.itemsBySlot x := by
  induction l with
  | nil => intro inv n x _; rfl
  | cons s rest ih =>
    intro inv n x hx
    have hxs : x ≠ s := fun h => hx (h ▸ List.mem_cons_self _ _)
    have hxr : x ∉ rest := fun h => hx (List.mem_cons_of_mem _ h)
    simp only [fillEmpty]
    by_cases hz : n - 1 - (addStacks (newItem E entry (generateId inv.owner).1) (n - 1)).2 = 0
    · rw [if_pos hz]; simp [setAt, hxs]
    · rw [if_neg hz, ih _ _ x hxr]; simp [setAt, hxs]

theorem fillPhases_items_frame (E : Env) (inv : Inventory) (entry : ItemEntry) (sc : Scan)
    (n x : Nat) (hu : x ∉ sc.usedCapableSlots) (he : x ∉ sc.emptySlots) :
    (fillPhases E inv entry sc n).1.itemsBySlot x = inv.itemsBySlot x := by
  unfold fillPhases
  simp only []
  split_ifs
  · rw [fillEmpty_items_frame E entry _ _ _ x he]
    exact fillUsed_items_frame entry _ inv n x hu
  · exact fillUsed_items_frame entry _ inv n x hu

theorem specFill_slot (entry : ItemEntry) (l : List Nat) (v : Nat → Option (ItemEntry × Nat))
    (n x : Nat) (hnd : l.Nodup) :
    (specFill entry l v n).1 x = v x ∨
    ∃ e c, (specFill entry l v n).1 x = some (e, c) ∧ e.id = entry.id ∧ c ≤ entry.maxstack := by
  unfold specFill
  rcases specNewStacks_slot entry l (specTopUp entry l v n).1 (specTopUp entry l v n).2 x hnd
    with h | ⟨_, c, hc, hle⟩
  · rw [h]
    rcases specTopUp_slot entry l v n x hnd with h2 | ⟨e, c, c2, _, hid, _, hr, _, hle⟩
    · left; exact h2
    · right; exact ⟨e, c2, hr, hid, hle⟩
  · right; exact ⟨entry, c, hc, rfl, hle⟩

/-! ### createItems places the whole amount -/

theorem createItems_unfold (E : Env) (inv : Inventory) (entry : ItemEntry) (amount : Nat) :
    createItems E inv entry amount =
      if 0 < entry.maxcount ∧
          entry.maxcount < getItemCount inv entry.id + effectiveAmount amount then
        (InventoryChangeFailure.CantCarryMoreOfThis, inv)
      else if (getItemCount inv entry.id = 0 ∨ entry.maxstack ≤ 1) ∧
          inv.freeSlots < ((effectiveAmount amount - 1) / entry.maxstack + 1) % 65536 then
        (InventoryChangeFailure.InventoryFull, inv)
      else if (createScan E inv entry amount).availableStacks < effectiveAmount amount then
        (InventoryChangeFailure.InventoryFull, inv)
      else if 0 < createAmountLeft E inv entry amount then
        (InventoryChangeFailure.InventoryFull,
          (fillPhases E inv entry (createScan E inv entry amount) (effectiveAmount amount)).1)
      else
        (InventoryChangeFailure.Okay,
          (fillPhases E inv entry (createScan E inv entry amount) (effectiveAmount amount)).1) :=
  rfl

theorem createScan_prefix (E : Env) (hv : E.valid) (inv : Inventory) (entry : ItemEntry)
    (amount : Nat) :
    ∃ k pre, k ≤ (packSubslots E).length ∧
      pre = ((packSubslots E).take k).map (getAbsoluteSlot E.bag0) ∧ pre.Nodup ∧
      (∀ s ∈ pre, s ∈ packSlots E) ∧
      (createScan E inv entry amount).usedCapableSlots =
        pre.filter (isUnderfull inv.itemsBySlot entry) ∧
      (createScan E inv entry amount).emptySlots = pre.filter (isEmptyAt inv.itemsBySlot) ∧
      (createScan E inv entry amount).availableStacks ≤
        entry.maxstack * viewEmpty (stackView inv.itemsBySlot) pre +
          viewCap entry (stackView inv.itemsBySlot) pre ∧
      (createScan E inv entry amount).itemsProcessed ≤ stackSum inv.itemsBySlot entry.id pre ∧
      (k < (packSubslots E).length →
        getItemCount inv entry.id ≤ (createScan E inv entry amount).itemsProcessed ∧
        ((effectiveAmount amount - 1) / entry.maxstack + 1) % 65536 ≤
          viewEmpty (stackView inv.itemsBySlot) pre) := by
  obtain ⟨k, hk, h1, h2, h3, h4, h5⟩ := scanSlots_spec E inv entry (getItemCount inv entry.id)
    (((effectiveAmount amount - 1) / entry.maxstack + 1) % 65536) (packSubslots E) ⟨[], [], 0, 0⟩
  have hsub : (((packSubslots E).take k).map (getAbsoluteSlot E.bag0)).Sublist (packSlots E) :=
    (List.take_sublist k _).map _
  refine ⟨k, _, hk, rfl, (packSlots_nodup E hv).sublist hsub, fun s hs => hsub.subset hs, ?_, ?_,
    ?_, ?_, ?_⟩
  · simpa [createScan] using h2
  · simpa [createScan] using h1
  · rw [← emptyFilter_length, ← capSum_eq_viewCap]
    simpa [createScan] using h4
  · simpa [createScan] using h3
  · intro hlt
    obtain ⟨a, b⟩ := h5 hlt
    refine ⟨a, ?_⟩
    rw [← emptyFilter_length]
    have : (createScan E inv entry amount).emptySlots.length =
        (List.filter (isEmptyAt inv.itemsBySlot)
          (((packSubslots E).take k).map (getAbsoluteSlot E.bag0))).length := by
      unfold createScan; rw [h1]; simp
    rw [← this]
    exact b

theorem createAmountLeft_zero (E : Env) (hv : E.valid) (inv : Inventory) (entry : ItemEntry)
    (amount : Nat) (hm : 1 ≤ entry.maxstack) (hst : sameTemplate inv.itemsBySlot entry)
    (havail : ¬ (createScan E inv entry amount).availableStacks < effectiveAmount amount) :
    createAmountLeft E inv entry amount = 0 := by
  obtain ⟨k, pre, _, _, hnd, _, hu, he, hcap, _, _⟩ := createScan_prefix E hv inv entry amount
  obtain ⟨_, r2⟩ := fillPhases_refines E inv entry hm hst pre hnd
    (createScan E inv entry amount) hu he (effectiveAmount amount)
  unfold createAmountLeft
  rw [r2, specFill_left entry pre _ _ hnd]
  omega

theorem createItems_okay_facts (E : Env) (hv : E.valid) (inv : Inventory) (entry : ItemEntry)
    (amount : Nat) (hm : 1 ≤ entry.maxstack) (hst : sameTemplate inv.itemsBySlot entry)
    (hok : (createItems E inv entry amount).1 = InventoryChangeFailure.Okay) :
    ∃ pre, pre.Nodup ∧ (∀ s ∈ pre, s ∈ packSlots E) ∧
      (createScan E inv entry amount).usedCapableSlots =
        pre.filter (isUnderfull inv.itemsBySlot entry) ∧
      (createScan E inv entry amount).emptySlots = pre.filter (isEmptyAt inv.itemsBySlot) ∧
      (createItems E inv entry amount).2 =
        (fillPhases E inv entry (createScan E inv entry amount) (effectiveAmount amount)).1 ∧
      stackView (createItems E inv entry amount).2.itemsBySlot =
        (specFill entry pre (stackView inv.itemsBySlot) (effectiveAmount amount)).1 ∧
      (specFill entry pre (stackView inv.itemsBySlot) (effectiveAmount amount)).2 = 0 := by
  obtain ⟨k, pre, _, _, hnd, hsub, hu, he, _, _, _⟩ := createScan_prefix E hv inv entry amount
  obtain ⟨r1, r2⟩ := fillPhases_refines E inv entry hm hst pre hnd
    (createScan E inv entry amount) hu he (effectiveAmount amount)
  rw [createItems_unfold] at hok ⊢
  split_ifs at hok ⊢ with h1 h2 h3 h4
  · have hz := createAmountLeft_zero E hv inv entry amount hm hst h3
    refine ⟨pre, hnd, hsub, hu, he, rfl, r1, ?_⟩
    rw [← r2]
    exact hz

/-- C7: for a template with `maxstack >= 1` whose instances carry that
template, the `amountLeft > 0` branch after the fill loops ("could not add all
items") is never reached, so every return other than `Okay` leaves the
inventory untouched; and whenever `createItems` returns `Okay` the total stack
count of the template over the pack slots has grown by exactly the amount (1
for a requested 0), no stack of the template exceeds `maxstack` if none did
before, and the items of other templates are the same as before. None of this
needs the counter cache to be consistent. -/
theorem createItems_okay_adds_amount (E : Env) (hv : E.valid) (inv : Inventory)
    (entry : ItemEntry) (amount : Nat) (hm : 1 ≤ entry.maxstack)
    (hst : sameTemplate inv.itemsBySlot entry) :
    (¬ (createScan E inv entry amount).availableStacks < effectiveAmount amount →
      createAmountLeft E inv entry amount = 0) ∧
    ((createItems E inv entry amount).1 ≠ InventoryChangeFailure.Okay →
      (createItems E inv entry amount).2 = inv) ∧
    ((createItems E inv entry amount).1 = InventoryChangeFailure.Okay →
      stackSum (createItems E inv entry amount).2.itemsBySlot entry.id (packSlots E) =
        stackSum inv.itemsBySlot entry.id (packSlots E) + effectiveAmount amount ∧
      ((∀ s it, inv.itemsBySlot s = some it → it.entry.id = entry.id →
          it.stackCount ≤ entry.maxstack) →
        ∀ s it, (createItems E inv entry amount).2.itemsBySlot s = some it →
          it.entry.id = entry.id → it.stackCount ≤ entry.maxstack) ∧
      (∀ s it, it.entry.id ≠ entry.id →
        ((createItems E inv entry amount).2.itemsBySlot s = some it ↔
          inv.itemsBySlot s = some it))) := by
  refine ⟨createAmountLeft_zero E hv inv entry amount hm hst, ?_, ?_⟩
  · intro hne
    rw [createItems_unfold] at hne ⊢
    split_ifs at hne ⊢ with h1 h2 h3 h4
    · rfl
    · rfl
    · rfl
    · have := createAmountLeft_zero E hv inv entry amount hm hst h3
      omega
    · exact absurd rfl hne
  · intro hok
    obtain ⟨pre, hnd, hsub, hu, he, hpost, hview, hleft⟩ :=
      createItems_okay_facts E hv inv entry amount hm hst hok
    refine ⟨?_, ?_, ?_⟩
    · have hc := specFill_conserves entry (packSlots E) (packSlots_nodup E hv) pre
        (stackView inv.itemsBySlot) (effectiveAmount amount) hsub
      rw [stackSum_eq_viewSum, stackSum_eq_viewSum, hview]
      omega
    · intro hpre s it hs hid
      have hv2 : stackView (createItems E inv entry amount).2.itemsBySlot s =
          some (it.entry, it.stackCount) := by simp [stackView, hs]
      rw [hview] at hv2
      rcases specFill_slot entry pre (stackView inv.itemsBySlot) (effectiveAmount amount) s hnd
        with h | ⟨e, c, hc, _, hle⟩
      · rw [h] at hv2
        cases hi : inv.itemsBySlot s with
        | none => simp [stackView, hi] at hv2
        | some it0 =>
          simp only [stackView, hi, Option.map_some', Option.some.injEq, Prod.mk.injEq] at hv2
          have := hpre s it0 hi (by rw [hv2.1]; exact hid)
          omega
      · rw [hc] at hv2
        simp only [Option.some.injEq, Prod.mk.injEq] at hv2
        omega
    · intro s it hid
      have hframe : (∃ it0, inv.itemsBySlot s = some it0 ∧ it0.entry.id ≠ entry.id) →
          (createItems E inv entry amount).2.itemsBySlot s = inv.itemsBySlot s := by
        rintro ⟨it0, hi, hne⟩
        rw [hpost]
        apply fillPhases_items_frame
        · rw [hu, List.mem_filter]
          rintro ⟨_, hU⟩
          simp [isUnderfull, hi, hne] at hU
        · rw [he, List.mem_filter]
          rintro ⟨_, hE⟩
          simp [isEmptyAt, hi] at hE
      constructor
      · intro hs
        have hv2 : stackView (createItems E inv entry amount).2.itemsBySlot s =
            some (it.entry, it.stackCount) := by simp [stackView, hs]
        rw [hview] at hv2
        rcases specFill_slot entry pre (stackView inv.itemsBySlot) (effectiveAmount amount) s hnd
          with h | ⟨e, c, hc, he2, _⟩
        · rw [h] at hv2
          cases hi : inv.itemsBySlot s with
          | none => simp [stackView, hi] at hv2
          | some it0 =>
            simp only [stackView, hi, Option.map_some', Option.some.injEq, Prod.mk.injEq] at hv2
            have := hframe ⟨it0, hi, by rw [hv2.1]; exact hid⟩
            rw [← hi, ← this, hs]
        · rw [hc] at hv2
          simp only [Option.some.injEq, Prod.mk.injEq] at hv2
          exact absurd (hv2.1 ▸ he2) hid
      · intro hi
        rw [hframe ⟨it, hi, hid⟩, hi]

/-- Witness of C7: five units of the stackable template on top of a stack of 5. -/
theorem createItems_okay_adds_amount_witness :
    (¬ (createScan stdEnv oneStackInv stdEntry 5).availableStacks < effectiveAmount 5 →
      createAmountLeft stdEnv oneStackInv stdEntry 5 = 0) ∧
    ((createItems stdEnv oneStackInv stdEntry 5).1 ≠ InventoryChangeFailure.Okay →
      (createItems stdEnv oneStackInv stdEntry 5).2 = oneStackInv) ∧
    ((createItems stdEnv oneStackInv stdEntry 5).1 = InventoryChangeFailure.Okay →
      stackSum (createItems stdEnv oneStackInv stdEntry 5).2.itemsBySlot stdEntry.id
          (packSlots stdEnv) =
        stackSum oneStackInv.itemsBySlot stdEntry.id (packSlots stdEnv) + effectiveAmount 5 ∧
      ((∀ s it, oneStackInv.itemsBySlot s = some it → it.entry.id = stdEntry.id →
          it.stackCount ≤ stdEntry.maxstack) →
        ∀ s it, (createItems stdEnv oneStackInv stdEntry 5).2.itemsBySlot s = some it →
          it.entry.id = stdEntry.id → it.stackCount ≤ stdEntry.maxstack) ∧
      (∀ s it, it.entry.id ≠ stdEntry.id →
        ((createItems stdEnv oneStackInv stdEntry 5).2.itemsBySlot s = some it ↔
          oneStackInv.itemsBySlot s = some it))) :=
  createItems_okay_adds_amount stdEnv (by unfold Env.valid; decide) oneStackInv stdEntry 5
    (by decide) (by
      have h : oneStackInv.itemsBySlot =
          setAt (fun _ => none) 65303 (some ⟨stdEntry, 4611686018544828417, 5, 0⟩) := rfl
      intro s it hs _
      rw [h] at hs
      by_cases hx : s = 65303
      · subst hx
        simp [setAt] at hs
        rw [← hs]
      · simp [setAt, hx] at hs)

/-! ### With a consistent counter the scan finds every stack: refinement of the contract -/

theorem specTopUp_append (entry : ItemEntry) (l1 l2 : List Nat) :
    ∀ (v : Nat → Option (ItemEntry × Nat)) (n : Nat),
      specTopUp entry (l1 ++ l2) v n =
        specTopUp entry l2 (specTopUp entry l1 v n).1 (specTopUp entry l1 v n).2 := by
  induction l1 with
  | nil => intro v n; rfl
  | cons s rest ih =>
    intro v n
    cases hv : v s with
    | none => simp only [List.cons_append, specTopUp, hv]; exact ih v n
    | some p =>
      obtain ⟨e, c⟩ := p
      simp only [List.cons_append, specTopUp, hv]
      split_ifs
      · exact ih _ _
      · exact ih v n

theorem specNewStacks_append (entry : ItemEntry) (l1 l2 : List Nat) :
    ∀ (v : Nat → Option (ItemEntry × Nat)) (n : Nat),
      specNewStacks entry (l1 ++ l2) v n =
        specNewStacks entry l2 (specNewStacks entry l1 v n).1 (specNewStacks entry l1 v n).2 := by
  induction l1 with
  | nil => intro v n; rfl
  | cons s rest ih =>
    intro v n
    by_cases hn : n = 0
    · subst hn
      simp [specNewStacks, specNewStacks_zero]
    · cases hv : v s with
      | none => simp only [List.cons_append, specNewStacks, hn, if_false, hv]; exact ih _ _
      | some p => simp only [List.cons_append, specNewStacks, hn, if_false, hv]; exact ih v n

theorem specTopUp_noop (entry : ItemEntry) (l : List Nat) (v : Nat → Option (ItemEntry × Nat))
    (n : Nat) (h : ∀ x ∈ l, ∀ e c, v x = some (e, c) → e.id ≠ entry.id) :
    specTopUp entry l v n = (v, n) := by
  induction l with
  | nil => rfl
  | cons s rest ih =>
    have hrest := ih (fun x hx => h x (List.mem_cons_of_mem _ hx))
    cases hv : v s with
    | none => simp only [specTopUp, hv]; exact hrest
    | some p =>
      obtain ⟨e, c⟩ := p
      have hne := h s (List.mem_cons_self _ _) e c hv
      simp only [specTopUp, hv, hne, false_and, if_false]
      exact hrest

theorem stackSum_le_stackTotal (inv : Inventory) (id : Nat) (l : List Nat) (hnd : l.Nodup)
    (hlt : ∀ s ∈ l, s < 65536) : stackSum inv.itemsBySlot id l ≤ stackTotal inv id := by
  unfold stackTotal stackSum
  rw [← List.sum_toFinset _ hnd]
  apply Finset.sum_le_sum_of_subset
  intro s hs
  exact Finset.mem_range.mpr (hlt s (List.mem_toFinset.mp hs))

theorem stackSum_append (items : Nat → Option GameItem) (id : Nat) (l1 l2 : List Nat) :
    stackSum items id (l1 ++ l2) = stackSum items id l1 + stackSum items id l2 := by
  simp [stackSum]

theorem stackSum_zero_slot (items : Nat → Option GameItem) (id : Nat) (l : List Nat)
    (h : stackSum items id l = 0) (x : Nat) (hx : x ∈ l) : slotStack items id x = 0 := by
  unfold stackSum at h
  rw [List.sum_eq_zero_iff] at h
  exact h _ (List.mem_map_of_mem _ hx)

theorem createItems_okay_view (E : Env) (hv : E.valid) (inv : Inventory) (entry : ItemEntry)
    (amount : Nat) (hm : 1 ≤ entry.maxstack) (hst : sameTemplate inv.itemsBySlot entry)
    (hok : (createItems E inv entry amount).1 = InventoryChangeFailure.Okay)
    (pre : List Nat) (hnd : pre.Nodup)
    (hu : (createScan E inv entry amount).usedCapableSlots =
      pre.filter (isUnderfull inv.itemsBySlot entry))
    (he : (createScan E inv entry amount).emptySlots = pre.filter (isEmptyAt inv.itemsBySlot)) :
    stackView (createItems E inv entry amount).2.itemsBySlot =
        (specFill entry pre (stackView inv.itemsBySlot) (effectiveAmount amount)).1 ∧
    (specFill entry pre (stackView inv.itemsBySlot) (effectiveAmount amount)).2 = 0 := by
  obtain ⟨r1, r2⟩ := fillPhases_refines E inv entry hm hst pre hnd
    (createScan E inv entry amount) hu he (effectiveAmount amount)
  rw [createItems_unfold] at hok ⊢
  split_ifs at hok ⊢ with h1 h2 h3 h4
  · have hz := createAmountLeft_zero E hv inv entry amount hm hst h3
    refine ⟨r1, ?_⟩
    rw [← r2]
    exact hz

/-- C8 amended: from a state whose counter for the template is consistent
with the slot map (instances carry the template, every stack holds at least
one unit, `maxstack >= 1`), whenever `createItems` returns `Okay` the slot map
it leaves is the one the two-phase fill of the contract produces over all pack
slots in ascending order: under-full stacks of the template topped up one after
the other up to `maxstack`, then new stacks of at most `maxstack` in the empty
slots for what remains. -/
theorem createItems_refines_two_phase_fill (E : Env) (hv : E.valid) (inv : Inventory)
    (entry : ItemEntry) (amount : Nat) (hm : 1 ≤ entry.maxstack)
    (hst : sameTemplate inv.itemsBySlot entry)
    (hpos : ∀ s it, inv.itemsBySlot s = some it → 1 ≤ it.stackCount)
    (hcons : getItemCount inv entry.id = stackTotal inv entry.id)
    (hok : (createItems E inv entry amount).1 = InventoryChangeFailure.Okay) :
    stackView (createItems E inv entry amount).2.itemsBySlot =
      (specFill entry (packSlots E) (stackView inv.itemsBySlot) (effectiveAmount amount)).1 := by
  obtain ⟨k, pre, hk, hpre, hnd, hsub, hu, he, _, hproc, hbrk⟩ :=
    createScan_prefix E hv inv entry amount
  obtain ⟨hview, hleft⟩ := createItems_okay_view E hv inv entry amount hm hst hok pre hnd hu he
  rw [hview]
  have hP : packSlots E = pre ++ ((packSubslots E).drop k).map (getAbsoluteSlot E.bag0) := by
    rw [hpre, ← List.map_append, List.take_append_drop]
    rfl
  by_cases hlt : k < (packSubslots E).length
  · obtain ⟨hb1, _⟩ := hbrk hlt
    have hPnd := packSlots_nodup E hv
    rw [hP] at hPnd
    have hdisj := (List.nodup_append.mp hPnd).2.2
    have htot := stackSum_le_stackTotal inv entry.id (packSlots E) (packSlots_nodup E hv)
      (packSlots_lt E)
    rw [hP, stackSum_append] at htot
    have hzero : stackSum inv.itemsBySlot entry.id
        (((packSubslots E).drop k).map (getAbsoluteSlot E.bag0)) = 0 := by omega
    have hnone : ∀ x ∈ ((packSubslots E).drop k).map (getAbsoluteSlot E.bag0), ∀ e c,
        (specTopUp entry pre (stackView inv.itemsBySlot) (effectiveAmount amount)).1 x =
          some (e, c) → e.id ≠ entry.id := by
      intro x hx e c hxv
      have hxpre : x ∉ pre := fun h => hdisj h hx
      rw [specTopUp_frame entry pre _ _ x hxpre] at hxv
      have hs0 := stackSum_zero_slot inv.itemsBySlot entry.id _ hzero x hx
      cases hi : inv.itemsBySlot x with
      | none => simp [stackView, hi] at hxv
      | some it =>
        simp only [stackView, hi, Option.map_some', Option.some.injEq, Prod.mk.injEq] at hxv
        intro hid
        have h1 := hpos x it hi
        simp only [slotStack, hi] at hs0
        rw [hxv.1, if_pos hid] at hs0
        omega
    rw [hP]
    unfold specFill at hleft ⊢
    rw [specTopUp_append, specTopUp_noop entry _ _ _ hnone, specNewStacks_append, hleft,
      specNewStacks_zero]
  · have hk2 : k = (packSubslots E).length := by omega
    have : pre = packSlots E := by
      rw [hpre, hk2, List.take_length]
      rfl
    rw [this]

/-! ### Evaluations on concrete inventories -/

theorem oneStackInv_items :
    oneStackInv.itemsBySlot =
      setAt (fun _ => none) 65303 (some ⟨stdEntry, 4611686018544828417, 5, 0⟩) :=
  rfl

theorem oneStackInv_support (s : Nat) (hs : s ∉ [65303]) : oneStackInv.itemsBySlot s = none := by
  rw [oneStackInv_items]
  simp at hs
  simp [setAt, hs]

theorem oneStackInv_total (id : Nat) :
    stackTotal oneStackInv id = if id = 7 then 5 else 0 := by
  rw [stackTotal_eq_of_support oneStackInv id [65303] (by decide) (by decide) oneStackInv_support]
  simp only [stackSum, List.map_cons, List.map_nil, List.sum_cons, List.sum_nil, slotStack,
    oneStackInv_items, setAt, if_true, stdEntry]
  by_cases h : id = 7
  · subst h; rfl
  · have : ¬ (7 = id) := fun h2 => h h2.symm
    simp [h, this]

theorem oneStackInv_counter (id : Nat) :
    getItemCount oneStackInv id = if id = 7 then 5 else 0 := by
  have h : oneStackInv.itemCounter = setAt (fun _ => none) 7 (some 5) := rfl
  unfold getItemCount
  rw [h]
  by_cases hid : id = 7 <;> simp [setAt, hid]

theorem oneStackInv_consistent : countersConsistent oneStackInv := by
  intro id
  rw [oneStackInv_total, oneStackInv_counter]

/-- C1 fails on the code: after `createItems(t, 5)` and `removeItems(t, 2)` on a
fresh inventory the only stack of `t` holds 3 units, so the total held is 3,
while the cached counter reads 2 (the partial decrement subtracts what remains
in the stack instead of what was removed). -/
theorem removeItems_partial_counter_mismatch :
    getItemCount (runOps stdEnv (Inventory.init stdEnv stdOwner)
        [Op.create stdEntry 5, Op.remove stdEntry 2]) 7 = 2 ∧
    stackTotal (runOps stdEnv (Inventory.init stdEnv stdOwner)
        [Op.create stdEntry 5, Op.remove stdEntry 2]) 7 = 3 := by
  refine ⟨by decide, ?_⟩
  have h : (runOps stdEnv (Inventory.init stdEnv stdOwner)
      [Op.create stdEntry 5, Op.remove stdEntry 2]).itemsBySlot =
      setAt (setAt (fun _ => none) 65303 (some ⟨stdEntry, 4611686018544828417, 5, 0⟩)) 65303
        (some ⟨stdEntry, 4611686018544828417, 3, 0⟩) := rfl
  rw [stackTotal_eq_of_support _ 7 [65303] (by decide) (by decide)
    (fun s hs => by
      rw [h]
      simp at hs
      simp [setAt, hs])]
  decide

/-- C4 fails on the code: in a state with consistent caches (one stack in the
first pack slot, 15 free slots), moving that stack to the empty second pack
slot returns `Okay` and raises `m_freeSlots` to 16 although 15 pack slots are
empty afterwards. -/
theorem swapItems_pack_to_pack_freeSlots :
    freeSlotsConsistent stdEnv oneStackInv ∧ countersConsistent oneStackInv ∧
    (swapItems stdEnv oneStackInv 65303 65304).1 = InventoryChangeFailure.Okay ∧
    (swapItems stdEnv oneStackInv 65303 65304).2.freeSlots = 16 ∧
    emptyPackSlots stdEnv (swapItems stdEnv oneStackInv 65303 65304).2 = 15 :=
  ⟨by unfold freeSlotsConsistent; decide, oneStackInv_consistent, by decide, by decide, by decide⟩

theorem equippedInv_items :
    equippedInv.itemsBySlot =
      setAt (setAt (setAt
        (setAt (fun _ => none) 65303 (some ⟨stdHelmet, 4611686018578382849, 1, 0⟩))
        65303 none) 65280 (some ⟨stdHelmet, 4611686018578382849, 1, 0⟩)) 65303 none :=
  rfl

theorem equippedInv_support (s : Nat) (hs : s ∉ [65280]) : equippedInv.itemsBySlot s = none := by
  rw [equippedInv_items]
  simp at hs
  simp [setAt, hs]

theorem equippedInv_total (id : Nat) :
    stackTotal equippedInv id = if id = 9 then 1 else 0 := by
  rw [stackTotal_eq_of_support equippedInv id [65280] (by decide) (by decide) equippedInv_support]
  simp only [stackSum, List.map_cons, List.map_nil, List.sum_cons, List.sum_nil, slotStack,
    equippedInv_items, setAt, stdHelmet]
  by_cases h : id = 9
  · subst h; rfl
  · have : ¬ (9 = id) := fun h2 => h h2.symm
    simp [h, this]

theorem equippedInv_consistent : countersConsistent equippedInv := by
  intro id
  rw [equippedInv_total]
  have h : equippedInv.itemCounter = setAt (fun _ => none) 9 (some 1) := rfl
  unfold getItemCount
  rw [h]
  by_cases hid : id = 9 <;> simp [setAt, hid]

/-- C10 fails on the code: with caches consistent and the only unit of a
template sitting in the head equipment slot, `removeItems(template, 1)` finds
holdings 1 >= 1, scans the pack slots only, returns `Okay` and removes nothing :
the total held stays 1 instead of dropping to 0. -/
theorem removeItems_misses_equipped_item :
    countersConsistent equippedInv ∧ freeSlotsConsistent stdEnv equippedInv ∧
    getItemCount equippedInv stdHelmet.id = 1 ∧
    (removeItems stdEnv equippedInv stdHelmet 1).1 = InventoryChangeFailure.Okay ∧
    (removeLoop stdEnv stdHelmet (packSubslots stdEnv) equippedInv 1).2 = 1 ∧
    (removeItems stdEnv equippedInv stdHelmet 1).2.itemsBySlot 65280 =
      equippedInv.itemsBySlot 65280 ∧
    slotStack (removeItems stdEnv equippedInv stdHelmet 1).2.itemsBySlot 9 65280 = 1 :=
  ⟨equippedInv_consistent, by unfold freeSlotsConsistent; decide, by decide, by decide,
    by decide, by decide, by decide⟩

/-- C8 as stated fails: in a reachable state whose counter for the template
reads 0 while a stack of one unit sits in the second pack slot, `createItems`
of one unit stops its scan at the empty first pack slot and opens a new stack
there; the under-full stack stays at one unit. -/
theorem createItems_stale_counter_new_stack :
    getItemCount staleCounterInv 7 = 0 ∧
    staleCounterInv.itemsBySlot 65303 = none ∧
    slotStack staleCounterInv.itemsBySlot 7 65304 = 1 ∧
    (createItems stdEnv staleCounterInv stdEntry 1).1 = InventoryChangeFailure.Okay ∧
    slotStack (createItems stdEnv staleCounterInv stdEntry 1).2.itemsBySlot 7 65303 = 1 ∧
    slotStack (createItems stdEnv staleCounterInv stdEntry 1).2.itemsBySlot 7 65304 = 1 ∧
    (specFill stdEntry (packSlots stdEnv) (stackView staleCounterInv.itemsBySlot) 1).1 65303 =
      none := by
  decide

theorem oneStackInv_sameTemplate : sameTemplate oneStackInv.itemsBySlot stdEntry := by
  intro s it hs _
  rw [oneStackInv_items] at hs
  by_cases hx : s = 65303
  · subst hx
    simp [setAt] at hs
    rw [← hs]
  · simp [setAt, hx] at hs

theorem oneStackInv_positive (s : Nat) (it : GameItem) (hs : oneStackInv.itemsBySlot s = some it) :
    1 ≤ it.stackCount := by
  rw [oneStackInv_items] at hs
  by_cases hx : s = 65303
  · subst hx
    simp [setAt] at hs
    rw [← hs]
    decide
  · simp [setAt, hx] at hs

/-- Witness of the amended C8: five units on top of a consistent stack of 5. -/
theorem createItems_refines_two_phase_fill_witness :
    stackView (createItems stdEnv oneStackInv stdEntry 5).2.itemsBySlot =
      (specFill stdEntry (packSlots stdEnv) (stackView oneStackInv.itemsBySlot)
        (effectiveAmount 5)).1 :=
  createItems_refines_two_phase_fill stdEnv (by unfold Env.valid; decide) oneStackInv stdEntry 5
    (by decide) oneStackInv_sameTemplate oneStackInv_positive
    (by rw [oneStackInv_total, oneStackInv_counter]) (by decide)

/-! ### Equipment slot validation -/

theorem equipSlotSwitch_not_whitelisted (E : Env) (inv : Inventory) (n : Nat) (entry : ItemEntry)
    (h : slotWhitelist n entry.inventorytype = false) :
    equipSlotSwitch E inv n entry = InventoryChangeFailure.ItemDoesNotGoToSlot := by
  rcases Nat.lt_or_ge n 19 with hn | hn
  · interval_cases n <;>
      simp [slotWhitelist, player_equipment_slots.Head, player_equipment_slots.Shoulders,
        player_equipment_slots.Body, player_equipment_slots.Chest, player_equipment_slots.Waist,
        player_equipment_slots.Legs, player_equipment_slots.Feet, player_equipment_slots.Wrists,
        player_equipment_slots.Hands, player_equipment_slots.Finger1,
        player_equipment_slots.Finger2, player_equipment_slots.Trinket1,
        player_equipment_slots.Trinket2, player_equipment_slots.Mainhand,
        player_equipment_slots.Offhand, player_equipment_slots.Ranged,
        player_equipment_slots.Tabard] at h <;>
      simp [equipSlotSwitch, slotTypeCheck, h, player_equipment_slots.Head,
        player_equipment_slots.Shoulders,
        player_equipment_slots.Body, player_equipment_slots.Chest, player_equipment_slots.Waist,
        player_equipment_slots.Legs, player_equipment_slots.Feet, player_equipment_slots.Wrists,
        player_equipment_slots.Hands, player_equipment_slots.Finger1,
        player_equipment_slots.Finger2, player_equipment_slots.Trinket1,
        player_equipment_slots.Trinket2, player_equipment_slots.Mainhand,
        player_equipment_slots.Offhand, player_equipment_slots.Ranged,
        player_equipment_slots.Tabard]
  · have h0 : ∀ k, k < 19 → n ≠ k := fun k hk => by omega
    simp [equipSlotSwitch, player_equipment_slots.Head,
        player_equipment_slots.Shoulders,
        player_equipment_slots.Body, player_equipment_slots.Chest, player_equipment_slots.Waist,
        player_equipment_slots.Legs, player_equipment_slots.Feet, player_equipment_slots.Wrists,
        player_equipment_slots.Hands, player_equipment_slots.Finger1,
        player_equipment_slots.Finger2, player_equipment_slots.Trinket1,
        player_equipment_slots.Trinket2, player_equipment_slots.Mainhand,
        player_equipment_slots.Offhand, player_equipment_slots.Ranged,
        player_equipment_slots.Tabard, h0]

theorem relativeSubslot_eq (slot : Nat) : (getRelativeSlots slot).2.2 = slot &&& 255 := by
  have h : slot &&& 255 = slot % 256 := Nat.and_pow_two_sub_one_eq_mod slot 8
  simp only [getRelativeSlots, h]
  omega

theorem isValidSlot_equipment (E : Env) (inv : Inventory) (slot : Nat) (entry : ItemEntry)
    (hs : isEquipmentSlot E slot = true) :
    isValidSlot E inv slot entry =
      if meetsProficiency E inv.owner entry = false then
        InventoryChangeFailure.NoRequiredProficiency
      else if meetsLevel inv.owner entry = false then InventoryChangeFailure.CantEquipLevel
      else if meetsSkill inv.owner entry = false then InventoryChangeFailure.CantEquipSkill
      else equipSlotSwitch E inv (slot &&& 255) entry := by
  have hrel := relativeSubslot_eq slot
  have hrel1 : (getRelativeSlots slot).1 = true := rfl
  unfold isValidSlot
  simp only [hs, if_true, hrel, hrel1, Bool.true_eq_false, if_false]
  unfold meetsProficiency meetsLevel meetsSkill
  by_cases hw : entry.itemclass = ItemClass.Weapon
  · by_cases hb : inv.owner.weaponProficiency &&&
        E.weaponProfValue (weaponProficiency E entry.subclass) = 0
    · simp [hw, hb]
    · by_cases hl : entry.requiredlevel = 0 <;> by_cases hl2 : entry.requiredlevel ≤ inv.owner.level <;>
        by_cases hk : entry.requiredskill = 0 <;>
        by_cases hk2 : inv.owner.hasSkill entry.requiredskill = true <;>
        simp [hw, hb, hl, hl2, hk, hk2]
  · by_cases ha : entry.itemclass = ItemClass.Armor
    · by_cases hb : inv.owner.armorProficiency &&&
          E.armorProfValue (armorProficiency E entry.subclass) = 0
      · simp [hw, ha, hb]
      · by_cases hl : entry.requiredlevel = 0 <;>
          by_cases hl2 : entry.requiredlevel ≤ inv.owner.level <;>
          by_cases hk : entry.requiredskill = 0 <;>
          by_cases hk2 : inv.owner.hasSkill entry.requiredskill = true <;>
          simp [hw, ha, hb, hl, hl2, hk, hk2]
    · by_cases hl : entry.requiredlevel = 0 <;>
        by_cases hl2 : entry.requiredlevel ≤ inv.owner.level <;>
        by_cases hk : entry.requiredskill = 0 <;>
        by_cases hk2 : inv.owner.hasSkill entry.requiredskill = true <;>
        simp [hw, ha, hl, hl2, hk, hk2]

/-- C11: on every equipment slot `isValidSlot` returns `Okay` only if the
proficiency, level and skill requirements hold and the inventory type is in the
slot's whitelist, and the first failing requirement, in the order proficiency,
level, skill, slot type, determines the code: `NoRequiredProficiency`,
`CantEquipLevel`, `CantEquipSkill`, `ItemDoesNotGoToSlot`. -/
theorem isValidSlot_equipment_requirements (E : Env) (inv : Inventory) (slot : Nat)
    (entry : ItemEntry) (hs : isEquipmentSlot E slot = true) :
    (isValidSlot E inv slot entry = InventoryChangeFailure.Okay →
      meetsProficiency E inv.owner entry = true ∧ meetsLevel inv.owner entry = true ∧
      meetsSkill inv.owner entry = true ∧
      slotWhitelist (slot &&& 255) entry.inventorytype = true) ∧
    (meetsProficiency E inv.owner entry = false →
      isValidSlot E inv slot entry = InventoryChangeFailure.NoRequiredProficiency) ∧
    (meetsProficiency E inv.owner entry = true → meetsLevel inv.owner entry = false →
      isValidSlot E inv slot entry = InventoryChangeFailure.CantEquipLevel) ∧
    (meetsProficiency E inv.owner entry = true → meetsLevel inv.owner entry = true →
      meetsSkill inv.owner entry = false →
      isValidSlot E inv slot entry = InventoryChangeFailure.CantEquipSkill) ∧
    (meetsProficiency E inv.owner entry = true → meetsLevel inv.owner entry = true →
      meetsSkill inv.owner entry = true →
      slotWhitelist (slot &&& 255) entry.inventorytype = false →
      isValidSlot E inv slot entry = InventoryChangeFailure.ItemDoesNotGoToSlot) := by
  rw [isValidSlot_equipment E inv slot entry hs]
  refine ⟨?_, ?_, ?_, ?_, ?_⟩
  · intro h
    cases hp : meetsProficiency E inv.owner entry
    · simp [hp] at h
    · cases hl : meetsLevel inv.owner entry
      · simp [hp, hl] at h
      · cases hk : meetsSkill inv.owner entry
        · simp [hp, hl, hk] at h
        · cases hw : slotWhitelist (slot &&& 255) entry.inventorytype
          · simp only [hp, hl, hk, Bool.true_eq_false, if_false] at h
            rw [equipSlotSwitch_not_whitelisted E inv _ entry hw] at h
            exact absurd h (by decide)
          · exact ⟨rfl, rfl, rfl, rfl⟩
  · intro hp; simp [hp]
  · intro hp hl; simp [hp, hl]
  · intro hp hl hk; simp [hp, hl, hk]
  · intro hp hl hk hw
    simp only [hp, hl, hk, Bool.true_eq_false, if_false]
    exact equipSlotSwitch_not_whitelisted E inv _ entry hw

theorem equipSlot_of_bag0 (E : Env) (hb : E.bag0 < 256) (n : Nat) (hn : n < 19) :
    isEquipmentSlot E (getAbsoluteSlot E.bag0 n) = true ∧
    getAbsoluteSlot E.bag0 n &&& 255 = n := by
  have h1 := getAbsoluteSlot_eq E.bag0 n hb (by omega)
  have h2 : getAbsoluteSlot E.bag0 n &&& 255 = getAbsoluteSlot E.bag0 n % 256 :=
    Nat.and_pow_two_sub_one_eq_mod _ 8
  have h3 : getAbsoluteSlot E.bag0 n >>> 8 = E.bag0 := by
    rw [Nat.shiftRight_eq_div_pow, h1]
    norm_num
    omega
  have h4 : getAbsoluteSlot E.bag0 n &&& 255 = n := by rw [h2, h1]; omega
  refine ⟨?_, h4⟩
  unfold isEquipmentSlot
  simp [h3, h4, equipEnd, hn]

/-- C12: for a two-handed weapon that meets the proficiency, level and skill
requirements, `isValidSlot` on the main-hand slot returns `Okay` when the
off-hand slot is empty and otherwise exactly the result of `canStoreItems` on
the template of the off-hand occupant (`Okay` or its failure code). Both
functions only read the inventory: they return a code and no state. -/
theorem isValidSlot_mainhand_twoHanded (E : Env) (hb : E.bag0 < 256) (inv : Inventory)
    (entry : ItemEntry) (ht : entry.inventorytype = InventoryType.TwoHandedWeapon)
    (hp : meetsProficiency E inv.owner entry = true) (hl : meetsLevel inv.owner entry = true)
    (hk : meetsSkill inv.owner entry = true) :
    isValidSlot E inv (getAbsoluteSlot E.bag0 player_equipment_slots.Mainhand) entry =
      match inv.itemsBySlot (getAbsoluteSlot E.bag0 player_equipment_slots.Offhand) with
      | none => InventoryChangeFailure.Okay
      | some offhand => canStoreItems inv offhand.entry 1 := by
  obtain ⟨h1, h2⟩ := equipSlot_of_bag0 E hb player_equipment_slots.Mainhand (by decide)
  rw [isValidSlot_equipment E inv _ entry h1, h2]
  simp only [hp, hl, hk, Bool.true_eq_false, if_false]
  unfold equipSlotSwitch getItemAtSlot
  simp only [ht, player_equipment_slots.Mainhand, player_equipment_slots.Head,
    player_equipment_slots.Body, player_equipment_slots.Chest, player_equipment_slots.Feet,
    player_equipment_slots.Finger1, player_equipment_slots.Finger2,
    player_equipment_slots.Trinket1, player_equipment_slots.Trinket2,
    player_equipment_slots.Hands, player_equipment_slots.Legs]
  simp
  cases inv.itemsBySlot (getAbsoluteSlot E.bag0 player_equipment_slots.Offhand) <;> rfl

/-- C13: for an item of inventory type OffHandWeapon, Weapon or Shield that
meets the proficiency, level and skill requirements, `isValidSlot` on the
off-hand slot returns `CantDualWield` when the item is no Shield and the owner
cannot dual wield, else `CantEquipWithTwoHanded` when the main-hand slot holds
a TwoHandedWeapon, and `Okay` otherwise. -/
theorem isValidSlot_offhand (E : Env) (hb : E.bag0 < 256) (inv : Inventory)
    (entry : ItemEntry)
    (ht : entry.inventorytype = InventoryType.OffHandWeapon ∨
      entry.inventorytype = InventoryType.Weapon ∨ entry.inventorytype = InventoryType.Shield)
    (hp : meetsProficiency E inv.owner entry = true) (hl : meetsLevel inv.owner entry = true)
    (hk : meetsSkill inv.owner entry = true) :
    isValidSlot E inv (getAbsoluteSlot E.bag0 player_equipment_slots.Offhand) entry =
      if entry.inventorytype ≠ InventoryType.Shield ∧ inv.owner.canDualWield = false then
        InventoryChangeFailure.CantDualWield
      else if mainhandIsTwoHanded E inv = true then
        InventoryChangeFailure.CantEquipWithTwoHanded
      else InventoryChangeFailure.Okay := by
  obtain ⟨h1, h2⟩ := equipSlot_of_bag0 E hb player_equipment_slots.Offhand (by decide)
  rw [isValidSlot_equipment E inv _ entry h1, h2]
  simp only [hp, hl, hk, Bool.true_eq_false, if_false]
  unfold equipSlotSwitch getItemAtSlot mainhandIsTwoHanded
  simp only [player_equipment_slots.Offhand, player_equipment_slots.Mainhand,
    player_equipment_slots.Head,
    player_equipment_slots.Body, player_equipment_slots.Chest, player_equipment_slots.Feet,
    player_equipment_slots.Finger1, player_equipment_slots.Finger2,
    player_equipment_slots.Trinket1, player_equipment_slots.Trinket2,
    player_equipment_slots.Hands, player_equipment_slots.Legs]
  simp only [OfNat.ofNat_ne_zero, Nat.reduceEqDiff, if_false, if_true, or_self]
  rcases Option.eq_none_or_eq_some (inv.itemsBySlot (getAbsoluteSlot E.bag0 15)) with
    hm | ⟨item, hm⟩
  · rcases ht with h | h | h <;> simp [h, hm]
  · rcases ht with h | h | h <;>
      by_cases h2 : item.entry.inventorytype = InventoryType.TwoHandedWeapon <;> simp [h, hm, h2]

/-- Witness of C11: a head piece without requirements on the head slot of a
fresh inventory. -/
theorem isValidSlot_equipment_requirements_witness :
    (isValidSlot stdEnv (Inventory.init stdEnv stdOwner) 65280 stdHelmet =
        InventoryChangeFailure.Okay →
      meetsProficiency stdEnv (Inventory.init stdEnv stdOwner).owner stdHelmet = true ∧
      meetsLevel (Inventory.init stdEnv stdOwner).owner stdHelmet = true ∧
      meetsSkill (Inventory.init stdEnv stdOwner).owner stdHelmet = true ∧
      slotWhitelist (65280 &&& 255) stdHelmet.inventorytype = true) ∧
    (meetsProficiency stdEnv (Inventory.init stdEnv stdOwner).owner stdHelmet = false →
      isValidSlot stdEnv (Inventory.init stdEnv stdOwner) 65280 stdHelmet =
        InventoryChangeFailure.NoRequiredProficiency) ∧
    (meetsProficiency stdEnv (Inventory.init stdEnv stdOwner).owner stdHelmet = true →
      meetsLevel (Inventory.init stdEnv stdOwner).owner stdHelmet = false →
      isValidSlot stdEnv (Inventory.init stdEnv stdOwner) 65280 stdHelmet =
        InventoryChangeFailure.CantEquipLevel) ∧
    (meetsProficiency stdEnv (Inventory.init stdEnv stdOwner).owner stdHelmet = true →
      meetsLevel (Inventory.init stdEnv stdOwner).owner stdHelmet = true →
      meetsSkill (Inventory.init stdEnv stdOwner).owner stdHelmet = false →
      isValidSlot stdEnv (Inventory.init stdEnv stdOwner) 65280 stdHelmet =
        InventoryChangeFailure.CantEquipSkill) ∧
    (meetsProficiency stdEnv (Inventory.init stdEnv stdOwner).owner stdHelmet = true →
      meetsLevel (Inventory.init stdEnv stdOwner).owner stdHelmet = true →
      meetsSkill (Inventory.init stdEnv stdOwner).owner stdHelmet = true →
      slotWhitelist (65280 &&& 255) stdHelmet.inventorytype = false →
      isValidSlot stdEnv (Inventory.init stdEnv stdOwner) 65280 stdHelmet =
        InventoryChangeFailure.ItemDoesNotGoToSlot) :=
  isValidSlot_equipment_requirements stdEnv (Inventory.init stdEnv stdOwner) 65280 stdHelmet
    (by decide)

/-- Witness of C12: with a shield in the off hand and room in the pack, the
two-handed weapon is accepted because `canStoreItems(shield)` is `Okay`. -/
theorem isValidSlot_mainhand_twoHanded_witness :
    isValidSlot stdEnv shieldEquippedInv
        (getAbsoluteSlot stdEnv.bag0 player_equipment_slots.Mainhand) stdTwoHander =
      match shieldEquippedInv.itemsBySlot
          (getAbsoluteSlot stdEnv.bag0 player_equipment_slots.Offhand) with
      | none => InventoryChangeFailure.Okay
      | some offhand => canStoreItems shieldEquippedInv offhand.entry 1 :=
  isValidSlot_mainhand_twoHanded stdEnv (by decide) shieldEquippedInv stdTwoHander rfl
    (by decide) (by decide) (by decide)

/-- Witness of C13: an owner without dual wield is refused an off-hand weapon. -/
theorem isValidSlot_offhand_witness :
    isValidSlot stdEnv (Inventory.init stdEnv stdOwner)
        (getAbsoluteSlot stdEnv.bag0 player_equipment_slots.Offhand) stdOffhandWeapon =
      if stdOffhandWeapon.inventorytype ≠ InventoryType.Shield ∧
          (Inventory.init stdEnv stdOwner).owner.canDualWield = false then
        InventoryChangeFailure.CantDualWield
      else if mainhandIsTwoHanded stdEnv (Inventory.init stdEnv stdOwner) = true then
        InventoryChangeFailure.CantEquipWithTwoHanded
      else InventoryChangeFailure.Okay :=
  isValidSlot_offhand stdEnv (by decide) (Inventory.init stdEnv stdOwner) stdOffhandWeapon
    (Or.inl rfl) (by decide) (by decide) (by decide)

/-! ### Binary32 rounding -/

theorem roundHalfEven_le (y : ℚ) (m : ℤ) (h : y ≤ m) : roundHalfEven y ≤ m := by
  have hf : ⌊y⌋ ≤ m := by
    have := Int.floor_le y
    exact_mod_cast (Int.floor_le y).trans h
  rcases lt_or_eq_of_le hf with hlt | heq
  · unfold roundHalfEven
    split_ifs <;> omega
  · have hy : y = (⌊y⌋ : ℚ) := by
      apply le_antisymm
      · rw [heq]; exact h
      · exact Int.floor_le y
    unfold roundHalfEven
    rw [if_pos (by rw [← hy]; norm_num)]
    exact hf

theorem le_roundHalfEven (y : ℚ) (m : ℤ) (h : (m : ℚ) ≤ y) : m ≤ roundHalfEven y := by
  have hf : m ≤ ⌊y⌋ := Int.le_floor.mpr h
  unfold roundHalfEven
  split_ifs <;> omega

theorem f32Exponent_eq (x : ℚ) (e : ℤ) (hx : 0 < x) (he : -126 ≤ e) (h1 : (2 : ℚ) ^ e ≤ x)
    (h2 : x < (2 : ℚ) ^ (e + 1)) : f32Exponent x = e := by
  have hlog : Int.log 2 x = e := by
    apply le_antisymm
    · have := (Int.lt_zpow_iff_log_lt (R := ℚ) (b := 2) (by norm_num) hx (x := e + 1)).1
        (by exact_mod_cast h2)
      omega
    · exact (Int.zpow_le_iff_le_log (R := ℚ) (b := 2) (by norm_num) hx).1 (by exact_mod_cast h1)
  unfold f32Exponent
  rw [abs_of_pos hx, hlog]
  exact max_eq_left he

theorem roundHalfEven_near (y : ℚ) (k : ℤ) (h : |y - k| < 1 / 2) : roundHalfEven y = k := by
  rw [abs_lt] at h
  obtain ⟨h1, h2⟩ := h
  rcases le_or_lt (k : ℚ) y with hk | hk
  · have hf : ⌊y⌋ = k := by
      rw [Int.floor_eq_iff]
      constructor
      · exact hk
      · linarith
    unfold roundHalfEven
    rw [hf, if_pos h2]
  · have hf : ⌊y⌋ = k - 1 := by
      rw [Int.floor_eq_iff]
      push_cast
      constructor
      · linarith
      · linarith
    unfold roundHalfEven
    rw [hf]
    push_cast
    rw [if_neg (by linarith), if_pos (by linarith)]
    ring

theorem roundHalfEven_tie (y : ℚ) (k : ℤ) (h : y = k + 1 / 2) :
    roundHalfEven y = if k % 2 = 0 then k else k + 1 := by
  have hf : ⌊y⌋ = k := by
    rw [Int.floor_eq_iff]
    constructor <;> linarith
  unfold roundHalfEven
  rw [hf, if_neg (by rw [h]; norm_num), if_neg (by rw [h]; norm_num)]

theorem f32_eq (x : ℚ) (e k : ℤ) (hx : 0 < x) (he : -126 ≤ e) (h1 : (2 : ℚ) ^ e ≤ x)
    (h2 : x < (2 : ℚ) ^ (e + 1)) (hk : |x / 2 ^ (e - 23) - k| < 1 / 2) :
    f32 x = k * 2 ^ (e - 23) := by
  unfold f32
  rw [f32Exponent_eq x e hx he h1 h2, roundHalfEven_near _ k hk]

theorem f32_tie (x : ℚ) (e k : ℤ) (hx : 0 < x) (he : -126 ≤ e) (h1 : (2 : ℚ) ^ e ≤ x)
    (h2 : x < (2 : ℚ) ^ (e + 1)) (hk : x / 2 ^ (e - 23) = k + 1 / 2) :
    f32 x = ((if k % 2 = 0 then k else k + 1 : ℤ) : ℚ) * 2 ^ (e - 23) := by
  unfold f32
  rw [f32Exponent_eq x e hx he h1 h2, roundHalfEven_tie _ k hk]

/-- A natural number up to `2 ^ 24` is a binary32 value, and rounding never
crosses a binary32 value: `x <= n` gives `f32 x <= n` and `n <= x` gives
`n <= f32 x`. -/
theorem f32_nat_bounds (x : ℚ) (n : ℕ) (hn : n ≤ 16777216) :
    (x ≤ n → 0 ≤ x → f32 x ≤ n) ∧ ((n : ℚ) ≤ x → (n : ℚ) ≤ f32 x) := by
  have hq : (0 : ℚ) < 2 ^ (f32Exponent x - 23) := zpow_pos (by norm_num) _
  rcases le_or_lt (f32Exponent x) 23 with he | he
  · -- the spacing is at most 1 : every natural number is a multiple of it
    obtain ⟨j, hj⟩ : ∃ j : ℕ, (j : ℤ) = 23 - f32Exponent x := ⟨(23 - f32Exponent x).toNat, by omega⟩
    have hqj : (2 : ℚ) ^ (f32Exponent x - 23) = ((2 : ℚ) ^ j)⁻¹ := by
      rw [show f32Exponent x - 23 = -(j : ℤ) by omega, zpow_neg, zpow_natCast]
    have hM : (((n * 2 ^ j : ℕ) : ℤ) : ℚ) * 2 ^ (f32Exponent x - 23) = n := by
      rw [hqj]
      push_cast
      field_simp
    constructor
    · intro hx _
      have h1 : x / 2 ^ (f32Exponent x - 23) ≤ ((n * 2 ^ j : ℕ) : ℤ) := by
        rw [div_le_iff₀ hq, hM]; exact hx
      have h2 := roundHalfEven_le _ _ h1
      unfold f32
      calc (roundHalfEven (x / 2 ^ (f32Exponent x - 23)) : ℚ) * 2 ^ (f32Exponent x - 23)
          ≤ (((n * 2 ^ j : ℕ) : ℤ) : ℚ) * 2 ^ (f32Exponent x - 23) := by
            apply mul_le_mul_of_nonneg_right _ hq.le
            exact_mod_cast h2
        _ = n := hM
    · intro hx
      have h1 : ((((n * 2 ^ j : ℕ) : ℤ)) : ℚ) ≤ x / 2 ^ (f32Exponent x - 23) := by
        rw [le_div_iff₀ hq, hM]; exact hx
      have h2 := le_roundHalfEven _ _ h1
      unfold f32
      calc (n : ℚ) = (((n * 2 ^ j : ℕ) : ℤ) : ℚ) * 2 ^ (f32Exponent x - 23) := hM.symm
        _ ≤ (roundHalfEven (x / 2 ^ (f32Exponent x - 23)) : ℚ) * 2 ^ (f32Exponent x - 23) := by
            apply mul_le_mul_of_nonneg_right _ hq.le
            exact_mod_cast h2
  · -- the exponent is at least 24 : `x` is at least `2 ^ 24`
    have hlog : f32Exponent x = Int.log 2 |x| := by
      unfold f32Exponent at he ⊢
      apply max_eq_left
      by_contra hc
      rw [max_eq_right (by omega)] at he
      omega
    have hxne : |x| ≠ 0 := by
      intro h0
      rw [hlog, h0, Int.log_zero_right] at he
      omega
    have hxpos : 0 < |x| := lt_of_le_of_ne (abs_nonneg x) (Ne.symm hxne)
    have hpow : (2 : ℚ) ^ f32Exponent x ≤ |x| := by
      rw [hlog]
      exact_mod_cast Int.zpow_log_le_self (R := ℚ) (b := 2) (by norm_num) hxpos
    have h24 : (2 : ℚ) ^ (24 : ℤ) ≤ 2 ^ f32Exponent x :=
      zpow_le_zpow_right₀ (by norm_num) (by omega)
    have hn' : (n : ℚ) ≤ 2 ^ (24 : ℤ) := by
      norm_num
      exact_mod_cast hn
    have hsplit : (2 : ℚ) ^ f32Exponent x = 2 ^ (23 : ℤ) * 2 ^ (f32Exponent x - 23) := by
      rw [← zpow_add₀ (by norm_num : (2 : ℚ) ≠ 0)]
      congr 1
      omega
    constructor
    · intro hx hx0
      rw [abs_of_nonneg hx0] at hpow
      -- then `n = 2 ^ 24 = x` and the exponent is 24
      have hxe : x / 2 ^ (f32Exponent x - 23) ≤ ((2 ^ 23 : ℕ) : ℤ) := by
        rw [div_le_iff₀ hq]
        push_cast
        have : x ≤ 2 ^ f32Exponent x := by linarith
        calc x ≤ 2 ^ f32Exponent x := this
          _ = 2 ^ (23 : ℤ) * 2 ^ (f32Exponent x - 23) := hsplit
          _ = 2 ^ 23 * 2 ^ (f32Exponent x - 23) := by norm_num
      have h2 := roundHalfEven_le _ _ hxe
      unfold f32
      calc (roundHalfEven (x / 2 ^ (f32Exponent x - 23)) : ℚ) * 2 ^ (f32Exponent x - 23)
          ≤ (((2 ^ 23 : ℕ) : ℤ) : ℚ) * 2 ^ (f32Exponent x - 23) := by
            apply mul_le_mul_of_nonneg_right _ hq.le
            exact_mod_cast h2
        _ = 2 ^ f32Exponent x := by rw [hsplit]; norm_num
        _ ≤ x := hpow
        _ ≤ n := hx
    · intro hx
      have hx0 : 0 ≤ x := le_trans (Nat.cast_nonneg n) hx
      rw [abs_of_nonneg hx0] at hpow
      have hxe : ((((2 ^ 23 : ℕ) : ℤ)) : ℚ) ≤ x / 2 ^ (f32Exponent x - 23) := by
        rw [le_div_iff₀ hq]
        push_cast
        calc (2 : ℚ) ^ 23 * 2 ^ (f32Exponent x - 23)
            = 2 ^ (23 : ℤ) * 2 ^ (f32Exponent x - 23) := by norm_num
          _ = 2 ^ f32Exponent x := hsplit.symm
          _ ≤ x := hpow
      have h2 := le_roundHalfEven _ _ hxe
      unfold f32
      calc (n : ℚ) ≤ 2 ^ (24 : ℤ) := hn'
        _ ≤ 2 ^ f32Exponent x := h24
        _ = (((2 ^ 23 : ℕ) : ℤ) : ℚ) * 2 ^ (f32Exponent x - 23) := by rw [hsplit]; norm_num
        _ ≤ (roundHalfEven (x / 2 ^ (f32Exponent x - 23)) : ℚ) * 2 ^ (f32Exponent x - 23) := by
            apply mul_le_mul_of_nonneg_right _ hq.le
            exact_mod_cast h2

theorem f32_natCast (n : ℕ) (hn : n ≤ 16777216) : f32 (n : ℚ) = n := by
  obtain ⟨h1, h2⟩ := f32_nat_bounds (n : ℚ) n hn
  exact le_antisymm (h1 le_rfl (Nat.cast_nonneg n)) (h2 le_rfl)

theorem f32_nonneg (x : ℚ) (h : 0 ≤ x) : 0 ≤ f32 x := by
  have := (f32_nat_bounds x 0 (by norm_num)).2 (by simpa using h)
  simpa using this

theorem f32_zero : f32 0 = 0 := by
  have := f32_natCast 0 (by norm_num)
  simpa using this

/-! ### Armor mitigation -/

theorem mitigationFraction_bounds (armor level : Nat) :
    0 ≤ mitigationFraction armor level ∧ mitigationFraction armor level ≤ 3 / 4 := by
  unfold mitigationFraction
  constructor
  · exact le_max_left _ _
  · apply max_le
    · norm_num
    · exact le_trans (min_le_right _ _) (by norm_num)

theorem f32MitigationFraction_bounds (armor level : Nat) :
    0 ≤ f32MitigationFraction armor level ∧ f32MitigationFraction armor level ≤ 3 / 4 := by
  unfold f32MitigationFraction
  constructor
  · exact le_max_left _ _
  · apply max_le
    · norm_num
    · exact le_trans (min_le_right _ _) (by norm_num)

theorem calculateArmorReducedDamage_eq (attacker victim : GameUnit) (damage : Nat) :
    calculateArmorReducedDamage attacker victim damage =
      specBinary32Damage damage victim.resistances attacker.level := by
  have harm : ¬ (f32 (victim.resistances : ℚ) < 0) :=
    not_lt.mpr (f32_nonneg _ (Nat.cast_nonneg _))
  have hclamp : ∀ x : ℚ, (if (if x < 0 then 0 else x) > 0.75 then 0.75 else (if x < 0 then 0 else x))
      = max 0 (min x 0.75) := by
    intro x
    by_cases h1 : x < 0
    · have : min x 0.75 = x := min_eq_left (by linarith [show (0:ℚ) < 0.75 by norm_num])
      rw [if_pos h1, this, max_eq_left (le_of_lt h1)]
      norm_num
    · rw [if_neg h1]
      push_neg at h1
      by_cases h2 : x > 0.75
      · rw [if_pos h2, min_eq_right (le_of_lt h2), max_eq_right (by norm_num)]
      · rw [if_neg h2]
        push_neg at h2
        rw [min_eq_left h2, max_eq_right h1]
  have hmax : ∀ n : Nat, (if n > 1 then n else 1) = max 1 n := by
    intro n
    split_ifs with h <;> omega
  unfold calculateArmorReducedDamage specBinary32Damage f32MitigationFraction
  simp only [harm, if_false, hclamp, hmax]

theorem calculateArmorReducedDamage_pos (attacker victim : GameUnit) (damage : Nat) :
    1 ≤ calculateArmorReducedDamage attacker victim damage := by
  rw [calculateArmorReducedDamage_eq]
  exact le_max_left _ _

theorem f32MitigationFraction_noArmor (level : Nat) : f32MitigationFraction 0 level = 0 := by
  unfold f32MitigationFraction
  simp only [Nat.cast_zero, f32_zero, zero_div, ite_self]
  norm_num

theorem calculateArmorReducedDamage_noArmor (attacker victim : GameUnit) (damage : Nat)
    (h : victim.resistances = 0) (hd : damage ≤ 16777216) :
    calculateArmorReducedDamage attacker victim damage = max 1 damage := by
  rw [calculateArmorReducedDamage_eq, h]
  unfold specBinary32Damage
  rw [f32MitigationFraction_noArmor, mul_zero, f32_zero, sub_zero, f32_natCast damage hd,
    f32_natCast damage hd]
  unfold f32ToUInt32
  rw [Nat.floor_natCast, Nat.mod_eq_of_lt (by omega)]

theorem calculateArmorReducedDamage_range (attacker victim : GameUnit) (damage : Nat)
    (h1 : 1 ≤ damage) (hd : damage ≤ 16777216) :
    calculateArmorReducedDamage attacker victim damage ≤ damage ∧
    damage / 4 ≤ calculateArmorReducedDamage attacker victim damage := by
  obtain ⟨hf0, hf1⟩ := f32MitigationFraction_bounds victim.resistances attacker.level
  rw [calculateArmorReducedDamage_eq]
  unfold specBinary32Damage
  rw [f32_natCast damage hd]
  generalize f32MitigationFraction victim.resistances attacker.level = f at hf0 hf1
  have hD : (0 : ℚ) ≤ (damage : ℚ) := Nat.cast_nonneg _
  have h4 : ((damage / 4 : ℕ) : ℚ) ≤ (damage : ℚ) / 4 := by
    have := @Nat.cast_div_le ℚ _ damage 4
    simpa using this
  have hsub : ((damage - damage / 4 : ℕ) : ℚ) = (damage : ℚ) - ((damage / 4 : ℕ) : ℚ) :=
    Nat.cast_sub (Nat.div_le_self _ _)
  -- the rounded product stays between 0 and damage - damage / 4
  have hp0 : 0 ≤ f32 ((damage : ℚ) * f) := f32_nonneg _ (mul_nonneg hD hf0)
  have hp1 : f32 ((damage : ℚ) * f) ≤ ((damage - damage / 4 : ℕ) : ℚ) := by
    apply (f32_nat_bounds _ _ (by omega)).1 _ (mul_nonneg hD hf0)
    rw [hsub]
    nlinarith
  -- the rounded difference stays between damage / 4 and damage
  have hs0 : ((damage / 4 : ℕ) : ℚ) ≤ f32 ((damage : ℚ) - f32 ((damage : ℚ) * f)) := by
    apply (f32_nat_bounds _ _ (by omega)).2
    rw [hsub] at hp1
    linarith
  have hs1 : f32 ((damage : ℚ) - f32 ((damage : ℚ) * f)) ≤ (damage : ℚ) := by
    apply (f32_nat_bounds _ _ hd).1
    · linarith
    · rw [hsub] at hp1
      linarith
  have hfl1 : ⌊f32 ((damage : ℚ) - f32 ((damage : ℚ) * f))⌋₊ ≤ damage :=
    Nat.floor_le_of_le hs1
  have hfl0 : damage / 4 ≤ ⌊f32 ((damage : ℚ) - f32 ((damage : ℚ) * f))⌋₊ :=
    Nat.le_floor hs0
  unfold f32ToUInt32
  rw [Nat.mod_eq_of_lt (by omega)]
  constructor
  · exact max_le h1 hfl1
  · exact le_max_of_le_right hfl0

theorem specBinary32Damage_clamped : specBinary32Damage 7 10000 1 = 1 := by
  have ha : f32 ((10000 : ℕ) : ℚ) = 10000 := by
    rw [f32_natCast _ (by norm_num)]; norm_num
  have hl : f32 ((1 : ℕ) : ℚ) = 1 := by
    rw [f32_natCast _ (by norm_num)]; norm_num
  have h1 : f32 ((10000 : ℚ) + 400) = 10400 := by
    rw [show (10000 : ℚ) + 400 = ((10400 : ℕ) : ℚ) by norm_num, f32_natCast _ (by norm_num)]
    norm_num
  have h2 : f32 ((85 : ℚ) * 1) = 85 := by
    rw [show (85 : ℚ) * 1 = ((85 : ℕ) : ℚ) by norm_num, f32_natCast _ (by norm_num)]
    norm_num
  have h3 : f32 ((10400 : ℚ) + 85) = 10485 := by
    rw [show (10400 : ℚ) + 85 = ((10485 : ℕ) : ℚ) by norm_num, f32_natCast _ (by norm_num)]
    norm_num
  have h4 : f32 ((10000 : ℚ) / 10485) = 2000145 / 2097152 := by
    rw [f32_eq (10000 / 10485) (-1) 16001160 (by norm_num) (by norm_num) (by norm_num)
      (by norm_num) (by rw [abs_lt]; constructor <;> norm_num)]
    norm_num
  have hf : f32MitigationFraction 10000 1 = 3 / 4 := by
    unfold f32MitigationFraction
    simp only [ha, hl, h1, h2, h3, h4]
    norm_num
  have hd : f32 ((7 : ℕ) : ℚ) = 7 := by
    rw [f32_natCast _ (by norm_num)]; norm_num
  have hp : f32 ((7 : ℚ) * (3 / 4)) = 21 / 4 := by
    rw [f32_eq (7 * (3 / 4)) 2 11010048 (by norm_num) (by norm_num) (by norm_num)
      (by norm_num) (by rw [abs_lt]; constructor <;> norm_num)]
    norm_num
  have hs : f32 ((7 : ℚ) - 21 / 4) = 7 / 4 := by
    rw [f32_eq (7 - 21 / 4) 0 14680064 (by norm_num) (by norm_num) (by norm_num)
      (by norm_num) (by rw [abs_lt]; constructor <;> norm_num)]
    norm_num
  have hfl : f32ToUInt32 (7 / 4) = 1 := by
    unfold f32ToUInt32
    have : ⌊(7 / 4 : ℚ)⌋₊ = 1 := by
      rw [Nat.floor_eq_iff (by norm_num)]
      norm_num
    rw [this]
  unfold specBinary32Damage
  rw [hf, hd, hp, hs, hfl]
  rfl

theorem specBinary32Damage_inexact : specBinary32Damage 21 1375 10 = 9 := by
  have ha : f32 ((1375 : ℕ) : ℚ) = 1375 := by
    rw [f32_natCast _ (by norm_num)]; norm_num
  have hl : f32 ((10 : ℕ) : ℚ) = 10 := by
    rw [f32_natCast _ (by norm_num)]; norm_num
  have h1 : f32 ((1375 : ℚ) + 400) = 1775 := by
    rw [show (1375 : ℚ) + 400 = ((1775 : ℕ) : ℚ) by norm_num, f32_natCast _ (by norm_num)]
    norm_num
  have h2 : f32 ((85 : ℚ) * 10) = 850 := by
    rw [show (85 : ℚ) * 10 = ((850 : ℕ) : ℚ) by norm_num, f32_natCast _ (by norm_num)]
    norm_num
  have h3 : f32 ((1775 : ℚ) + 850) = 2625 := by
    rw [show (1775 : ℚ) + 850 = ((2625 : ℕ) : ℚ) by norm_num, f32_natCast _ (by norm_num)]
    norm_num
  have h4 : f32 ((1375 : ℚ) / 2625) = 4394033 / 8388608 := by
    rw [f32_eq (1375 / 2625) (-1) 8788066 (by norm_num) (by norm_num) (by norm_num)
      (by norm_num) (by rw [abs_lt]; constructor <;> norm_num)]
    norm_num
  have hf : f32MitigationFraction 1375 10 = 4394033 / 8388608 := by
    unfold f32MitigationFraction
    simp only [ha, hl, h1, h2, h3, h4]
    norm_num
  have hd : f32 ((21 : ℕ) : ℚ) = 21 := by
    rw [f32_natCast _ (by norm_num)]; norm_num
  have hp : f32 ((21 : ℚ) * (4394033 / 8388608)) = 11534337 / 1048576 := by
    rw [f32_eq (21 * (4394033 / 8388608)) 3 11534337 (by norm_num) (by norm_num) (by norm_num)
      (by norm_num) (by rw [abs_lt]; constructor <;> norm_num)]
    norm_num
  have hs : f32 ((21 : ℚ) - 11534337 / 1048576) = 10485759 / 1048576 := by
    rw [f32_eq (21 - 11534337 / 1048576) 3 10485759 (by norm_num) (by norm_num) (by norm_num)
      (by norm_num) (by rw [abs_lt]; constructor <;> norm_num)]
    norm_num
  have hfl : f32ToUInt32 (10485759 / 1048576) = 9 := by
    unfold f32ToUInt32
    have : ⌊(10485759 / 1048576 : ℚ)⌋₊ = 9 := by
      rw [Nat.floor_eq_iff (by norm_num)]
      norm_num
    rw [this]
  unfold specBinary32Damage
  rw [hf, hd, hp, hs, hfl]
  rfl

theorem specBinary32Damage_large : specBinary32Damage 16777219 0 1 = 16777220 := by
  have hd : f32 ((16777219 : ℕ) : ℚ) = 16777220 := by
    rw [show ((16777219 : ℕ) : ℚ) = 16777219 by norm_num,
      f32_tie 16777219 24 8388609 (by norm_num) (by norm_num) (by norm_num) (by norm_num)
        (by norm_num)]
    norm_num
  have hs : f32 (16777220 : ℚ) = 16777220 := by
    rw [f32_eq 16777220 24 8388610 (by norm_num) (by norm_num) (by norm_num) (by norm_num)
      (by rw [abs_lt]; constructor <;> norm_num)]
    norm_num
  have hfl : f32ToUInt32 (16777220 : ℚ) = 16777220 := by
    unfold f32ToUInt32
    rw [show (16777220 : ℚ) = ((16777220 : ℕ) : ℚ) by norm_num, Nat.floor_natCast]
  unfold specBinary32Damage
  rw [f32MitigationFraction_noArmor, hd, mul_zero, f32_zero, sub_zero, hs, hfl]
  rfl

theorem specBinary32Damage_quarter : specBinary32Damage 121751465 100000 1 = 30437864 := by
  have ha : f32 ((100000 : ℕ) : ℚ) = 100000 := by
    rw [f32_natCast _ (by norm_num)]; norm_num
  have hl : f32 ((1 : ℕ) : ℚ) = 1 := by
    rw [f32_natCast _ (by norm_num)]; norm_num
  have h1 : f32 ((100000 : ℚ) + 400) = 100400 := by
    rw [show (100000 : ℚ) + 400 = ((100400 : ℕ) : ℚ) by norm_num, f32_natCast _ (by norm_num)]
    norm_num
  have h2 : f32 ((85 : ℚ) * 1) = 85 := by
    rw [show (85 : ℚ) * 1 = ((85 : ℕ) : ℚ) by norm_num, f32_natCast _ (by norm_num)]
    norm_num
  have h3 : f32 ((100400 : ℚ) + 85) = 100485 := by
    rw [show (100400 : ℚ) + 85 = ((100485 : ℕ) : ℚ) by norm_num, f32_natCast _ (by norm_num)]
    norm_num
  have h4 : f32 ((100000 : ℚ) / 100485) = 16696239 / 16777216 := by
    rw [f32_eq (100000 / 100485) (-1) 16696239 (by norm_num) (by norm_num) (by norm_num)
      (by norm_num) (by rw [abs_lt]; constructor <;> norm_num)]
    norm_num
  have hf : f32MitigationFraction 100000 1 = 3 / 4 := by
    unfold f32MitigationFraction
    simp only [ha, hl, h1, h2, h3, h4]
    norm_num
  have hd : f32 ((121751465 : ℕ) : ℚ) = 121751464 := by
    rw [show ((121751465 : ℕ) : ℚ) = 121751465 by norm_num,
      f32_eq 121751465 26 15218933 (by norm_num) (by norm_num) (by norm_num) (by norm_num)
        (by rw [abs_lt]; constructor <;> norm_num)]
    norm_num
  have hp : f32 ((121751464 : ℚ) * (3 / 4)) = 91313600 := by
    rw [f32_eq (121751464 * (3 / 4)) 26 11414200 (by norm_num) (by norm_num) (by norm_num)
      (by norm_num) (by rw [abs_lt]; constructor <;> norm_num)]
    norm_num
  have hs : f32 ((121751464 : ℚ) - 91313600) = 30437864 := by
    rw [f32_eq (121751464 - 91313600) 24 15218932 (by norm_num) (by norm_num) (by norm_num)
      (by norm_num) (by rw [abs_lt]; constructor <;> norm_num)]
    norm_num
  have hfl : f32ToUInt32 (30437864 : ℚ) = 30437864 := by
    unfold f32ToUInt32
    rw [show (30437864 : ℚ) = ((30437864 : ℕ) : ℚ) by norm_num, Nat.floor_natCast]
  unfold specBinary32Damage
  rw [hf, hd, hp, hs, hfl]
  rfl

/-- C14 as stated fails, for two reasons. With the mitigation clamped at 75
percent, 7 points of damage leave `7 - 5.25 = 1.75`, which the conversion to
`UInt32` cuts off to 1, while `max(1, round(1.75))` is 2. And at damage 21,
armor 1375, level 10 the exact value `21 * (1 - 11/21)` is 10, but in binary32
the quotient `1375 / 2625` rounds up, the product rounds to 11.00000095 and the
difference 9.99999905 is cut off to 9. -/
theorem calculateArmorReducedDamage_truncates :
    calculateArmorReducedDamage stdUnit armoredUnit 7 = 1 ∧
    specRoundedDamage 7 armoredUnit.resistances stdUnit.level = 2 ∧
    calculateArmorReducedDamage levelTenUnit lightArmorUnit 21 = 9 ∧
    specRoundedDamage 21 lightArmorUnit.resistances levelTenUnit.level = 10 := by
  have hf : mitigationFraction 10000 1 = 3 / 4 := by
    unfold mitigationFraction
    norm_num
  have hg : mitigationFraction 1375 10 = 11 / 21 := by
    unfold mitigationFraction
    norm_num
  refine ⟨?_, ?_, ?_, ?_⟩
  · rw [calculateArmorReducedDamage_eq]
    exact specBinary32Damage_clamped
  · show max 1 (round (((7 : ℕ) : ℚ) * (1 - mitigationFraction 10000 1))) = 2
    rw [hf]
    have : round (((7 : ℕ) : ℚ) * (1 - 3 / 4)) = 2 := by
      rw [round_eq, Int.floor_eq_iff]
      norm_num
    rw [this]
    rfl
  · rw [calculateArmorReducedDamage_eq]
    exact specBinary32Damage_inexact
  · show max 1 (round (((21 : ℕ) : ℚ) * (1 - mitigationFraction 1375 10))) = 10
    rw [hg]
    have : round (((21 : ℕ) : ℚ) * (1 - 11 / 21)) = 10 := by
      rw [round_eq, Int.floor_eq_iff]
      norm_num
    rw [this]
    rfl

/-- C14 amended: for every damage, victim armor and attacker level,
`calculateArmorReducedDamage` returns `max(1, trunc(damage - damage * f))`
evaluated in binary32: `f` is the mitigation fraction of the contract with
every operand converted to `float` and every operation rounded to the nearest
`float`, clamped to `[0, 0.75]`; the product and the difference are rounded to
`float` and the fractional part of the result is cut off, not rounded. -/
theorem calculateArmorReducedDamage_binary32 (attacker victim : GameUnit) (damage : Nat) :
    calculateArmorReducedDamage attacker victim damage =
      specBinary32Damage damage victim.resistances attacker.level :=
  calculateArmorReducedDamage_eq attacker victim damage

/-- C15 as stated fails for damage values a `float` cannot hold. With armor 0
the damage 16777219 is converted to the `float` 16777220 and returned as
16777220, which is neither the damage itself nor at most the damage. With armor
100000 (mitigation clamped at 75 percent) the damage 121751465 is converted to
121751464, the product rounds up to 91313600 and the result 30437864 is below
a quarter of the damage rounded down, 30437866. -/
theorem calculateArmorReducedDamage_inexact_damage :
    stdUnit.resistances = 0 ∧
    calculateArmorReducedDamage stdUnit stdUnit 16777219 = 16777220 ∧
    ¬ (calculateArmorReducedDamage stdUnit stdUnit 16777219 ≤ 16777219) ∧
    calculateArmorReducedDamage stdUnit heavyArmorUnit 121751465 = 30437864 ∧
    ¬ (121751465 / 4 ≤ calculateArmorReducedDamage stdUnit heavyArmorUnit 121751465) := by
  have h : calculateArmorReducedDamage stdUnit stdUnit 16777219 = 16777220 := by
    rw [calculateArmorReducedDamage_eq]
    exact specBinary32Damage_large
  have h2 : calculateArmorReducedDamage stdUnit heavyArmorUnit 121751465 = 30437864 := by
    rw [calculateArmorReducedDamage_eq]
    exact specBinary32Damage_quarter
  refine ⟨rfl, h, ?_, h2, ?_⟩
  · rw [h]
    norm_num
  · rw [h2]
    norm_num

/-- C15 amended: `calculateArmorReducedDamage` always returns at least 1; for
`1 <= damage <= 2 ^ 24` (the integers a `float` holds exactly) the result is at
most `damage` and at least a quarter of `damage` rounded down, whatever the
armor and the level; with armor 0 and `damage <= 2 ^ 24` the result is
`max(1, damage)`, i.e. the damage itself whenever `damage >= 1`, and
`damage = 100`, armor 0, level 1 gives 100. -/
theorem calculateArmorReducedDamage_bounds (attacker victim : GameUnit) (damage : Nat) :
    1 ≤ calculateArmorReducedDamage attacker victim damage ∧
    (1 ≤ damage → damage ≤ 16777216 →
      calculateArmorReducedDamage attacker victim damage ≤ damage ∧
      damage / 4 ≤ calculateArmorReducedDamage attacker victim damage) ∧
    (victim.resistances = 0 → damage ≤ 16777216 →
      calculateArmorReducedDamage attacker victim damage = max 1 damage) ∧
    (victim.resistances = 0 → 1 ≤ damage → damage ≤ 16777216 →
      calculateArmorReducedDamage attacker victim damage = damage) ∧
    calculateArmorReducedDamage stdUnit stdUnit 100 = 100 := by
  refine ⟨calculateArmorReducedDamage_pos attacker victim damage,
    calculateArmorReducedDamage_range attacker victim damage,
    calculateArmorReducedDamage_noArmor attacker victim damage, ?_, ?_⟩
  · intro h hd hd2
    rw [calculateArmorReducedDamage_noArmor attacker victim damage h hd2]
    exact max_eq_right hd
  · rw [calculateArmorReducedDamage_noArmor stdUnit stdUnit 100 rfl (by norm_num)]
    rfl

/-! ### The attack state machine -/

@[simp] theorem World.modify_units (w : World) (id : Nat) (f : GameUnit → GameUnit) (u : Nat) :
    (w.modify id f).units u = if u = id then f (w.units id) else w.units u := by
  simp [World.modify, setAt]

@[simp] theorem World.modify_unitCount (w : World) (id : Nat) (f : GameUnit → GameUnit) :
    (w.modify id f).unitCount = w.unitCount := rfl

@[simp] theorem World.modify_now (w : World) (id : Nat) (f : GameUnit → GameUnit) :
    (w.modify id f).now = w.now := rfl

@[simp] theorem World.modify_oneSecond (w : World) (id : Nat) (f : GameUnit → GameUnit) :
    (w.modify id f).oneSecond = w.oneSecond := rfl

@[simp] theorem World.modify_inArc (w : World) (id : Nat) (f : GameUnit → GameUnit) :
    (w.modify id f).inArc = w.inArc := rfl

@[simp] theorem World.modify_log (w : World) (id : Nat) (f : GameUnit → GameUnit) :
    (w.modify id f).log = w.log := rfl

@[simp] theorem World.emit_units (w : World) (e : CombatEvent) : (w.emit e).units = w.units := rfl

@[simp] theorem World.emit_unitCount (w : World) (e : CombatEvent) :
    (w.emit e).unitCount = w.unitCount := rfl

@[simp] theorem World.emit_now (w : World) (e : CombatEvent) : (w.emit e).now = w.now := rfl

@[simp] theorem World.emit_oneSecond (w : World) (e : CombatEvent) :
    (w.emit e).oneSecond = w.oneSecond := rfl

@[simp] theorem World.emit_inArc (w : World) (e : CombatEvent) : (w.emit e).inArc = w.inArc := rfl

@[simp] theorem World.emit_log (w : World) (e : CombatEvent) : (w.emit e).log = w.log ++ [e] := rfl

/-- The unit with its swing countdown cancelled and its victim reset. -/
theorem stopAttack_units (w : World) (x u : Nat) :
    (stopAttack w x).units u =
      if u = x ∧ (w.units x).victim ≠ none then
        { w.units x with attackSwingCountdown := none, victim := none }
      else w.units u := by
  unfold stopAttack
  cases hv : (w.units x).victim with
  | none => simp
  | some v =>
    simp only []
    split_ifs <;> simp_all

theorem stopAttack_consts (w : World) (x : Nat) :
    (stopAttack w x).unitCount = w.unitCount ∧ (stopAttack w x).now = w.now ∧
    (stopAttack w x).oneSecond = w.oneSecond ∧ (stopAttack w x).inArc = w.inArc := by
  unfold stopAttack
  cases hv : (w.units x).victim with
  | none => simp
  | some v =>
    simp only []
    split_ifs <;> simp

theorem notifyVictimKilled_spec (self : Nat) (l : List Nat) :
    ∀ w : World,
      (∀ u, (notifyVictimKilled self l w).units u = w.units u ∨
        (notifyVictimKilled self l w).units u =
          { w.units u with attackSwingCountdown := none, victim := none }) ∧
      (∀ u ∈ l, (w.units u).victim = some self →
        ((notifyVictimKilled self l w).units u).victim = none) ∧
      (notifyVictimKilled self l w).unitCount = w.unitCount ∧
      (notifyVictimKilled self l w).now = w.now ∧
      (notifyVictimKilled self l w).oneSecond = w.oneSecond ∧
      (notifyVictimKilled self l w).inArc = w.inArc := by
  induction l with
  | nil => intro w; simp [notifyVictimKilled]
  | cons x rest ih =>
    intro w
    simp only [notifyVictimKilled]
    by_cases hx : (w.units x).victim = some self
    · rw [if_pos hx]
      obtain ⟨i1, i2, i3, i4, i5, i6⟩ := ih (onVictimKilled w x)
      obtain ⟨c1, c2, c3, c4⟩ := stopAttack_consts w x
      have hne : (w.units x).victim ≠ none := by rw [hx]; simp
      refine ⟨?_, ?_, ?_, ?_, ?_, ?_⟩
      · intro u
        have hs := stopAttack_units w x u
        rcases i1 u with h | h
        · rw [h]
          unfold onVictimKilled
          rw [hs]
          by_cases hu : u = x
          · subst hu; right; simp [hne]
          · left; simp [hu]
        · rw [h]
          unfold onVictimKilled
          rw [hs]
          by_cases hu : u = x
          · subst hu; right; simp [hne]
          · right; simp [hu]
      · intro u hu hvu
        by_cases hux : u = x
        · subst hux
          rcases i1 u with h | h
          · rw [h]; unfold onVictimKilled; rw [stopAttack_units]; simp [hne]
          · rw [h]
        · have hmem : u ∈ rest := by
            rcases List.mem_cons.mp hu with h | h
            · exact absurd h hux
            · exact h
          apply i2 u hmem
          unfold onVictimKilled
          rw [stopAttack_units]
          simp [hux, hvu]
      · rw [i3]; exact c1
      · rw [i4]; exact c2
      · rw [i5]; exact c3
      · rw [i6]; exact c4
    · rw [if_neg hx]
      obtain ⟨i1, i2, i3, i4, i5, i6⟩ := ih w
      refine ⟨i1, ?_, i3, i4, i5, i6⟩
      intro u hu hvu
      have hux : u ≠ x := fun h => hx (h ▸ hvu)
      have hmem : u ∈ rest := by
        rcases List.mem_cons.mp hu with h | h
        · exact absurd h hux
        · exact h
      exact i2 u hmem hvu

theorem killedSignal_spec (w : World) (self : Nat) :
    (∀ u, (killedSignal w self).units u = (onKilled w self).units u ∨
      (killedSignal w self).units u =
        { (onKilled w self).units u with attackSwingCountdown := none, victim := none }) ∧
    (∀ u, u < w.unitCount → (w.units u).victim = some self →
      ((killedSignal w self).units u).victim = none) ∧
    (killedSignal w self).unitCount = w.unitCount ∧
    (killedSignal w self).now = w.now ∧
    (killedSignal w self).oneSecond = w.oneSecond ∧
    (killedSignal w self).inArc = w.inArc := by
  obtain ⟨h1, h2, h3, h4, h5, h6⟩ :=
    notifyVictimKilled_spec self (List.range (onKilled w self).unitCount) (onKilled w self)
  unfold killedSignal
  refine ⟨h1, ?_, h3, h4, h5, h6⟩
  intro u hu hv
  apply h2 u
  · simpa [onKilled, triggerDespawnTimer] using hu
  · simp only [onKilled, triggerDespawnTimer, World.modify_units]
    split_ifs with h
    · subst h; simpa using hv
    · exact hv

theorem onKilled_units (w : World) (self u : Nat) :
    (onKilled w self).units u =
      if u = self then { w.units self with despawnCountdown := some (w.now + w.oneSecond * 30) }
      else w.units u := by
  simp [onKilled, triggerDespawnTimer]

theorem victimHasSwingTimer_stopAttack (w : World) (x : Nat) (h : victimHasSwingTimer w) :
    victimHasSwingTimer (stopAttack w x) := by
  intro u hu
  rw [stopAttack_units] at hu ⊢
  rw [(stopAttack_consts w x).1]
  split_ifs at hu ⊢ with hc
  · simp at hu
  · exact h u hu

theorem victimHasSwingTimer_killedSignal (w : World) (self : Nat) (h : victimHasSwingTimer w) :
    victimHasSwingTimer (killedSignal w self) := by
  obtain ⟨h1, _, h3, _⟩ := killedSignal_spec w self
  intro u hu
  rw [h3]
  rcases h1 u with e | e
  · rw [e] at hu ⊢
    rw [onKilled_units] at hu ⊢
    split_ifs at hu ⊢ with hc
    · subst hc; exact h u hu
    · exact h u hu
  · rw [e] at hu
    simp at hu

theorem victimHasSwingTimer_startAttack (w : World) (self target : Nat)
    (hs : self < w.unitCount) (h : victimHasSwingTimer w) :
    victimHasSwingTimer (startAttack w self target) := by
  unfold startAttack
  split_ifs with h1 h2 h3
  · exact h
  · exact h
  · exact h
  · intro u hu
    simp only [World.modify_units, World.emit_units, World.modify_unitCount,
      World.emit_unitCount] at hu ⊢
    by_cases hus : u = self
    · subst hus
      simp only [if_true]
      refine ⟨by simp, ?_, hs⟩
      simpa using h3
    · simp only [hus, if_false] at hu ⊢
      exact h u hu

theorem onlyPowerHealthChanged_refl (w : World) : onlyPowerHealthChanged w w :=
  fun _ => ⟨_, _, rfl⟩

theorem onlyPowerHealthChanged_trans (w1 w2 w3 : World) (h12 : onlyPowerHealthChanged w1 w2)
    (h23 : onlyPowerHealthChanged w2 w3) : onlyPowerHealthChanged w1 w3 := by
  intro u
  obtain ⟨p, h, e⟩ := h12 u
  obtain ⟨p2, h2, e2⟩ := h23 u
  exact ⟨p2, h2, by rw [e2, e]⟩

theorem onlyPowerHealthChanged_emit (w : World) (e : CombatEvent) :
    onlyPowerHealthChanged w (w.emit e) :=
  fun _ => ⟨_, _, rfl⟩

theorem onlyPowerHealthChanged_power (w : World) (id : Nat) (g : GameUnit → Nat → Nat) :
    onlyPowerHealthChanged w (w.modify id (fun u => { u with power := g u })) := by
  intro u
  rw [World.modify_units]
  by_cases hu : u = id
  · subst hu; rw [if_pos rfl]; exact ⟨_, _, rfl⟩
  · rw [if_neg hu]; exact ⟨_, _, rfl⟩

theorem onlyPowerHealthChanged_health (w : World) (id : Nat) (g : GameUnit → Nat) :
    onlyPowerHealthChanged w (w.modify id (fun u => { u with health := g u })) := by
  intro u
  rw [World.modify_units]
  by_cases hu : u = id
  · subst hu; rw [if_pos rfl]; exact ⟨_, _, rfl⟩
  · rw [if_neg hu]; exact ⟨_, _, rfl⟩

theorem swingHit_units (w1 : World) (self v roll : Nat) :
    onlyPowerHealthChanged w1 (swingHit w1 self v roll) := by
  unfold swingHit
  simp only []
  apply onlyPowerHealthChanged_trans _ _ _ _ (onlyPowerHealthChanged_health _ v _)
  by_cases hr : ((w1.emit (CombatEvent.attackStateUpdate self v
      (calculateArmorReducedDamage (w1.units self) (w1.units v) roll))).units self).powerType =
      PowerType.Rage
  · rw [if_pos hr]
    exact onlyPowerHealthChanged_trans _ _ _ (onlyPowerHealthChanged_emit _ _)
      (onlyPowerHealthChanged_power _ self _)
  · rw [if_neg hr]
    exact onlyPowerHealthChanged_emit _ _

theorem swingHit_consts (w1 : World) (self v roll : Nat) :
    (swingHit w1 self v roll).unitCount = w1.unitCount ∧ (swingHit w1 self v roll).now = w1.now ∧
    (swingHit w1 self v roll).oneSecond = w1.oneSecond ∧
    (swingHit w1 self v roll).inArc = w1.inArc := by
  unfold swingHit
  simp only []
  split_ifs <;> simp

theorem swingHit_health (w1 : World) (self v roll : Nat) :
    ((swingHit w1 self v roll).units v).health =
      (w1.units v).health - calculateArmorReducedDamage (w1.units self) (w1.units v) roll := by
  have hsub : ∀ h d : Nat, (if h > d then h - d else 0) = h - d := by
    intro h d; split_ifs <;> omega
  unfold swingHit
  simp only [hsub, World.modify_units, if_true]
  by_cases hr : ((w1.emit (CombatEvent.attackStateUpdate self v
      (calculateArmorReducedDamage (w1.units self) (w1.units v) roll))).units self).powerType =
      PowerType.Rage
  · rw [if_pos hr]
    by_cases hvs : v = self
    · subst hvs; simp
    · simp [hvs]
  · rw [if_neg hr]
    simp

theorem calculateArmorReducedDamage_congr (a a2 v v2 : GameUnit) (d : Nat)
    (ha : a2.level = a.level) (hv : v2.resistances = v.resistances) :
    calculateArmorReducedDamage a2 v2 d = calculateArmorReducedDamage a v d := by
  rw [calculateArmorReducedDamage_eq, calculateArmorReducedDamage_eq, ha, hv]

/-- The three ways `onAttackSwing` ends for a unit with a victim inside a
world instance: wrong facing, killing hit, ordinary hit. -/
theorem onAttackSwing_cases (w : World) (self roll v : Nat)
    (hv : (w.units self).victim = some v) (hw : (w.units self).inWorld = true) :
    (w.inArc self v = false →
      onAttackSwing w self roll =
        rearmSwing ((w.modify self (fun u => { u with lastAttackSwing := w.now })).emit
          (CombatEvent.attackErrorWrongFacing self)) self) ∧
    (w.inArc self v = true →
      ((swingHit (w.modify self (fun u => { u with lastAttackSwing := w.now }))
          self v roll).units v).health = 0 →
      onAttackSwing w self roll =
        killedSignal (swingHit (w.modify self (fun u => { u with lastAttackSwing := w.now }))
          self v roll) v) ∧
    (w.inArc self v = true →
      ((swingHit (w.modify self (fun u => { u with lastAttackSwing := w.now }))
          self v roll).units v).health ≠ 0 →
      onAttackSwing w self roll =
        rearmSwing (swingHit (w.modify self (fun u => { u with lastAttackSwing := w.now }))
          self v roll) self) := by
  have hw1 : ((w.modify self fun u => { u with lastAttackSwing := w.now }).units self).inWorld
      = true := by simpa using hw
  refine ⟨?_, ?_, ?_⟩
  · intro harc
    unfold onAttackSwing
    simp only [hv, World.modify_inArc, harc, if_true]
  · intro harc hz
    unfold onAttackSwing
    simp only [hv, World.modify_inArc, harc, Bool.true_eq_false, if_false, hw1, hz, if_true]
  · intro harc hz
    unfold onAttackSwing
    simp only [hv, World.modify_inArc, harc, Bool.true_eq_false, if_false, hw1, hz]

theorem swingHit_health_eq (w : World) (self roll v : Nat) :
    ((swingHit (w.modify self (fun u => { u with lastAttackSwing := w.now }))
        self v roll).units v).health =
      (w.units v).health - calculateArmorReducedDamage (w.units self) (w.units v) roll := by
  rw [swingHit_health]
  have h1 : ((w.modify self fun u => { u with lastAttackSwing := w.now }).units v).health =
      (w.units v).health := by
    rw [World.modify_units]; split_ifs with h
    · subst h; rfl
    · rfl
  have h2 : calculateArmorReducedDamage
      ((w.modify self fun u => { u with lastAttackSwing := w.now }).units self)
      ((w.modify self fun u => { u with lastAttackSwing := w.now }).units v) roll =
      calculateArmorReducedDamage (w.units self) (w.units v) roll := by
    apply calculateArmorReducedDamage_congr
    · simp
    · rw [World.modify_units]; split_ifs with h
      · subst h; rfl
      · rfl
  rw [h1, h2]

theorem victimHasSwingTimer_onAttackSwing (w : World) (self roll : Nat)
    (hs : self < w.unitCount)
    (hin : (w.units self).victim ≠ none → (w.units self).inWorld = true)
    (hJ : ∀ u, u ≠ self → (w.units u).victim ≠ none →
      (w.units u).attackSwingCountdown ≠ none ∧ (w.units u).inWorld = true ∧ u < w.unitCount) :
    ∀ u, ((onAttackSwing w self roll).units u).victim ≠ none →
      ((onAttackSwing w self roll).units u).attackSwingCountdown ≠ none ∧
      ((onAttackSwing w self roll).units u).inWorld = true ∧
      u < (onAttackSwing w self roll).unitCount := by
  cases hv : (w.units self).victim with
  | none =>
    have : onAttackSwing w self roll = w := by unfold onAttackSwing; simp only [hv]
    rw [this]
    intro u hu
    by_cases hus : u = self
    · subst hus; exact absurd hv hu
    · exact hJ u hus hu
  | some v =>
    have hw := hin (by rw [hv]; simp)
    obtain ⟨c1, c2, c3⟩ := onAttackSwing_cases w self roll v hv hw
    have hmod : ∀ u, ((w.modify self fun x => { x with lastAttackSwing := w.now }).units u).victim =
          (w.units u).victim ∧
        ((w.modify self fun x => { x with lastAttackSwing := w.now }).units u).attackSwingCountdown =
          (w.units u).attackSwingCountdown ∧
        ((w.modify self fun x => { x with lastAttackSwing := w.now }).units u).inWorld =
          (w.units u).inWorld := by
      intro u
      rw [World.modify_units]
      split_ifs with h
      · subst h; exact ⟨rfl, rfl, rfl⟩
      · exact ⟨rfl, rfl, rfl⟩
    have hhit : ∀ u, ((swingHit (w.modify self fun x => { x with lastAttackSwing := w.now })
          self v roll).units u).victim = (w.units u).victim ∧
        ((swingHit (w.modify self fun x => { x with lastAttackSwing := w.now })
          self v roll).units u).attackSwingCountdown = (w.units u).attackSwingCountdown ∧
        ((swingHit (w.modify self fun x => { x with lastAttackSwing := w.now })
          self v roll).units u).inWorld = (w.units u).inWorld := by
      intro u
      obtain ⟨p, h, e⟩ := swingHit_units (w.modify self fun x => { x with lastAttackSwing := w.now })
        self v roll u
      rw [e]
      exact hmod u
    have hrearm : ∀ w2 : World, w2.unitCount = w.unitCount →
        (∀ u, (w2.units u).victim = (w.units u).victim ∧
          (w2.units u).attackSwingCountdown = (w.units u).attackSwingCountdown ∧
          (w2.units u).inWorld = (w.units u).inWorld) →
        ∀ u, ((rearmSwing w2 self).units u).victim ≠ none →
          ((rearmSwing w2 self).units u).attackSwingCountdown ≠ none ∧
          ((rearmSwing w2 self).units u).inWorld = true ∧ u < (rearmSwing w2 self).unitCount := by
      intro w2 hc hf u hu
      simp only [rearmSwing, World.modify_units, World.modify_unitCount] at hu ⊢
      by_cases hus : u = self
      · subst hus
        simp only [if_true]
        exact ⟨by simp, by rw [(hf u).2.2]; exact hw, hc ▸ hs⟩
      · simp only [hus, if_false] at hu ⊢
        obtain ⟨e1, e2, e3⟩ := hf u
        rw [e1] at hu
        rw [e2, e3, hc]
        exact hJ u hus hu
    by_cases harc : w.inArc self v = false
    · rw [c1 harc]
      exact hrearm _ rfl (fun u => hmod u)
    · have harc2 : w.inArc self v = true := by simpa using harc
      by_cases hz : ((swingHit (w.modify self (fun u => { u with lastAttackSwing := w.now }))
          self v roll).units v).health = 0
      · rw [c2 harc2 hz]
        obtain ⟨k1, k2, k3, _⟩ := killedSignal_spec
          (swingHit (w.modify self (fun u => { u with lastAttackSwing := w.now })) self v roll) v
        have hcnt := (swingHit_consts (w.modify self (fun u => { u with lastAttackSwing := w.now }))
          self v roll).1
        intro u hu
        rw [k3, hcnt, World.modify_unitCount]
        by_cases hus : u = self
        · subst hus
          exfalso
          apply hu
          apply k2 u (by rw [hcnt]; exact hs)
          rw [(hhit u).1, hv]
        · rcases k1 u with e | e
          · rw [e] at hu ⊢
            rw [onKilled_units] at hu ⊢
            have hfields := hhit u
            split_ifs at hu ⊢ with huv
            · subst huv
              simp only [] at hu ⊢
              rw [(hhit u).1] at hu
              rw [(hhit u).2.1, (hhit u).2.2]
              exact hJ u hus hu
            · rw [hfields.1] at hu
              rw [hfields.2.1, hfields.2.2]
              exact hJ u hus hu
          · rw [e] at hu
            simp at hu
      · rw [c3 harc2 hz]
        exact hrearm _ (by
          rw [(swingHit_consts _ self v roll).1, World.modify_unitCount]) hhit

theorem victimHasSwingTimer_timerFires (w : World) (self roll : Nat) (hs : self < w.unitCount)
    (h : victimHasSwingTimer w) : victimHasSwingTimer (attackSwingTimerFires w self roll) := by
  unfold attackSwingTimerFires
  cases hc : (w.units self).attackSwingCountdown with
  | none => exact h
  | some t =>
    simp only []
    split_ifs with ht
    · apply victimHasSwingTimer_onAttackSwing _ self roll (by simpa using hs)
      · intro hv
        simp only [World.modify_units, if_true] at hv ⊢
        exact (h self hv).2.1
      · intro u hus hv
        simp only [World.modify_units, hus, if_false, World.modify_unitCount] at hv ⊢
        exact h u hv
    · exact h

theorem victimHasSwingTimer_step (w : World) (a : UnitAction) (h : victimHasSwingTimer w) :
    victimHasSwingTimer (stepUnit w a) := by
  cases a with
  | startAttack self target =>
    simp only [stepUnit]
    split_ifs with hc
    · exact victimHasSwingTimer_startAttack w self target hc.1 h
    · exact h
  | stopAttack self =>
    simp only [stepUnit]
    split_ifs
    · exact victimHasSwingTimer_stopAttack w self h
    · exact h
  | swingTimer self roll =>
    simp only [stepUnit]
    split_ifs with hc
    · exact victimHasSwingTimer_timerFires w self roll hc h
    · exact h
  | victimKilled self =>
    simp only [stepUnit]
    split_ifs
    · exact victimHasSwingTimer_stopAttack w self h
    · exact h
  | victimDespawned self =>
    simp only [stepUnit]
    split_ifs
    · exact victimHasSwingTimer_stopAttack w self h
    · exact h
  | killed self =>
    simp only [stepUnit]
    split_ifs
    · exact victimHasSwingTimer_killedSignal w self h
    · exact h
  | advance dt => exact h

theorem victimHasSwingTimer_run (actions : List UnitAction) :
    ∀ w, victimHasSwingTimer w → victimHasSwingTimer (runUnitActions w actions) := by
  induction actions with
  | nil => intro w h; exact h
  | cons a rest ih =>
    intro w h
    simp only [runUnitActions, List.foldl_cons]
    exact ih _ (victimHasSwingTimer_step w a h)

/-- C17: in every state reached from freshly constructed units through
`startAttack`, `stopAttack`, the swing timer running `onAttackSwing`, the
killed/despawned handlers and the passing of time, a unit with a victim has a
running attack swing countdown (and still belongs to its world instance, so
the only path of `onAttackSwing` that returns without re-arming the timer while
the victim is set, the missing tile index, is not taken). -/
theorem victim_implies_swing_countdown (w0 : World) (h0 : w0.fresh)
    (actions : List UnitAction) (u : Nat)
    (hv : ((runUnitActions w0 actions).units u).victim ≠ none) :
    ((runUnitActions w0 actions).units u).attackSwingCountdown ≠ none ∧
    ((runUnitActions w0 actions).units u).inWorld = true := by
  have hJ : victimHasSwingTimer w0 := by
    intro x hx
    exact absurd (h0 x).1 hx
  have := victimHasSwingTimer_run actions w0 hJ u hv
  exact ⟨this.1, this.2.1⟩

/-- C18: `startAttack(target)` follows the reference definition. If the target
is already the current victim, or its health is 0, or the attacker has no tile
index, no unit changes (victim, swing countdown and last swing time of the
attacker stay as they are) and no attack start notification is sent; otherwise
the victim becomes the target, the swing countdown is armed at
`max(now, lastSwing + baseAttackTime)` and one attack start is broadcast. -/
theorem startAttack_reference (w : World) (self target : Nat) :
    (((w.units self).victim = some target ∨ (w.units target).health = 0 ∨
        (w.units self).inWorld = false) →
      (startAttack w self target).units = w.units ∧
      ∃ extra, (startAttack w self target).log = w.log ++ extra ∧
        ∀ e ∈ extra, e.isAttackStart = false) ∧
    (¬ ((w.units self).victim = some target ∨ (w.units target).health = 0 ∨
        (w.units self).inWorld = false) →
      ((startAttack w self target).units self).victim = some target ∧
      ((startAttack w self target).units self).attackSwingCountdown =
        some (max w.now ((w.units self).lastAttackSwing + (w.units self).baseAttackTime)) ∧
      ((startAttack w self target).units self).lastAttackSwing = (w.units self).lastAttackSwing ∧
      (∀ u, u ≠ self → (startAttack w self target).units u = w.units u) ∧
      (startAttack w self target).log = w.log ++ [CombatEvent.attackStart self target]) := by
  constructor
  · intro hc
    unfold startAttack
    split_ifs with h1 h2 h3
    · exact ⟨rfl, [], by simp, by simp⟩
    · exact ⟨rfl, [CombatEvent.attackErrorTargetDead self], rfl, by simp [CombatEvent.isAttackStart]⟩
    · exact ⟨rfl, [], by simp, by simp⟩
    · exfalso
      rcases hc with h | h | h
      · exact h1 h
      · exact h2 h
      · exact h3 h
  · intro hc
    simp only [not_or] at hc
    obtain ⟨h1, h2, h3⟩ := hc
    have hmax : ∀ a b : Nat, (if a > b then a else b) = max b a := by
      intro a b
      split_ifs with hgt
      · exact (max_eq_right (le_of_lt hgt)).symm
      · exact (max_eq_left (not_lt.mp hgt)).symm
    unfold startAttack
    rw [if_neg h1, if_neg h2, if_neg h3]
    simp only [hmax, World.modify_units, World.emit_units, World.emit_now, if_true,
      World.modify_log, World.emit_log]
    simp only [true_and, and_true]
    intro u hu
    simp [hu]

/-- C19: one `onAttackSwing` of an attacker that has a victim and belongs to a
world instance. With the victim outside the frontal arc the victim's health is
unchanged and the swing is re-armed at `now + baseAttackTime`; otherwise the
victim's health becomes `max(0, health - d)` with
`d = calculateArmorReducedDamage(roll) >= 1`, so it never wraps below 0. -/
theorem onAttackSwing_health (w : World) (self roll v : Nat)
    (hv : (w.units self).victim = some v) (hw : (w.units self).inWorld = true) :
    (w.inArc self v = false →
      ((onAttackSwing w self roll).units v).health = (w.units v).health ∧
      ((onAttackSwing w self roll).units self).attackSwingCountdown =
        some (w.now + (w.units self).baseAttackTime)) ∧
    (w.inArc self v = true →
      1 ≤ calculateArmorReducedDamage (w.units self) (w.units v) roll ∧
      (((onAttackSwing w self roll).units v).health : ℤ) =
        max 0 (((w.units v).health : ℤ) -
          (calculateArmorReducedDamage (w.units self) (w.units v) roll : ℤ))) := by
  obtain ⟨c1, c2, c3⟩ := onAttackSwing_cases w self roll v hv hw
  have hh := swingHit_health_eq w self roll v
  constructor
  · intro harc
    rw [c1 harc]
    constructor
    · simp only [rearmSwing, World.modify_units, World.emit_units]
      by_cases hvs : v = self
      · subst hvs; simp
      · simp [hvs]
    · simp [rearmSwing]
  · intro harc
    refine ⟨calculateArmorReducedDamage_pos _ _ _, ?_⟩
    have hgoal : ((onAttackSwing w self roll).units v).health =
        (w.units v).health - calculateArmorReducedDamage (w.units self) (w.units v) roll := by
      by_cases hz : ((swingHit (w.modify self (fun u => { u with lastAttackSwing := w.now }))
          self v roll).units v).health = 0
      · rw [c2 harc hz]
        obtain ⟨k1, _⟩ := killedSignal_spec
          (swingHit (w.modify self (fun u => { u with lastAttackSwing := w.now })) self v roll) v
        rcases k1 v with e | e
        · rw [e, onKilled_units, if_pos rfl, ← hh]
        · rw [e, onKilled_units, if_pos rfl, ← hh]
      · rw [c3 harc hz, ← hh]
        simp only [rearmSwing, World.modify_units]
        by_cases hvs : v = self
        · subst hvs; simp
        · simp [hvs]
    rw [hgoal]
    omega

theorem duelStarted_unit0 :
    (duelStarted.units 0).victim = some 1 ∧ (duelStarted.units 0).inWorld = true ∧
    (duelStarted.units 0).attackSwingCountdown = some 2000 ∧
    (duelStarted.units 1).victim = some 0 ∧ (duelStarted.units 1).health = 60 ∧
    (duelStarted.units 1).attackSwingCountdown = some 2000 ∧
    duelStarted.now = 2000 ∧ duelStarted.unitCount = 2 ∧ duelStarted.inArc 0 1 = true := by
  decide

/-- Witness of C19: unit 0 of the started duel swings at unit 1. -/
theorem onAttackSwing_health_witness :
    (duelStarted.inArc 0 1 = false →
      ((onAttackSwing duelStarted 0 7).units 1).health = (duelStarted.units 1).health ∧
      ((onAttackSwing duelStarted 0 7).units 0).attackSwingCountdown =
        some (duelStarted.now + (duelStarted.units 0).baseAttackTime)) ∧
    (duelStarted.inArc 0 1 = true →
      1 ≤ calculateArmorReducedDamage (duelStarted.units 0) (duelStarted.units 1) 7 ∧
      (((onAttackSwing duelStarted 0 7).units 1).health : ℤ) =
        max 0 (((duelStarted.units 1).health : ℤ) -
          (calculateArmorReducedDamage (duelStarted.units 0) (duelStarted.units 1) 7 : ℤ))) :=
  onAttackSwing_health duelStarted 0 7 1 (by decide) (by decide)

theorem notifyVictimKilled_units (self : Nat) (l : List Nat) :
    ∀ (w : World) (u : Nat),
      (notifyVictimKilled self l w).units u =
        if u ∈ l ∧ (w.units u).victim = some self then
          { w.units u with attackSwingCountdown := none, victim := none }
        else w.units u := by
  induction l with
  | nil => intro w u; simp [notifyVictimKilled]
  | cons x rest ih =>
    intro w u
    simp only [notifyVictimKilled]
    by_cases hx : (w.units x).victim = some self
    · rw [if_pos hx, ih]
      unfold onVictimKilled
      rw [stopAttack_units]
      have hne : (w.units x).victim ≠ none := by rw [hx]; simp
      by_cases hux : u = x
      · subst hux
        simp [hne, hx]
      · simp [hux]
    · rw [if_neg hx, ih]
      by_cases hux : u = x
      · subst hux
        simp [hx]
      · simp [hux]

theorem killedSignal_units (w : World) (self u : Nat) :
    (killedSignal w self).units u =
      if u < w.unitCount ∧ ((onKilled w self).units u).victim = some self then
        { (onKilled w self).units u with attackSwingCountdown := none, victim := none }
      else (onKilled w self).units u := by
  unfold killedSignal
  rw [notifyVictimKilled_units]
  have : (onKilled w self).unitCount = w.unitCount := by simp [onKilled, triggerDespawnTimer]
  simp only [List.mem_range, this]

/-- The killing hit: the victim's health is 0, its despawn countdown runs for
30 seconds, the attacker is idle again, and a victim that was itself attacking
somebody else keeps its own victim and swing countdown. -/
theorem onAttackSwing_kill (w : World) (self roll v : Nat)
    (hv : (w.units self).victim = some v) (hw : (w.units self).inWorld = true)
    (hs : self < w.unitCount) (harc : w.inArc self v = true)
    (hkill : (w.units v).health ≤ calculateArmorReducedDamage (w.units self) (w.units v) roll) :
    ((onAttackSwing w self roll).units v).health = 0 ∧
    ((onAttackSwing w self roll).units v).despawnCountdown = some (w.now + w.oneSecond * 30) ∧
    ((onAttackSwing w self roll).units self).victim = none ∧
    ((onAttackSwing w self roll).units self).attackSwingCountdown = none ∧
    ((w.units v).victim ≠ some v → v ≠ self →
      ((onAttackSwing w self roll).units v).victim = (w.units v).victim ∧
      ((onAttackSwing w self roll).units v).attackSwingCountdown =
        (w.units v).attackSwingCountdown) := by
  obtain ⟨_, c2, _⟩ := onAttackSwing_cases w self roll v hv hw
  have hh := swingHit_health_eq w self roll v
  have hz : ((swingHit (w.modify self (fun u => { u with lastAttackSwing := w.now }))
      self v roll).units v).health = 0 := by rw [hh]; omega
  have hcnt : (swingHit (w.modify self (fun u => { u with lastAttackSwing := w.now }))
      self v roll).unitCount = w.unitCount := by
    rw [(swingHit_consts _ self v roll).1]; rfl
  have hnow : (swingHit (w.modify self (fun u => { u with lastAttackSwing := w.now }))
      self v roll).now = w.now := by
    rw [(swingHit_consts _ self v roll).2.1]; rfl
  have hsec : (swingHit (w.modify self (fun u => { u with lastAttackSwing := w.now }))
      self v roll).oneSecond = w.oneSecond := by
    rw [(swingHit_consts _ self v roll).2.2.1]; rfl
  have hfields : ∀ u, ((swingHit (w.modify self fun x => { x with lastAttackSwing := w.now })
        self v roll).units u).victim = (w.units u).victim ∧
      ((swingHit (w.modify self fun x => { x with lastAttackSwing := w.now })
        self v roll).units u).attackSwingCountdown = (w.units u).attackSwingCountdown := by
    intro u
    obtain ⟨p, h, e⟩ := swingHit_units (w.modify self fun x => { x with lastAttackSwing := w.now })
      self v roll u
    rw [e, World.modify_units]
    split_ifs with hu
    · subst hu; exact ⟨rfl, rfl⟩
    · exact ⟨rfl, rfl⟩
  rw [c2 harc hz]
  have hK : ∀ u, ((onKilled (swingHit (w.modify self fun x => { x with lastAttackSwing := w.now })
        self v roll) v).units u).victim = (w.units u).victim ∧
      ((onKilled (swingHit (w.modify self fun x => { x with lastAttackSwing := w.now })
        self v roll) v).units u).attackSwingCountdown = (w.units u).attackSwingCountdown := by
    intro u
    rw [onKilled_units]
    split_ifs with hu
    · subst hu; exact hfields u
    · exact hfields u
  refine ⟨?_, ?_, ?_, ?_, ?_⟩
  · rw [killedSignal_units]
    split_ifs
    · simp only [onKilled_units, if_true]; exact hz
    · simp only [onKilled_units, if_true]; exact hz
  · rw [killedSignal_units]
    split_ifs
    · simp only [onKilled_units, if_true, hnow, hsec]
    · simp only [onKilled_units, if_true, hnow, hsec]
  · rw [killedSignal_units, if_pos ⟨by rw [hcnt]; exact hs, by rw [(hK self).1]; exact hv⟩]
  · rw [killedSignal_units, if_pos ⟨by rw [hcnt]; exact hs, by rw [(hK self).1]; exact hv⟩]
  · intro hvv _
    rw [killedSignal_units, if_neg (by
      rintro ⟨_, h⟩
      rw [(hK v).1] at h
      exact hvv h)]
    exact hK v

/-- C16 fails on the code: two units attack each other and the first swing of
unit 0 kills unit 1. Afterwards unit 1 has health 0 and a running despawn
countdown, but it still has unit 0 as its victim and its own swing countdown is
still armed: its death did not return it to Idle. -/
theorem dead_unit_keeps_attacking :
    duelWorld.fresh ∧
    ((runUnitActions duelWorld
        [UnitAction.startAttack 0 1, UnitAction.startAttack 1 0, UnitAction.advance 2000,
          UnitAction.swingTimer 0 60]).units 1).health = 0 ∧
    ((runUnitActions duelWorld
        [UnitAction.startAttack 0 1, UnitAction.startAttack 1 0, UnitAction.advance 2000,
          UnitAction.swingTimer 0 60]).units 1).victim = some 0 ∧
    ((runUnitActions duelWorld
        [UnitAction.startAttack 0 1, UnitAction.startAttack 1 0, UnitAction.advance 2000,
          UnitAction.swingTimer 0 60]).units 1).attackSwingCountdown = some 2000 ∧
    ((runUnitActions duelWorld
        [UnitAction.startAttack 0 1, UnitAction.startAttack 1 0, UnitAction.advance 2000,
          UnitAction.swingTimer 0 60]).units 1).despawnCountdown = some 32000 := by
  have hrun : runUnitActions duelWorld
      [UnitAction.startAttack 0 1, UnitAction.startAttack 1 0, UnitAction.advance 2000,
        UnitAction.swingTimer 0 60] =
      onAttackSwing (duelStarted.modify 0 (fun u => { u with attackSwingCountdown := none })) 0 60 :=
    rfl
  have hd : calculateArmorReducedDamage
      ((duelStarted.modify 0 (fun u => { u with attackSwingCountdown := none })).units 0)
      ((duelStarted.modify 0 (fun u => { u with attackSwingCountdown := none })).units 1) 60 = 60 := by
    rw [calculateArmorReducedDamage_noArmor _ _ _ (by decide) (by decide)]
    rfl
  obtain ⟨k1, k2, _, _, k5⟩ := onAttackSwing_kill
    (duelStarted.modify 0 (fun u => { u with attackSwingCountdown := none })) 0 60 1
    (by decide) (by decide) (by decide) (by decide) (by rw [hd]; decide)
  obtain ⟨k5a, k5b⟩ := k5 (by decide) (by decide)
  rw [hrun]
  refine ⟨fun u => ⟨rfl, rfl⟩, k1, ?_, ?_, ?_⟩
  · rw [k5a]; decide
  · rw [k5b]; decide
  · rw [k2]; decide

theorem onAttackSwing_consts (w : World) (self roll : Nat) :
    (onAttackSwing w self roll).unitCount = w.unitCount ∧
    (onAttackSwing w self roll).now = w.now ∧
    (onAttackSwing w self roll).oneSecond = w.oneSecond ∧
    (onAttackSwing w self roll).inArc = w.inArc := by
  unfold onAttackSwing
  rcases Option.eq_none_or_eq_some (w.units self).victim with hv | ⟨v, hv⟩
  · simp [hv]
  · simp only [hv]
    obtain ⟨s1, s2, s3, s4⟩ :=
      swingHit_consts (w.modify self (fun u => { u with lastAttackSwing := w.now })) self v roll
    obtain ⟨_, _, k1, k2, k3, k4⟩ := killedSignal_spec
      (swingHit (w.modify self (fun u => { u with lastAttackSwing := w.now })) self v roll) v
    split_ifs
    · simp [rearmSwing]
    · simp
    · rw [k1, k2, k3, k4, s1, s2, s3, s4]; simp
    · simp only [rearmSwing, World.modify_unitCount, World.modify_now, World.modify_oneSecond,
        World.modify_inArc, s1, s2, s3, s4]
      simp

/-- An ordinary hit: the victim survives with its health lowered by the reduced
damage, the attacker keeps its victim and its swing is re-armed. -/
theorem onAttackSwing_survive (w : World) (self roll v : Nat)
    (hv : (w.units self).victim = some v) (hw : (w.units self).inWorld = true)
    (harc : w.inArc self v = true)
    (hlive : calculateArmorReducedDamage (w.units self) (w.units v) roll < (w.units v).health) :
    ((onAttackSwing w self roll).units v).health =
      (w.units v).health - calculateArmorReducedDamage (w.units self) (w.units v) roll ∧
    ((onAttackSwing w self roll).units self).victim = some v ∧
    ((onAttackSwing w self roll).units self).attackSwingCountdown ≠ none ∧
    ((onAttackSwing w self roll).units self).inWorld = true ∧
    ((onAttackSwing w self roll).units self).level = (w.units self).level ∧
    ((onAttackSwing w self roll).units v).resistances = (w.units v).resistances := by
  obtain ⟨_, _, c3⟩ := onAttackSwing_cases w self roll v hv hw
  have hh := swingHit_health_eq w self roll v
  have hnz : ((swingHit (w.modify self (fun u => { u with lastAttackSwing := w.now }))
      self v roll).units v).health ≠ 0 := by rw [hh]; omega
  have hU : ∀ u, ∃ p h, (swingHit (w.modify self fun x => { x with lastAttackSwing := w.now })
        self v roll).units u =
      { (if u = self then { w.units self with lastAttackSwing := w.now } else w.units u) with
        power := p, health := h } := by
    intro u
    obtain ⟨p, h, e⟩ := swingHit_units (w.modify self fun x => { x with lastAttackSwing := w.now })
      self v roll u
    refine ⟨p, h, ?_⟩
    rw [e, World.modify_units]
  rw [c3 harc hnz]
  obtain ⟨p, h, es⟩ := hU self
  obtain ⟨p2, h2, ev⟩ := hU v
  refine ⟨?_, ?_, ?_, ?_, ?_, ?_⟩
  · rw [← hh]
    simp only [rearmSwing, World.modify_units]
    by_cases hvs : v = self
    · subst hvs; simp
    · simp [hvs]
  · simp only [rearmSwing, World.modify_units, if_true, es]
    exact hv
  · simp [rearmSwing]
  · simp only [rearmSwing, World.modify_units, if_true, es]
    exact hw
  · simp only [rearmSwing, World.modify_units, if_true, es]
  · simp only [rearmSwing, World.modify_units]
    by_cases hvs : v = self
    · subst hvs
      simp only [if_true, es]
    · simp only [if_neg hvs, ev]

theorem swingRound_eq (w : World) (a roll t : Nat) (ha : a < w.unitCount)
    (ht : (w.units a).attackSwingCountdown = some t) :
    swingRound w a roll =
      onAttackSwing
        (({ w with now := w.now + (t - w.now) } : World).modify a
          (fun u => { u with attackSwingCountdown := none })) a roll := by
  have hle : t ≤ w.now + (t - w.now) := by omega
  unfold swingRound
  simp only [ht, stepUnit, ha, if_true, attackSwingTimerFires, hle]

theorem swingRound_idle (w : World) (a roll : Nat)
    (ht : (w.units a).attackSwingCountdown = none) : swingRound w a roll = w := by
  unfold swingRound
  simp only [ht]

theorem swingRounds_idle (a : Nat) (rolls : List Nat) :
    ∀ w : World, (w.units a).attackSwingCountdown = none → swingRounds w a rolls = w := by
  induction rolls with
  | nil => intro w _; rfl
  | cons r rs ih =>
    intro w ht
    simp only [swingRounds, List.foldl_cons]
    rw [swingRound_idle w a r ht]
    exact ih w ht

theorem swingRound_damage (w : World) (a b roll t : Nat) :
    calculateArmorReducedDamage
      ((({ w with now := w.now + (t - w.now) } : World).modify a
          (fun u => { u with attackSwingCountdown := none })).units a)
      ((({ w with now := w.now + (t - w.now) } : World).modify a
          (fun u => { u with attackSwingCountdown := none })).units b) roll =
    calculateArmorReducedDamage (w.units a) (w.units b) roll := by
  apply calculateArmorReducedDamage_congr
  · simp
  · rw [World.modify_units]
    split_ifs with h
    · subst h; rfl
    · rfl

theorem swingRound_health0 (w : World) (a b t : Nat) :
    ((({ w with now := w.now + (t - w.now) } : World).modify a
          (fun u => { u with attackSwingCountdown := none })).units b).health =
      (w.units b).health := by
  rw [World.modify_units]
  split_ifs with h
  · subst h; rfl
  · rfl

/-- The killing swing of a round. -/
theorem swingRound_kill (w : World) (a b roll : Nat) (ha : a < w.unitCount)
    (hv : (w.units a).victim = some b) (ht : (w.units a).attackSwingCountdown ≠ none)
    (hw : (w.units a).inWorld = true) (harc : w.inArc a b = true)
    (hkill : (w.units b).health ≤ calculateArmorReducedDamage (w.units a) (w.units b) roll) :
    ((swingRound w a roll).units b).health = 0 ∧
    ((swingRound w a roll).units b).despawnCountdown =
      some ((swingRound w a roll).now + (swingRound w a roll).oneSecond * 30) ∧
    ((swingRound w a roll).units a).victim = none ∧
    ((swingRound w a roll).units a).attackSwingCountdown = none := by
  rcases Option.eq_none_or_eq_some (w.units a).attackSwingCountdown with h0 | ⟨t, h0⟩
  · exact absurd h0 ht
  · rw [swingRound_eq w a roll t ha h0]
    obtain ⟨_, c2, c3, _⟩ := onAttackSwing_consts
      (({ w with now := w.now + (t - w.now) } : World).modify a
        (fun u => { u with attackSwingCountdown := none })) a roll
    obtain ⟨k1, k2, k3, k4, _⟩ := onAttackSwing_kill
      (({ w with now := w.now + (t - w.now) } : World).modify a
        (fun u => { u with attackSwingCountdown := none })) a roll b
      (by simpa using hv) (by simpa using hw) (by simpa using ha) (by simpa using harc)
      (by rw [swingRound_damage, swingRound_health0]; exact hkill)
    rw [c2, c3]
    exact ⟨k1, k2, k3, k4⟩

/-- An ordinary swing of a round. -/
theorem swingRound_survive (w : World) (a b roll : Nat) (ha : a < w.unitCount)
    (hv : (w.units a).victim = some b) (ht : (w.units a).attackSwingCountdown ≠ none)
    (hw : (w.units a).inWorld = true) (harc : w.inArc a b = true)
    (hlive : calculateArmorReducedDamage (w.units a) (w.units b) roll < (w.units b).health) :
    ((swingRound w a roll).units b).health =
      (w.units b).health - calculateArmorReducedDamage (w.units a) (w.units b) roll ∧
    ((swingRound w a roll).units a).victim = some b ∧
    ((swingRound w a roll).units a).attackSwingCountdown ≠ none ∧
    ((swingRound w a roll).units a).inWorld = true ∧
    ((swingRound w a roll).units a).level = (w.units a).level ∧
    ((swingRound w a roll).units b).resistances = (w.units b).resistances ∧
    (swingRound w a roll).unitCount = w.unitCount ∧
    (swingRound w a roll).inArc = w.inArc := by
  rcases Option.eq_none_or_eq_some (w.units a).attackSwingCountdown with h0 | ⟨t, h0⟩
  · exact absurd h0 ht
  · rw [swingRound_eq w a roll t ha h0]
    obtain ⟨c1, _, _, c4⟩ := onAttackSwing_consts
      (({ w with now := w.now + (t - w.now) } : World).modify a
        (fun u => { u with attackSwingCountdown := none })) a roll
    obtain ⟨s1, s2, s3, s4, s5, s6⟩ := onAttackSwing_survive
      (({ w with now := w.now + (t - w.now) } : World).modify a
        (fun u => { u with attackSwingCountdown := none })) a roll b
      (by simpa using hv) (by simpa using hw) (by simpa using harc)
      (by rw [swingRound_damage, swingRound_health0]; exact hlive)
    rw [swingRound_damage, swingRound_health0] at s1
    refine ⟨s1, s2, s3, s4, ?_, ?_, ?_, ?_⟩
    · rw [s5]; simp
    · rw [s6, World.modify_units]
      split_ifs with h
      · subst h; rfl
      · rfl
    · rw [c1]; rfl
    · rw [c4]; rfl

theorem swingRounds_cons (w : World) (a r : Nat) (rs : List Nat) :
    swingRounds w a (r :: rs) = swingRounds (swingRound w a r) a rs := rfl

/-- C20: attacker `a` has victim `b`, a running swing countdown, belongs to a
world instance and faces `b`, whose health is `h >= 1`; nothing but the swings
of `a` happens. For every list of damage rolls whose reduced damage is at least
`lo >= 1` each (`lo = 1` holds for every roll) and that is long enough
(`h <= length * lo`), there is a killing swing number `k` with
`1 <= k <= h` and `(k - 1) * lo < h <= k * hi` for every upper bound `hi` of the
reduced damage: every swing up to `k` strictly lowers the health of `b`, after
swing `k` it is exactly 0, the despawn countdown of `b` ends 30 seconds after
the kill, `a` has no victim and no running swing countdown, and further rounds
change nothing (the countdown is not re-armed). -/
theorem repeated_swings_kill (a b lo : Nat) (rolls : List Nat) :
    ∀ w : World, a < w.unitCount → (w.units a).victim = some b →
    (w.units a).attackSwingCountdown ≠ none → (w.units a).inWorld = true →
    w.inArc a b = true → 1 ≤ (w.units b).health → 1 ≤ lo →
    (∀ r ∈ rolls, lo ≤ calculateArmorReducedDamage (w.units a) (w.units b) r) →
    (w.units b).health ≤ rolls.length * lo →
    ∃ k, 1 ≤ k ∧ k ≤ rolls.length ∧ k ≤ (w.units b).health ∧
      (k - 1) * lo < (w.units b).health ∧
      (∀ hi, (∀ r ∈ rolls, calculateArmorReducedDamage (w.units a) (w.units b) r ≤ hi) →
        (w.units b).health ≤ k * hi) ∧
      (∀ j, j < k →
        ((swingRounds w a (rolls.take (j + 1))).units b).health <
          ((swingRounds w a (rolls.take j)).units b).health) ∧
      ((swingRounds w a (rolls.take k)).units b).health = 0 ∧
      ((swingRounds w a (rolls.take k)).units b).despawnCountdown =
        some ((swingRounds w a (rolls.take k)).now +
          (swingRounds w a (rolls.take k)).oneSecond * 30) ∧
      ((swingRounds w a (rolls.take k)).units a).victim = none ∧
      ((swingRounds w a (rolls.take k)).units a).attackSwingCountdown = none ∧
      (∀ j, k ≤ j → swingRounds w a (rolls.take j) = swingRounds w a (rolls.take k)) := by
  induction rolls with
  | nil =>
    intro w _ _ _ _ _ hh _ _ hlen
    simp at hlen
    omega
  | cons r rs ih =>
    intro w ha hv ht hw harc hh hlo hroll hlen
    have hd := hroll r (List.mem_cons_self r rs)
    have hlen2 : (w.units b).health ≤ rs.length * lo + lo := by
      have : (r :: rs).length * lo = rs.length * lo + lo := by
        rw [List.length_cons, Nat.succ_mul]
      omega
    by_cases hk : (w.units b).health ≤ calculateArmorReducedDamage (w.units a) (w.units b) r
    · obtain ⟨k1, k2, k3, k4⟩ := swingRound_kill w a b r ha hv ht hw harc hk
      refine ⟨1, le_refl 1, by simp, hh, by simpa using hh, ?_, ?_, ?_, ?_, ?_, ?_, ?_⟩
      · intro hi hhi
        have := hhi r (List.mem_cons_self r rs)
        omega
      · intro j hj
        have hj0 : j = 0 := by omega
        subst hj0
        show ((swingRounds w a (List.take 1 (r :: rs))).units b).health <
          ((swingRounds w a (List.take 0 (r :: rs))).units b).health
        simp only [List.take_succ_cons, List.take_zero, swingRounds_cons]
        show ((swingRound w a r).units b).health < (w.units b).health
        rw [k1]; omega
      · simp only [List.take_succ_cons, List.take_zero, swingRounds_cons]
        exact k1
      · simp only [List.take_succ_cons, List.take_zero, swingRounds_cons]
        exact k2
      · simp only [List.take_succ_cons, List.take_zero, swingRounds_cons]
        exact k3
      · simp only [List.take_succ_cons, List.take_zero, swingRounds_cons]
        exact k4
      · intro j hj
        obtain ⟨m, rfl⟩ : ∃ m, j = m + 1 := ⟨j - 1, by omega⟩
        simp only [List.take_succ_cons, List.take_zero, swingRounds_cons]
        rw [swingRounds_idle a _ _ k4]
        rfl
    · have hlive : calculateArmorReducedDamage (w.units a) (w.units b) r < (w.units b).health := by
        omega
      obtain ⟨s1, s2, s3, s4, s5, s6, s7, s8⟩ := swingRound_survive w a b r ha hv ht hw harc hlive
      have hcg : ∀ x, calculateArmorReducedDamage ((swingRound w a r).units a)
          ((swingRound w a r).units b) x =
          calculateArmorReducedDamage (w.units a) (w.units b) x :=
        fun x => calculateArmorReducedDamage_congr _ _ _ _ x s5 s6
      obtain ⟨k, i1, i2, i3, i4, i5, i6, i7, i8, i9, i10, i11⟩ := ih (swingRound w a r)
        (by rw [s7]; exact ha) s2 s3 s4 (by rw [s8]; exact harc) (by rw [s1]; omega) hlo
        (by
          intro x hx
          rw [hcg]
          exact hroll x (List.mem_cons_of_mem r hx))
        (by rw [s1]; omega)
      have hmul : k * lo = (k - 1) * lo + lo := by
        obtain ⟨m, rfl⟩ : ∃ m, k = m + 1 := ⟨k - 1, by omega⟩
        simp [Nat.succ_mul]
      refine ⟨k + 1, by omega, by simp; omega, by rw [s1] at i3; omega, ?_, ?_, ?_, ?_, ?_, ?_,
        ?_, ?_⟩
      · rw [s1] at i4
        simp only [Nat.add_sub_cancel]
        omega
      · intro hi hhi
        have h1 := i5 hi (by
          intro x hx
          rw [hcg]
          exact hhi x (List.mem_cons_of_mem r hx))
        have h2 := hhi r (List.mem_cons_self r rs)
        rw [s1] at h1
        rw [Nat.succ_mul]
        omega
      · intro j hj
        rcases Nat.eq_zero_or_pos j with hj0 | hjp
        · subst hj0
          show ((swingRounds w a (List.take 1 (r :: rs))).units b).health <
            ((swingRounds w a (List.take 0 (r :: rs))).units b).health
          simp only [List.take_succ_cons, List.take_zero, swingRounds_cons]
          show ((swingRound w a r).units b).health < (w.units b).health
          rw [s1]; omega
        · obtain ⟨m, rfl⟩ : ∃ m, j = m + 1 := ⟨j - 1, by omega⟩
          simp only [List.take_succ_cons, swingRounds_cons]
          exact i6 m (by omega)
      · simp only [List.take_succ_cons, swingRounds_cons]
        exact i7
      · simp only [List.take_succ_cons, swingRounds_cons]
        exact i8
      · simp only [List.take_succ_cons, swingRounds_cons]
        exact i9
      · simp only [List.take_succ_cons, swingRounds_cons]
        exact i10
      · intro j hj
        obtain ⟨m, rfl⟩ : ∃ m, j = m + 1 := ⟨j - 1, by omega⟩
        simp only [List.take_succ_cons, swingRounds_cons]
        exact i11 m (by omega)

theorem duelRolls_range : ∀ r ∈ duelRolls, 5 ≤ r ∧ r ≤ 10 := by decide

theorem duel_damage (r : Nat) (hr : r ≤ 16777216) :
    calculateArmorReducedDamage (duelStarted.units 0) (duelStarted.units 1) r = max 1 r :=
  calculateArmorReducedDamage_noArmor _ _ r (by decide) hr

/-- Witness of C20: in the started duel unit 0 (reduced damage 5 to 10 per
swing) attacks unit 1 (health 60, armor 0); the killing swing is one of the
swings 6 to 12, and after it unit 1 has health 0 and a running despawn
countdown while unit 0 has no victim and no running swing countdown. -/
theorem repeated_swings_kill_witness :
    (duelStarted.units 1).health = 60 ∧ (duelStarted.units 1).resistances = 0 ∧
    (duelStarted.units 0).level = 1 ∧
    (∀ r ∈ duelRolls, 5 ≤ r ∧ r ≤ 10) ∧
    ∃ k, 6 ≤ k ∧ k ≤ 12 ∧
      ((swingRounds duelStarted 0 (duelRolls.take k)).units 1).health = 0 ∧
      ((swingRounds duelStarted 0 (duelRolls.take k)).units 1).despawnCountdown =
        some ((swingRounds duelStarted 0 (duelRolls.take k)).now +
          (swingRounds duelStarted 0 (duelRolls.take k)).oneSecond * 30) ∧
      ((swingRounds duelStarted 0 (duelRolls.take k)).units 0).victim = none ∧
      ((swingRounds duelStarted 0 (duelRolls.take k)).units 0).attackSwingCountdown = none ∧
      (∀ j, k ≤ j →
        swingRounds duelStarted 0 (duelRolls.take j) =
          swingRounds duelStarted 0 (duelRolls.take k)) := by
  have h60 : (duelStarted.units 1).health = 60 := by decide
  obtain ⟨k, _, _, _, i4, i5, _, i7, i8, i9, i10, i11⟩ :=
    repeated_swings_kill 0 1 5 duelRolls duelStarted (by decide) (by decide) (by decide)
      (by decide) (by decide) (by decide) (by decide)
      (by
        intro r hr
        have := (duelRolls_range r hr).1
        have hup := (duelRolls_range r hr).2
        rw [duel_damage r (by omega)]
        omega)
      (by decide)
  have i5b := i5 10 (by
    intro r hr
    have := (duelRolls_range r hr).2
    rw [duel_damage r (by omega)]
    omega)
  rw [h60] at i4 i5b
  exact ⟨h60, by decide, by decide, duelRolls_range, k, by omega, by omega, i7, i8, i9, i10, i11⟩

/-- Witness of C17: after unit 0 of the duel started attacking unit 1 it has a
victim, and its swing countdown runs. -/
theorem victim_implies_swing_countdown_witness :
    duelWorld.fresh ∧
    ((runUnitActions duelWorld [UnitAction.startAttack 0 1]).units 0).victim ≠ none ∧
    ((runUnitActions duelWorld [UnitAction.startAttack 0 1]).units 0).attackSwingCountdown
      ≠ none ∧
    ((runUnitActions duelWorld [UnitAction.startAttack 0 1]).units 0).inWorld = true :=
  ⟨fun _ => ⟨rfl, rfl⟩, by decide,
    victim_implies_swing_countdown duelWorld (fun _ => ⟨rfl, rfl⟩)
      [UnitAction.startAttack 0 1] 0 (by decide)⟩

theorem forEachTileInSight_mem (c t : TileIndex2D) :
    t ∈ forEachTileInSight c ↔ chebyshev c t ≤ 1 := by
  obtain ⟨x, y⟩ := t
  obtain ⟨cx, cy⟩ := c
  simp only [forEachTileInSight, sightOffsets, chebyshev, List.flatMap_cons, List.flatMap_nil,
    List.map_cons, List.map_nil, List.append_nil, List.cons_append, List.nil_append,
    List.mem_cons, List.mem_nil_iff, or_false, Prod.mk.injEq, max_le_iff]
  omega

theorem forEachTileInSight_nodup (c : TileIndex2D) : (forEachTileInSight c).Nodup := by
  obtain ⟨cx, cy⟩ := c
  simp [forEachTileInSight, sightOffsets]

theorem forEachTileInSightWithout_mem (a b t : TileIndex2D) :
    t ∈ forEachTileInSightWithout a b ↔ (chebyshev a t ≤ 1 ∧ ¬ chebyshev b t ≤ 1) := by
  unfold forEachTileInSightWithout
  rw [List.mem_filter, forEachTileInSight_mem, decide_eq_true_iff, forEachTileInSight_mem]

theorem tileChangePass_ok (g : VisibilityGrid) (self : Nat) (tiles : List TileIndex2D)
    (h : ∀ t ∈ tiles, self ∉ g.watchers t) : tileChangePass g self tiles = some tiles := by
  induction tiles with
  | nil => rfl
  | cons t rest ih =>
    have h1 : self ∉ g.watchers t := h t (List.mem_cons_self t rest)
    have h2 := ih (fun x hx => h x (List.mem_cons_of_mem t hx))
    simp only [tileChangePass, h1, if_false, h2, Option.map_some']

/-- C21: `forEachTileInSightWithout(newTile, oldTile, fn)` calls `fn` exactly
once on each tile within Chebyshev distance 1 of `newTile` that is not within
distance 1 of `oldTile`, and on no other tile (for (5,5) and (5,6) the strip
(4,4), (5,4), (6,4)). For a player registered as watcher on no tile but
`oldTile`, `Player::onTileChangePending` passes all its assertions, its spawn
pass and its despawn pass visit these two tile sets, which are disjoint, no
visited tile has the player among its watchers when visited, and afterwards
the player watches exactly `newTile`. -/
theorem onTileChangePending_passes (g : VisibilityGrid) (self : Nat)
    (oldTile newTile : TileIndex2D) (hreg : ∀ t, t ≠ oldTile → self ∉ g.watchers t) :
    (forEachTileInSightWithout newTile oldTile).Nodup ∧
    (∀ t, t ∈ forEachTileInSightWithout newTile oldTile ↔
      (chebyshev newTile t ≤ 1 ∧ ¬ chebyshev oldTile t ≤ 1)) ∧
    forEachTileInSightWithout (5, 5) (5, 6) = [(4, 4), (5, 4), (6, 4)] ∧
    ∃ r, onTileChangePending g self oldTile newTile = some r ∧
      r.spawnTiles = forEachTileInSightWithout newTile oldTile ∧
      r.despawnTiles = forEachTileInSightWithout oldTile newTile ∧
      (∀ t, t ∈ r.spawnTiles → t ∉ r.despawnTiles) ∧
      (∀ t, t ∈ r.spawnTiles ∨ t ∈ r.despawnTiles →
        self ∉ (if t = oldTile then (g.watchers oldTile).erase self else g.watchers t)) ∧
      (∀ t, self ∈ r.grid.watchers t ↔ t = newTile) := by
  have hclean : ∀ t, self ∉ Function.update g.watchers oldTile ((g.watchers oldTile).erase self) t := by
    intro t
    by_cases ht : t = oldTile
    · subst ht
      rw [Function.update_same]
      exact Finset.not_mem_erase self _
    · rw [Function.update_noteq ht]
      exact hreg t ht
  have hsp := tileChangePass_ok
    { g with watchers := Function.update g.watchers oldTile ((g.watchers oldTile).erase self) }
    self (forEachTileInSightWithout newTile oldTile) (fun t _ => hclean t)
  have hdp := tileChangePass_ok
    { g with watchers := Function.update g.watchers oldTile ((g.watchers oldTile).erase self) }
    self (forEachTileInSightWithout oldTile newTile) (fun t _ => hclean t)
  refine ⟨(forEachTileInSight_nodup newTile).filter _, forEachTileInSightWithout_mem newTile oldTile,
    by decide, ?_⟩
  have hrun : onTileChangePending g self oldTile newTile = some
      { grid :=
          { watchers :=
              Function.update (Function.update g.watchers oldTile ((g.watchers oldTile).erase self))
                newTile
                (insert self
                  (Function.update g.watchers oldTile ((g.watchers oldTile).erase self) newTile))
            gameObjects := g.gameObjects }
        spawnTiles := forEachTileInSightWithout newTile oldTile
        despawnTiles := forEachTileInSightWithout oldTile newTile } := by
    unfold onTileChangePending
    simp only [hsp, hdp]
  refine ⟨_, hrun, rfl, rfl, ?_, ?_, ?_⟩
  · intro t h1 h2
    rw [forEachTileInSightWithout_mem] at h1 h2
    exact h1.2 h2.1
  · intro t _
    by_cases ht : t = oldTile
    · rw [if_pos ht]
      exact Finset.not_mem_erase self _
    · rw [if_neg ht]
      exact hreg t ht
  · intro t
    show self ∈ Function.update
      (Function.update g.watchers oldTile ((g.watchers oldTile).erase self)) newTile
      (insert self
        (Function.update g.watchers oldTile ((g.watchers oldTile).erase self) newTile)) t ↔ _
    by_cases ht : t = newTile
    · subst ht
      rw [Function.update_same]
      simp
    · rw [Function.update_noteq ht]
      simp only [ht, iff_false]
      exact hclean t

/-- Witness of C21: player 7 moves from tile (5, 6) to tile (5, 5). -/
theorem onTileChangePending_passes_witness :
    (forEachTileInSightWithout ((5, 5) : TileIndex2D) (5, 6)).Nodup ∧
    (∀ t, t ∈ forEachTileInSightWithout ((5, 5) : TileIndex2D) (5, 6) ↔
      (chebyshev (5, 5) t ≤ 1 ∧ ¬ chebyshev (5, 6) t ≤ 1)) ∧
    forEachTileInSightWithout (5, 5) (5, 6) = [(4, 4), (5, 4), (6, 4)] ∧
    ∃ r, onTileChangePending stdGrid 7 (5, 6) (5, 5) = some r ∧
      r.spawnTiles = forEachTileInSightWithout (5, 5) (5, 6) ∧
      r.despawnTiles = forEachTileInSightWithout (5, 6) (5, 5) ∧
      (∀ t, t ∈ r.spawnTiles → t ∉ r.despawnTiles) ∧
      (∀ t, t ∈ r.spawnTiles ∨ t ∈ r.despawnTiles →
        7 ∉ (if t = (5, 6) then (stdGrid.watchers (5, 6)).erase 7 else stdGrid.watchers t)) ∧
      (∀ t, 7 ∈ r.grid.watchers t ↔ t = (5, 5)) :=
  onTileChangePending_passes stdGrid 7 (5, 6) (5, 5) (by
    intro t ht
    simp only [stdGrid, if_neg ht]
    split_ifs <;> simp)

theorem guidByte_eq (g j : Nat) : guidByte g j = g / 256 ^ j % 256 := by
  unfold guidByte
  rw [Nat.shiftRight_eq_div_pow, show (0xFF : Nat) = 2 ^ 8 - 1 from rfl,
    Nat.and_pow_two_sub_one_eq_mod, pow_mul]
  norm_num

theorem packGuidLoop_zero (i mask : Nat) (bytes : List Nat) :
    packGuidLoop 0 i mask bytes = (mask, bytes) := by
  rw [packGuidLoop]
  simp

theorem packGuidLoop_step (g i mask : Nat) (bytes : List Nat) (h : g ≠ 0) :
    packGuidLoop g i mask bytes =
      if g % 256 ≠ 0 then
        packGuidLoop (g / 256) ((i + 1) % 256) (mask ||| ((1 <<< i) % 256)) (bytes ++ [g % 256])
      else packGuidLoop (g / 256) ((i + 1) % 256) mask bytes := by
  have h1 : g &&& 0xFF = g % 256 := by
    rw [show (0xFF : Nat) = 2 ^ 8 - 1 from rfl, Nat.and_pow_two_sub_one_eq_mod]
  have h2 : g >>> 8 = g / 256 := by
    rw [Nat.shiftRight_eq_div_pow]
  rw [packGuidLoop]
  simp only [h, dite_false, h1, h2]

theorem guidByte_high (G i k : Nat) (h : G / 256 ^ i = 0) (hk : i ≤ k) : guidByte G k = 0 := by
  rw [guidByte_eq]
  have : G / 256 ^ k = 0 := by
    obtain ⟨d, rfl⟩ := Nat.exists_eq_add_of_le hk
    rw [pow_add, ← Nat.div_div_eq_div_mul, h, Nat.zero_div]
  rw [this]

/-- The loop started at byte `i` with `guidCopy = G >> (8 * i)` sets the mask
bit of every non-zero byte from `i` on and appends these bytes in order. -/
theorem packGuidLoop_spec (G : Nat) (hG : G < 256 ^ 8) :
    ∀ (n i mask : Nat) (bytes : List Nat), i + n = 8 →
      (∀ k, (packGuidLoop (G / 256 ^ i) i mask bytes).1.testBit k = true ↔
        (mask.testBit k = true ∨ (i ≤ k ∧ k < 8 ∧ guidByte G k ≠ 0))) ∧
      (packGuidLoop (G / 256 ^ i) i mask bytes).2 =
        bytes ++ ((List.range' i n).map (guidByte G)).filter (fun b => decide (b ≠ 0)) := by
  intro n
  induction n with
  | zero =>
    intro i mask bytes hi
    have hi8 : i = 8 := by omega
    subst hi8
    rw [Nat.div_eq_of_lt hG, packGuidLoop_zero]
    constructor
    · intro k
      constructor
      · intro h; exact Or.inl h
      · rintro (h | ⟨h1, h2, _⟩)
        · exact h
        · omega
    · simp
  | succ n ih =>
    intro i mask bytes hi
    by_cases hz : G / 256 ^ i = 0
    · rw [hz, packGuidLoop_zero]
      constructor
      · intro k
        constructor
        · intro h; exact Or.inl h
        · rintro (h | ⟨h1, _, h3⟩)
          · exact h
          · exact absurd (guidByte_high G i k hz h1) h3
      · have : ((List.range' i (n + 1)).map (guidByte G)).filter (fun b => decide (b ≠ 0)) = [] := by
          rw [List.filter_eq_nil_iff]
          intro b hb
          rw [List.mem_map] at hb
          obtain ⟨k, hk, rfl⟩ := hb
          rw [List.mem_range'_1] at hk
          simp [guidByte_high G i k hz hk.1]
        rw [this, List.append_nil]
    · rw [packGuidLoop_step _ _ _ _ hz]
      have hdiv : G / 256 ^ i / 256 = G / 256 ^ (i + 1) := by
        rw [Nat.div_div_eq_div_mul, pow_succ]
      have hi1 : (i + 1) % 256 = i + 1 := Nat.mod_eq_of_lt (by omega)
      have hbyte : G / 256 ^ i % 256 = guidByte G i := (guidByte_eq G i).symm
      have hpow : (1 <<< i) % 256 = 2 ^ i := by
        rw [Nat.one_shiftLeft]
        apply Nat.mod_eq_of_lt
        calc 2 ^ i < 2 ^ 8 := Nat.pow_lt_pow_right (by norm_num) (by omega)
          _ = 256 := by norm_num
      rw [hdiv, hi1, hbyte, hpow]
      have hrange : List.range' i (n + 1) = i :: List.range' (i + 1) n := rfl
      by_cases hb : guidByte G i ≠ 0
      · rw [if_pos hb]
        obtain ⟨a1, a2⟩ := ih (i + 1) (mask ||| 2 ^ i) (bytes ++ [guidByte G i]) (by omega)
        constructor
        · intro k
          rw [a1 k, Nat.testBit_or, Nat.testBit_two_pow]
          simp only [Bool.or_eq_true, decide_eq_true_eq]
          constructor
          · rintro ((h | h) | ⟨h1, h2, h3⟩)
            · exact Or.inl h
            · subst h; exact Or.inr ⟨le_refl _, by omega, hb⟩
            · exact Or.inr ⟨by omega, h2, h3⟩
          · rintro (h | ⟨h1, h2, h3⟩)
            · exact Or.inl (Or.inl h)
            · by_cases hik : i = k
              · exact Or.inl (Or.inr hik)
              · exact Or.inr ⟨by omega, h2, h3⟩
        · rw [a2, hrange, List.map_cons, List.filter_cons_of_pos (by simpa using hb)]
          simp
      · rw [if_neg hb]
        obtain ⟨a1, a2⟩ := ih (i + 1) mask bytes (by omega)
        have hb0 : guidByte G i = 0 := by
          by_contra h; exact hb h
        constructor
        · intro k
          rw [a1 k]
          constructor
          · rintro (h | ⟨h1, h2, h3⟩)
            · exact Or.inl h
            · exact Or.inr ⟨by omega, h2, h3⟩
          · rintro (h | ⟨h1, h2, h3⟩)
            · exact Or.inl h
            · by_cases hik : i = k
              · subst hik; exact absurd hb0 h3
              · exact Or.inr ⟨by omega, h2, h3⟩
        · rw [a2, hrange, List.map_cons, List.filter_cons_of_neg (by simp [hb0])]

theorem unpackGuidFrom_spec (G mask : Nat)
    (hmask : ∀ k, k < 8 → (mask.testBit k = true ↔ guidByte G k ≠ 0)) :
    ∀ n i, i + n ≤ 8 →
      unpackGuidFrom n i mask
        (((List.range' i n).map (guidByte G)).filter (fun b => decide (b ≠ 0))) =
      (G / 256 ^ i % 256 ^ n) * 256 ^ i := by
  intro n
  induction n with
  | zero => intro i _; simp [unpackGuidFrom, Nat.mod_one]
  | succ n ih =>
    intro i hi
    have hrange : List.range' i (n + 1) = i :: List.range' (i + 1) n := rfl
    have hdiv : G / 256 ^ i / 256 = G / 256 ^ (i + 1) := by
      rw [Nat.div_div_eq_div_mul, pow_succ]
    have hsplit : G / 256 ^ i % 256 ^ (n + 1) =
        guidByte G i + 256 * (G / 256 ^ (i + 1) % 256 ^ n) := by
      rw [pow_succ', Nat.mod_mul, hdiv, guidByte_eq]
    have hrec := ih (i + 1) (by omega)
    rw [hrange, List.map_cons, hsplit]
    by_cases hb : guidByte G i ≠ 0
    · have ht : mask.testBit i = true := (hmask i (by omega)).2 hb
      rw [List.filter_cons_of_pos (by simpa using hb)]
      simp only [unpackGuidFrom, ht, if_true]
      rw [hrec, Nat.shiftLeft_eq, pow_mul]
      norm_num
      ring
    · have hb0 : guidByte G i = 0 := by
        by_contra h; exact hb h
      have ht : ¬ mask.testBit i = true := fun h => hb ((hmask i (by omega)).1 h)
      rw [List.filter_cons_of_neg (by simp [hb0])]
      simp only [unpackGuidFrom, ht, Bool.false_eq_true, if_false]
      rw [hrec, hb0]
      ring

theorem packGuid_facts (guid : Nat) (h : guid < 2 ^ 64) :
    (∀ k, (packGuidLoop guid 0 0 []).1.testBit k = true ↔ (k < 8 ∧ guidByte guid k ≠ 0)) ∧
    (packGuidLoop guid 0 0 []).2 =
      ((List.range 8).map (guidByte guid)).filter (fun b => decide (b ≠ 0)) := by
  have hG : guid < 256 ^ 8 := by
    calc guid < 2 ^ 64 := h
      _ = 256 ^ 8 := by norm_num
  obtain ⟨a1, a2⟩ := packGuidLoop_spec guid hG 8 0 0 [] (by norm_num)
  rw [pow_zero, Nat.div_one] at a1 a2
  constructor
  · intro k
    rw [a1 k]
    simp
  · rw [a2, List.nil_append, List.range_eq_range']

theorem unpackGuid_packGuid (guid : Nat) (h : guid < 2 ^ 64) :
    unpackGuid (packGuid guid) = guid := by
  obtain ⟨f1, f2⟩ := packGuid_facts guid h
  have hm : ∀ k, k < 8 →
      ((packGuidLoop guid 0 0 []).1.testBit k = true ↔ guidByte guid k ≠ 0) := by
    intro k hk
    rw [f1 k]
    exact ⟨fun x => x.2, fun x => ⟨hk, x⟩⟩
  have := unpackGuidFrom_spec guid _ hm 8 0 (by norm_num)
  unfold packGuid unpackGuid
  simp only []
  rw [f2, List.range_eq_range', this, pow_zero, Nat.div_one, Nat.mul_one]
  apply Nat.mod_eq_of_lt
  calc guid < 2 ^ 64 := h
    _ = 256 ^ 8 := by norm_num

/-- C22: for every 64-bit guid the bytes written by the `packGUID` loop are a
mask byte whose bit `i` is set exactly when byte `i` of the guid (least
significant first) is non-zero, followed by exactly the non-zero bytes in
ascending significance. Their number is `1 + popcount(mask) <= 9`, decoding
mask and bytes gives the guid back, and so no other 64-bit guid has the same
encoding. -/
theorem packGuid_spec (guid : Nat) (h : guid < 2 ^ 64) :
    ∃ mask bytes, packGuid guid = mask :: bytes ∧ mask < 256 ∧
      (∀ i, i < 8 → (mask.testBit i = true ↔ guidByte guid i ≠ 0)) ∧
      bytes = ((List.range 8).map (guidByte guid)).filter (fun b => decide (b ≠ 0)) ∧
      (packGuid guid).length = 1 + popcount8 mask ∧
      (packGuid guid).length ≤ 9 ∧
      unpackGuid (packGuid guid) = guid ∧
      (∀ other, other < 2 ^ 64 → packGuid other = packGuid guid → other = guid) := by
  obtain ⟨f1, f2⟩ := packGuid_facts guid h
  have hm : ∀ k, k < 8 →
      ((packGuidLoop guid 0 0 []).1.testBit k = true ↔ guidByte guid k ≠ 0) := by
    intro k hk
    rw [f1 k]
    exact ⟨fun x => x.2, fun x => ⟨hk, x⟩⟩
  have hlen : (packGuidLoop guid 0 0 []).2.length = popcount8 (packGuidLoop guid 0 0 []).1 := by
    rw [f2, List.filter_map, List.length_map]
    unfold popcount8
    congr 1
    apply List.filter_congr
    intro k hk
    rw [List.mem_range] at hk
    have := hm k hk
    simp only [Function.comp]
    by_cases hb : guidByte guid k ≠ 0
    · simp [hb, this.2 hb]
    · have hn : ¬ (packGuidLoop guid 0 0 []).1.testBit k = true := fun x => hb (this.1 x)
      simp only [Bool.not_eq_true] at hn
      simp [hb, hn]
  have hpop : popcount8 (packGuidLoop guid 0 0 []).1 ≤ 8 := by
    unfold popcount8
    calc ((List.range 8).filter _).length ≤ (List.range 8).length := List.length_filter_le _ _
      _ = 8 := List.length_range 8
  refine ⟨(packGuidLoop guid 0 0 []).1, (packGuidLoop guid 0 0 []).2, rfl, ?_, hm, f2, ?_, ?_,
    unpackGuid_packGuid guid h, ?_⟩
  · apply Nat.lt_pow_two_of_testBit _ (n := 8)
    intro i hi
    by_contra hc
    simp only [Bool.not_eq_false] at hc
    have := ((f1 i).1 hc).1
    omega
  · simp only [packGuid, List.length_cons, hlen]
    omega
  · simp only [packGuid, List.length_cons, hlen]
    omega
  · intro other ho he
    rw [← unpackGuid_packGuid other ho, he, unpackGuid_packGuid guid h]

/-- Witness of C22: the guid 0x0102000000000304. -/
theorem packGuid_spec_witness :
    ∃ mask bytes, packGuid 0x0102000000000304 = mask :: bytes ∧ mask < 256 ∧
      (∀ i, i < 8 → (mask.testBit i = true ↔ guidByte 0x0102000000000304 i ≠ 0)) ∧
      bytes = ((List.range 8).map (guidByte 0x0102000000000304)).filter
        (fun b => decide (b ≠ 0)) ∧
      (packGuid 0x0102000000000304).length = 1 + popcount8 mask ∧
      (packGuid 0x0102000000000304).length ≤ 9 ∧
      unpackGuid (packGuid 0x0102000000000304) = 0x0102000000000304 ∧
      (∀ other, other < 2 ^ 64 → packGuid other = packGuid 0x0102000000000304 →
        other = 0x0102000000000304) :=
  packGuid_spec 0x0102000000000304 (by norm_num)

/-- C23: absolute slot packing round-trips. For 8-bit bag and sub-slot values
`getRelativeSlots(getAbsoluteSlot(bag, slot))` yields `(bag, slot)`, for every
16-bit absolute slot `x` packing the pair that `getRelativeSlots(x)` returns
yields `x`, and `getRelativeSlots` always reports success. -/
theorem slot_packing_roundtrip :
    (∀ bag slot, bag < 256 → slot < 256 →
      getRelativeSlots (getAbsoluteSlot bag slot) = (true, bag, slot)) ∧
    (∀ x, x < 65536 →
      getAbsoluteSlot (getRelativeSlots x).2.1 (getRelativeSlots x).2.2 = x) ∧
    (∀ x, (getRelativeSlots x).1 = true) := by
  refine ⟨?_, ?_, fun _ => rfl⟩
  · intro bag slot hb hs
    rw [getAbsoluteSlot_eq bag slot hb hs]
    have h1 : (bag * 256 + slot) &&& 255 = (bag * 256 + slot) % 256 :=
      Nat.and_pow_two_sub_one_eq_mod _ 8
    have h2 : (bag * 256 + slot) >>> 8 = (bag * 256 + slot) / 256 := by
      rw [Nat.shiftRight_eq_div_pow]
    simp only [getRelativeSlots, h1, h2, Prod.mk.injEq, true_and]
    omega
  · intro x hx
    have h1 : x &&& 255 = x % 256 := Nat.and_pow_two_sub_one_eq_mod _ 8
    have h2 : x >>> 8 = x / 256 := by
      rw [Nat.shiftRight_eq_div_pow]
    simp only [getRelativeSlots, h1, h2]
    rw [getAbsoluteSlot_eq _ _ (Nat.mod_lt _ (by norm_num)) (Nat.mod_lt _ (by norm_num))]
    omega

/-- C24 fails on the code: with caches consistent and a head piece in the head
equipment slot (absolute slot 65280), `removeItem(65280, 0)` returns `Okay`,
erases the slot and executes `m_freeSlots++` although no pack slot was freed:
the counter reads 17 while the backpack has 16 slots, all of them empty. -/
theorem removeItem_equipment_freeSlots :
    countersConsistent equippedInv ∧ freeSlotsConsistent stdEnv equippedInv ∧
    isEquipmentSlot stdEnv 65280 = true ∧ isInventorySlot stdEnv 65280 = false ∧
    (removeItem stdEnv equippedInv 65280 0).1 = InventoryChangeFailure.Okay ∧
    (removeItem stdEnv equippedInv 65280 0).2.itemsBySlot 65280 = none ∧
    (removeItem stdEnv equippedInv 65280 0).2.freeSlots = 17 ∧
    emptyPackSlots stdEnv (removeItem stdEnv equippedInv 65280 0).2 = 16 ∧
    (packSlots stdEnv).length = 16 :=
  ⟨equippedInv_consistent, by unfold freeSlotsConsistent; decide, by decide, by decide,
    by decide, by decide, by decide, by decide, by decide⟩

theorem isInventorySlot_iff (E : Env) (hv : E.valid) (s : Nat) :
    isInventorySlot E s = true ↔ s ∈ packSlots E := by
  have h1 : s &&& 255 = s % 256 := Nat.and_pow_two_sub_one_eq_mod s 8
  have h2 : s >>> 8 = s / 256 := by rw [Nat.shiftRight_eq_div_pow]
  obtain ⟨hb, hse, he⟩ := hv
  simp only [isInventorySlot, h1, h2, Bool.and_eq_true, decide_eq_true_eq, packSlots,
    packSubslots, List.mem_map, List.mem_range]
  constructor
  · rintro ⟨⟨ha, hb2⟩, hc⟩
    refine ⟨s % 256, ⟨s % 256 - E.packStart, by omega, by omega⟩, ?_⟩
    rw [getAbsoluteSlot_eq _ _ hb (by omega)]
    omega
  · rintro ⟨i, ⟨j, hj, rfl⟩, rfl⟩
    rw [getAbsoluteSlot_eq _ _ hb (by omega)]
    omega

theorem reconstructItem_known (E : Env) (project : Nat → Option ItemEntry) (inv : Inventory)
    (data : ItemData) (e : ItemEntry) (hp : project data.entry = some e)
    (h1 : 1 ≤ data.stackCount) (h2 : data.stackCount ≤ e.maxstack)
    (h3 : data.stackCount < 65536) :
    (∃ it, (reconstructItem E project inv data).itemsBySlot =
        setAt inv.itemsBySlot data.slot (some it) ∧ it.entry = e ∧
        it.stackCount = data.stackCount) ∧
    (reconstructItem E project inv data).itemCounter =
      counterAdd inv.itemCounter data.entry data.stackCount ∧
    (reconstructItem E project inv data).freeSlots =
      if isInventorySlot E data.slot then inv.freeSlots - 1 else inv.freeSlots := by
  have hmod : (data.stackCount + 65535) % 65536 = data.stackCount - 1 := by omega
  refine ⟨⟨(addStacks { newItem E e (generateId inv.owner).1 with creator := data.creator }
      (data.stackCount - 1)).1, ?_, rfl, ?_⟩, ?_, ?_⟩
  · simp only [reconstructItem, hp, hmod]
  · simp only [addStacks, newItem]
    omega
  · simp only [reconstructItem, hp]
  · simp only [reconstructItem, hp]

theorem reconstruct_items (E : Env) (project : Nat → Option ItemEntry) (id : Nat)
    (records : List ItemData) :
    ∀ inv : Inventory, (∀ r ∈ records, r.wellFormed project ∧ r.stackCount < 65536) →
      (records.map (fun r => r.slot)).Nodup →
      (∀ s, s ∉ records.map (fun r => r.slot) →
        (records.foldl (reconstructItem E project) inv).itemsBySlot s = inv.itemsBySlot s) ∧
      (∀ r ∈ records,
        slotStack (records.foldl (reconstructItem E project) inv).itemsBySlot id r.slot =
          if r.entry = id then r.stackCount else 0) := by
  induction records with
  | nil => intro inv _ _; exact ⟨fun _ _ => rfl, fun r hr => by cases hr⟩
  | cons r rs ih =>
    intro inv hwf hnd
    rw [List.map_cons, List.nodup_cons] at hnd
    obtain ⟨⟨e, hp, hid, h1, h2, _⟩, h3⟩ := hwf r (List.mem_cons_self r rs)
    obtain ⟨⟨it, hit, hie, hic⟩, _, _⟩ := reconstructItem_known E project inv r e hp h1 h2 h3
    obtain ⟨i1, i2⟩ := ih (reconstructItem E project inv r)
      (fun x hx => hwf x (List.mem_cons_of_mem r hx)) hnd.2
    simp only [List.foldl_cons]
    constructor
    · intro s hs
      rw [List.map_cons, List.mem_cons, not_or] at hs
      rw [i1 s hs.2, hit]
      simp [setAt, hs.1]
    · intro x hx
      rcases List.mem_cons.mp hx with hxr | hxr
      · subst hxr
        rw [slotStack, i1 x.slot hnd.1, hit]
        simp only [setAt, if_true, hie, hic, hid]
      · exact i2 x hxr

theorem getItemCount_counterAdd (m : Inventory) (c : Nat → Option Nat) (key n id : Nat)
    (hc : m.itemCounter = counterAdd c key n) :
    getItemCount m id =
      if id = key then ((match c key with | some v => v | none => 0) + n) % 65536
      else (match c id with | some v => v | none => 0) := by
  unfold getItemCount
  rw [hc]
  unfold counterAdd setAt
  by_cases h : id = key
  · subst h; simp
  · simp [h]

theorem reconstruct_counter (E : Env) (project : Nat → Option ItemEntry) (id : Nat)
    (records : List ItemData) :
    ∀ inv : Inventory, (∀ r ∈ records, r.wellFormed project ∧ r.stackCount < 65536) →
      getItemCount inv id < 65536 →
      getItemCount (records.foldl (reconstructItem E project) inv) id =
        (getItemCount inv id + recordTotal records id) % 65536 := by
  induction records with
  | nil =>
    intro inv _ hlt
    simp only [List.foldl_nil, recordTotal, List.map_nil, List.sum_nil, Nat.add_zero]
    exact (Nat.mod_eq_of_lt hlt).symm
  | cons r rs ih =>
    intro inv hwf hlt
    obtain ⟨⟨e, hp, hid, h1, h2, _⟩, h3⟩ := hwf r (List.mem_cons_self r rs)
    obtain ⟨_, hcnt, _⟩ := reconstructItem_known E project inv r e hp h1 h2 h3
    have hstep := getItemCount_counterAdd (reconstructItem E project inv r) inv.itemCounter
      r.entry r.stackCount id hcnt
    have hget : ∀ k, (match inv.itemCounter k with | some v => v | none => 0) =
        getItemCount inv k := fun k => rfl
    rw [hget, hget] at hstep
    have hlt2 : getItemCount (reconstructItem E project inv r) id < 65536 := by
      rw [hstep]
      split_ifs
      · exact Nat.mod_lt _ (by norm_num)
      · exact hlt
    have hrec := ih (reconstructItem E project inv r)
      (fun x hx => hwf x (List.mem_cons_of_mem r hx)) hlt2
    simp only [List.foldl_cons]
    rw [hrec, hstep]
    have htot : recordTotal (r :: rs) id =
        (if r.entry = id then r.stackCount else 0) + recordTotal rs id := by
      simp only [recordTotal, List.map_cons, List.sum_cons]
    rw [htot]
    by_cases hk : id = r.entry
    · subst hk
      simp only [if_true]
      rw [Nat.mod_add_mod, Nat.add_assoc]
    · have hk2 : ¬ r.entry = id := fun x => hk x.symm
      simp only [if_neg hk, if_neg hk2, Nat.zero_add]

theorem reconstruct_freeConsistent (E : Env) (hv : E.valid) (project : Nat → Option ItemEntry)
    (records : List ItemData) :
    ∀ inv : Inventory, (∀ r ∈ records, r.wellFormed project ∧ r.stackCount < 65536) →
      (records.map (fun r => r.slot)).Nodup →
      (∀ r ∈ records, inv.itemsBySlot r.slot = none) →
      freeSlotsConsistent E inv →
      freeSlotsConsistent E (records.foldl (reconstructItem E project) inv) := by
  induction records with
  | nil => intro inv _ _ _ h; exact h
  | cons r rs ih =>
    intro inv hwf hnd hnone hcons
    rw [List.map_cons, List.nodup_cons] at hnd
    obtain ⟨⟨e, hp, hid, h1, h2, _⟩, h3⟩ := hwf r (List.mem_cons_self r rs)
    obtain ⟨⟨it, hit, _, _⟩, _, hfree⟩ := reconstructItem_known E project inv r e hp h1 h2 h3
    have hr0 : inv.itemsBySlot r.slot = none := hnone r (List.mem_cons_self r rs)
    simp only [List.foldl_cons]
    apply ih _ (fun x hx => hwf x (List.mem_cons_of_mem r hx)) hnd.2
    · intro x hx
      rw [hit]
      have hne : x.slot ≠ r.slot := by
        intro heq
        apply hnd.1
        rw [← heq]
        exact List.mem_map_of_mem (fun r => r.slot) hx
      simp only [setAt, if_neg hne]
      exact hnone x (List.mem_cons_of_mem r hx)
    · unfold freeSlotsConsistent emptyPackSlots at hcons ⊢
      rw [hfree, hit]
      by_cases hpack : isInventorySlot E r.slot = true
      · have hmem := (isInventorySlot_iff E hv r.slot).1 hpack
        have hcount := countP_empty_fill (packSlots E) inv.itemsBySlot r.slot it
          (packSlots_nodup E hv) hmem hr0
        rw [if_pos hpack]
        omega
      · have hmem : r.slot ∉ packSlots E := fun x => hpack ((isInventorySlot_iff E hv r.slot).2 x)
        rw [if_neg hpack, hcons]
        symm
        apply countP_empty_congr
        intro s hs
        have hne : s ≠ r.slot := fun x => hmem (x ▸ hs)
        simp only [setAt, if_neg hne]

theorem recordTotal_ge (records : List ItemData) (r : ItemData) (h : r ∈ records) :
    r.stackCount ≤ recordTotal records r.entry := by
  induction records with
  | nil => cases h
  | cons x xs ih =>
    simp only [recordTotal, List.map_cons, List.sum_cons]
    rcases List.mem_cons.mp h with hx | hx
    · subst hx
      simp
    · have := ih hx
      unfold recordTotal at this
      omega

theorem loadInventory_eq (E : Env) (project : Nat → Option ItemEntry) (inv : Inventory)
    (records : List ItemData) (hworld : inv.owner.world ≠ none) :
    loadInventory E project inv records =
      records.foldl (reconstructItem E project) (readInventory E inv records).1 := by
  unfold loadInventory addSpawnBlocks
  cases records with
  | nil => rfl
  | cons r rs =>
    simp only [readInventory, List.isEmpty_cons, Bool.false_eq_true, if_false]
    cases hw : inv.owner.world with
    | none => exact absurd hw hworld
    | some n => rfl

/-- C25 as stated fails: a single realm record of five head pieces in the
first pack slot, for a template that stacks to 1, has a known template and
distinct slots, but the reconstructed item holds one unit (`addStacks` stops at
`maxstack`) while the counter is raised by the recorded stack count 5. -/
theorem loadInventory_overfull_record :
    stdProject overfullRecord.entry = some stdHelmet ∧ stdHelmet.maxstack = 1 ∧
    overfullRecord.stackCount = 5 ∧
    getItemCount (loadInventory stdEnv stdProject (Inventory.init stdEnv stdOwner)
      [overfullRecord]) 9 = 5 ∧
    stackTotal (loadInventory stdEnv stdProject (Inventory.init stdEnv stdOwner)
      [overfullRecord]) 9 = 1 := by
  refine ⟨rfl, rfl, rfl, by decide, ?_⟩
  have hitems : (loadInventory stdEnv stdProject (Inventory.init stdEnv stdOwner)
      [overfullRecord]).itemsBySlot =
      setAt (fun _ => none) 65303 (some ⟨stdHelmet, stdEnv.createEntryGUID 1 9, 1, 0⟩) := rfl
  rw [stackTotal_eq_of_support _ 9 [65303] (by decide) (by decide) (by
    intro s hs
    rw [hitems]
    simp at hs
    simp [setAt, hs])]
  rw [hitems]
  decide

/-- C25 amended: reading an inventory from the stream leaves no items, no
counters and `m_freeSlots` = number of pack slots; with the owner in a world
instance, for every list of realm item records with pairwise distinct slots
whose templates are known, whose stack counts lie between 1 and the template's
`maxstack` and whose per-template totals fit the 16 bit counter, the
reconstruction of `addSpawnBlocks` makes `m_itemCounter[t]` the total stack
count of the items of template `t` and `m_freeSlots` the number of empty pack
slots. -/
theorem loadInventory_consistent (E : Env) (hv : E.valid) (project : Nat → Option ItemEntry)
    (inv : Inventory) (records : List ItemData) (hworld : inv.owner.world ≠ none)
    (hwf : ∀ r ∈ records, r.wellFormed project)
    (hnd : (records.map (fun r => r.slot)).Nodup)
    (hsum : ∀ id, recordTotal records id < 65536) :
    (∀ s, (readInventory E inv records).1.itemsBySlot s = none) ∧
    (∀ id, getItemCount (readInventory E inv records).1 id = 0) ∧
    (readInventory E inv records).1.freeSlots = (packSlots E).length ∧
    (∀ id, getItemCount (loadInventory E project inv records) id = recordTotal records id) ∧
    countersConsistent (loadInventory E project inv records) ∧
    freeSlotsConsistent E (loadInventory E project inv records) := by
  have hwf2 : ∀ r ∈ records, r.wellFormed project ∧ r.stackCount < 65536 := fun r hr =>
    ⟨hwf r hr, lt_of_le_of_lt (recordTotal_ge records r hr) (hsum r.entry)⟩
  have hcount : ∀ id, getItemCount (loadInventory E project inv records) id =
      recordTotal records id := by
    intro id
    have h0 : getItemCount (readInventory E inv records).1 id = 0 := rfl
    rw [loadInventory_eq E project inv records hworld,
      reconstruct_counter E project id records _ hwf2 (by rw [h0]; norm_num)]
    rw [h0, Nat.zero_add]
    exact Nat.mod_eq_of_lt (hsum id)
  refine ⟨fun _ => rfl, fun _ => rfl, ?_, hcount, ?_, ?_⟩
  · simp [readInventory, packSlots, packSubslots]
  · intro id
    rw [hcount id, loadInventory_eq E project inv records hworld]
    obtain ⟨i1, i2⟩ := reconstruct_items E project id records (readInventory E inv records).1
      hwf2 hnd
    rw [stackTotal_eq_of_support _ id (records.map (fun r => r.slot)) hnd
      (by
        intro s hs
        rw [List.mem_map] at hs
        obtain ⟨r, hr, rfl⟩ := hs
        obtain ⟨_, _, _, _, _, h6⟩ := hwf r hr
        exact h6)
      (fun s hs => by rw [i1 s hs]; rfl)]
    unfold stackSum recordTotal
    rw [List.map_map]
    congr 1
    apply List.map_congr_left
    intro r hr
    exact (i2 r hr).symm
  · rw [loadInventory_eq E project inv records hworld]
    apply reconstruct_freeConsistent E hv project records _ hwf2 hnd (fun _ _ => rfl)
    simp [freeSlotsConsistent, emptyPackSlots, readInventory, packSlots, packSubslots]

/-- Witness of C25 amended: two well formed records, one in a pack slot and
one in an equipment slot. -/
theorem loadInventory_consistent_witness :
    (∀ s, (readInventory stdEnv (Inventory.init stdEnv stdOwner) stdRecords).1.itemsBySlot s
      = none) ∧
    (∀ id, getItemCount (readInventory stdEnv (Inventory.init stdEnv stdOwner) stdRecords).1 id
      = 0) ∧
    (readInventory stdEnv (Inventory.init stdEnv stdOwner) stdRecords).1.freeSlots =
      (packSlots stdEnv).length ∧
    (∀ id, getItemCount (loadInventory stdEnv stdProject (Inventory.init stdEnv stdOwner)
      stdRecords) id = recordTotal stdRecords id) ∧
    countersConsistent (loadInventory stdEnv stdProject (Inventory.init stdEnv stdOwner)
      stdRecords) ∧
    freeSlotsConsistent stdEnv (loadInventory stdEnv stdProject (Inventory.init stdEnv stdOwner)
      stdRecords) :=
  loadInventory_consistent stdEnv (by unfold Env.valid; decide) stdProject
    (Inventory.init stdEnv stdOwner) stdRecords (by decide)
    (by
      intro r hr
      simp only [stdRecords, List.mem_cons, List.mem_nil_iff, or_false] at hr
      rcases hr with rfl | rfl
      · exact ⟨stdEntry, rfl, rfl, by decide, by decide, by decide⟩
      · exact ⟨stdHelmet, rfl, rfl, by decide, by decide, by decide⟩)
    (by decide)
    (by
      intro id
      simp only [recordTotal, stdRecords, List.map_cons, List.map_nil, List.sum_cons,
        List.sum_nil]
      split_ifs <;> omega)

theorem slotWhitelist_neck_back (t : InventoryType) :
    slotWhitelist player_equipment_slots.Neck t = false ∧
    slotWhitelist player_equipment_slots.Back t = false := by
  constructor <;> rfl

/-- C26 fails on the code: the switch of `isValidSlot` has no case for the
neck and the back sub-slot, so for every inventory, owner and item template
these two equipment slots (absolute slots 65281 and 65294) never return
`Okay`; an item that meets all requirements gets `ItemDoesNotGoToSlot` whatever
its inventory type. -/
theorem isValidSlot_neck_back_rejected (inv : Inventory) (entry : ItemEntry) :
    isEquipmentSlot stdEnv (getAbsoluteSlot stdEnv.bag0 player_equipment_slots.Neck) = true ∧
    isEquipmentSlot stdEnv (getAbsoluteSlot stdEnv.bag0 player_equipment_slots.Back) = true ∧
    isValidSlot stdEnv inv (getAbsoluteSlot stdEnv.bag0 player_equipment_slots.Neck) entry ≠
      InventoryChangeFailure.Okay ∧
    isValidSlot stdEnv inv (getAbsoluteSlot stdEnv.bag0 player_equipment_slots.Back) entry ≠
      InventoryChangeFailure.Okay ∧
    (meetsProficiency stdEnv inv.owner entry = true → meetsLevel inv.owner entry = true →
      meetsSkill inv.owner entry = true →
      isValidSlot stdEnv inv (getAbsoluteSlot stdEnv.bag0 player_equipment_slots.Neck) entry =
        InventoryChangeFailure.ItemDoesNotGoToSlot ∧
      isValidSlot stdEnv inv (getAbsoluteSlot stdEnv.bag0 player_equipment_slots.Back) entry =
        InventoryChangeFailure.ItemDoesNotGoToSlot) := by
  obtain ⟨n1, n2⟩ := equipSlot_of_bag0 stdEnv (by decide) player_equipment_slots.Neck (by decide)
  obtain ⟨b1, b2⟩ := equipSlot_of_bag0 stdEnv (by decide) player_equipment_slots.Back (by decide)
  obtain ⟨w1, w2⟩ := slotWhitelist_neck_back entry.inventorytype
  have hn := equipSlotSwitch_not_whitelisted stdEnv inv _ entry w1
  have hb := equipSlotSwitch_not_whitelisted stdEnv inv _ entry w2
  refine ⟨n1, b1, ?_, ?_, ?_⟩
  · rw [isValidSlot_equipment stdEnv inv _ entry n1, n2, hn]
    split_ifs <;> decide
  · rw [isValidSlot_equipment stdEnv inv _ entry b1, b2, hb]
    split_ifs <;> decide
  · intro hp hl hk
    rw [isValidSlot_equipment stdEnv inv _ entry n1, isValidSlot_equipment stdEnv inv _ entry b1,
      n2, b2, hn, hb]
    simp [hp, hl, hk]

/-- C27: `canStoreItems` is a sound dry run of the rejections of `createItems`.
It returns a code only (it is a `const` reader), its code is `Okay`,
`CantCarryMoreOfThis` or `InventoryFull`, and whenever it is a failure code
`createItems` with the same arguments returns the same code and leaves the
inventory as it was; so whenever `createItems` returns `Okay`, `canStoreItems`
on the prior state returned `Okay`. -/
theorem canStoreItems_sound (E : Env) (inv : Inventory) (entry : ItemEntry) (amount : Nat) :
    (canStoreItems inv entry amount = InventoryChangeFailure.Okay ∨
      canStoreItems inv entry amount = InventoryChangeFailure.CantCarryMoreOfThis ∨
      canStoreItems inv entry amount = InventoryChangeFailure.InventoryFull) ∧
    (canStoreItems inv entry amount ≠ InventoryChangeFailure.Okay →
      createItems E inv entry amount = (canStoreItems inv entry amount, inv)) ∧
    ((createItems E inv entry amount).1 = InventoryChangeFailure.Okay →
      canStoreItems inv entry amount = InventoryChangeFailure.Okay) := by
  have key : canStoreItems inv entry amount ≠ InventoryChangeFailure.Okay →
      createItems E inv entry amount = (canStoreItems inv entry amount, inv) := by
    intro h
    unfold canStoreItems at h ⊢
    unfold createItems
    simp only [] at h ⊢
    by_cases h1 : 0 < entry.maxcount ∧
        entry.maxcount < getItemCount inv entry.id + (if amount = 0 then 1 else amount)
    · rw [if_pos h1, if_pos h1]
    · rw [if_neg h1] at h
      rw [if_neg h1, if_neg h1]
      by_cases h2 : (getItemCount inv entry.id = 0 ∨ entry.maxstack ≤ 1) ∧
          inv.freeSlots < (((if amount = 0 then 1 else amount) - 1) / entry.maxstack + 1) % 65536
      · rw [if_pos h2, if_pos h2]
      · rw [if_neg h2] at h
        exact absurd rfl h
  refine ⟨?_, key, ?_⟩
  · unfold canStoreItems
    simp only []
    split_ifs <;> simp
  · intro hok
    by_contra hne
    rw [key hne] at hok
    exact hne hok

/-- C28: for 32 bit power values with `current + 20 < 2 ^ 32`,
`regeneratePower(Energy)` sets the energy field to `min(max, current + 20)` and
`regeneratePower(Rage)` sets the rage field to `current - 30` floored at 0. So
energy does not exceed its maximum after a tick, rage never increases and
never wraps below 0, and no other power field (nor any other field of the
unit) is written. -/
theorem regeneratePower_energy_rage (u : GameUnit)
    (he : u.power PowerType.Energy.index + 20 < 2 ^ 32) :
    (regeneratePower u PowerType.Energy).power PowerType.Energy.index =
      min (u.maxPower PowerType.Energy.index) (u.power PowerType.Energy.index + 20) ∧
    (regeneratePower u PowerType.Energy).power PowerType.Energy.index ≤
      u.maxPower PowerType.Energy.index ∧
    (∀ i, i ≠ PowerType.Energy.index →
      (regeneratePower u PowerType.Energy).power i = u.power i) ∧
    regeneratePower u PowerType.Energy =
      { u with power := (regeneratePower u PowerType.Energy).power } ∧
    ((regeneratePower u PowerType.Rage).power PowerType.Rage.index : ℤ) =
      max 0 ((u.power PowerType.Rage.index : ℤ) - 30) ∧
    (regeneratePower u PowerType.Rage).power PowerType.Rage.index ≤
      u.power PowerType.Rage.index ∧
    (∀ i, i ≠ PowerType.Rage.index →
      (regeneratePower u PowerType.Rage).power i = u.power i) ∧
    regeneratePower u PowerType.Rage =
      { u with power := (regeneratePower u PowerType.Rage).power } := by
  have h20 : ⌊(20 : ℚ)⌋₊ % 4294967296 = 20 := by
    rw [show (20 : ℚ) = ((20 : ℕ) : ℚ) by norm_num, Nat.floor_natCast]
  have h30 : ⌊(30 : ℚ)⌋₊ % 4294967296 = 30 := by
    rw [show (30 : ℚ) = ((30 : ℕ) : ℚ) by norm_num, Nat.floor_natCast]
  have hE : (regeneratePower u PowerType.Energy).power =
      setAt u.power PowerType.Energy.index
        (if (u.power PowerType.Energy.index + 20) % 4294967296 >
            u.maxPower PowerType.Energy.index then u.maxPower PowerType.Energy.index
          else (u.power PowerType.Energy.index + 20) % 4294967296) := by
    simp only [regeneratePower, h20]
    simp
  have hR : (regeneratePower u PowerType.Rage).power =
      setAt u.power PowerType.Rage.index
        (if u.power PowerType.Rage.index ≤ 30 then 0
          else u.power PowerType.Rage.index - 30) := by
    simp only [regeneratePower, h30]
    simp
  have hmod : (u.power PowerType.Energy.index + 20) % 4294967296 =
      u.power PowerType.Energy.index + 20 := Nat.mod_eq_of_lt (by simpa using he)
  refine ⟨?_, ?_, ?_, rfl, ?_, ?_, ?_, rfl⟩
  · rw [hE, hmod]
    simp only [setAt, if_true]
    split_ifs <;> omega
  · rw [hE, hmod]
    simp only [setAt, if_true]
    split_ifs <;> omega
  · intro i hi
    rw [hE]
    simp only [setAt, if_neg hi]
  · rw [hR]
    simp only [setAt, if_true]
    split_ifs <;> omega
  · rw [hR]
    simp only [setAt, if_true]
    split_ifs <;> omega
  · intro i hi
    rw [hR]
    simp only [setAt, if_neg hi]

/-- Witness of C28: a unit with 90 of 100 energy and 25 rage. -/
theorem regeneratePower_energy_rage_witness :
    (regeneratePower energyUnit PowerType.Energy).power PowerType.Energy.index =
      min (energyUnit.maxPower PowerType.Energy.index)
        (energyUnit.power PowerType.Energy.index + 20) ∧
    (regeneratePower energyUnit PowerType.Energy).power PowerType.Energy.index ≤
      energyUnit.maxPower PowerType.Energy.index ∧
    (∀ i, i ≠ PowerType.Energy.index →
      (regeneratePower energyUnit PowerType.Energy).power i = energyUnit.power i) ∧
    regeneratePower energyUnit PowerType.Energy =
      { energyUnit with power := (regeneratePower energyUnit PowerType.Energy).power } ∧
    ((regeneratePower energyUnit PowerType.Rage).power PowerType.Rage.index : ℤ) =
      max 0 ((energyUnit.power PowerType.Rage.index : ℤ) - 30) ∧
    (regeneratePower energyUnit PowerType.Rage).power PowerType.Rage.index ≤
      energyUnit.power PowerType.Rage.index ∧
    (∀ i, i ≠ PowerType.Rage.index →
      (regeneratePower energyUnit PowerType.Rage).power i = energyUnit.power i) ∧
    regeneratePower energyUnit PowerType.Rage =
      { energyUnit with power := (regeneratePower energyUnit PowerType.Rage).power } :=
  regeneratePower_energy_rage energyUnit (by decide)

/-- C29: with an `isFull()` that does not depend on the invite list,
`addMember` returns `Ok` only if the character's GUID had a pending invite and
the group was not full, and then the character is a member and its invite is
consumed; `NotInYourParty` means there was no pending invite and leaves the
group as it was; `PartyFull` leaves the members as they were (the invite is
consumed). -/
theorem addMember_results (G : GroupEnv)
    (hfull : ∀ (g : PlayerGroup) (inv : Finset Nat), G.isFull { g with invited := inv } = G.isFull g)
    (g : PlayerGroup) (guid : Nat) (name : String) :
    ((addMember G g guid name).1 = PartyResult.Ok →
      guid ∈ g.invited ∧ G.isFull g = false ∧
      isMember (addMember G g guid name).2 guid = true ∧
      guid ∉ (addMember G g guid name).2.invited ∧
      (addMember G g guid name).2.memberGuids = insert guid g.memberGuids) ∧
    ((addMember G g guid name).1 = PartyResult.NotInYourParty →
      guid ∉ g.invited ∧ (addMember G g guid name).2 = g) ∧
    ((addMember G g guid name).1 = PartyResult.PartyFull →
      guid ∈ g.invited ∧ G.isFull g = true ∧
      (addMember G g guid name).2.memberGuids = g.memberGuids ∧
      (addMember G g guid name).2.memberInfo = g.memberInfo) := by
  have hf := hfull g (g.invited.erase guid)
  unfold addMember
  by_cases hinv : guid ∉ g.invited
  · rw [if_pos hinv]
    refine ⟨?_, ?_, ?_⟩
    · intro h; simp at h
    · intro _; exact ⟨hinv, rfl⟩
    · intro h; simp at h
  · rw [if_neg hinv]
    have hin : guid ∈ g.invited := by
      by_contra h; exact hinv h
    simp only []
    by_cases hF : G.isFull { g with invited := g.invited.erase guid } = true
    · rw [if_pos hF]
      refine ⟨?_, ?_, ?_⟩
      · intro h; simp at h
      · intro h; simp at h
      · intro _
        refine ⟨hin, ?_, rfl, rfl⟩
        rw [← hf]; exact hF
    · rw [if_neg hF]
      refine ⟨?_, ?_, ?_⟩
      · intro _
        refine ⟨hin, ?_, ?_, ?_, rfl⟩
        · rw [← hf]; simpa using hF
        · simp [isMember, sendUpdate]
        · simp [sendUpdate]
      · intro h; simp at h
      · intro h; simp at h

/-- Witness of C29: the invited character 2 joins the group of the leader. -/
theorem addMember_results_witness :
    ((addMember stdGroupEnv stdGroup 2 "guest").1 = PartyResult.Ok →
      2 ∈ stdGroup.invited ∧ stdGroupEnv.isFull stdGroup = false ∧
      isMember (addMember stdGroupEnv stdGroup 2 "guest").2 2 = true ∧
      2 ∉ (addMember stdGroupEnv stdGroup 2 "guest").2.invited ∧
      (addMember stdGroupEnv stdGroup 2 "guest").2.memberGuids = insert 2 stdGroup.memberGuids) ∧
    ((addMember stdGroupEnv stdGroup 2 "guest").1 = PartyResult.NotInYourParty →
      2 ∉ stdGroup.invited ∧ (addMember stdGroupEnv stdGroup 2 "guest").2 = stdGroup) ∧
    ((addMember stdGroupEnv stdGroup 2 "guest").1 = PartyResult.PartyFull →
      2 ∈ stdGroup.invited ∧ stdGroupEnv.isFull stdGroup = true ∧
      (addMember stdGroupEnv stdGroup 2 "guest").2.memberGuids = stdGroup.memberGuids ∧
      (addMember stdGroupEnv stdGroup 2 "guest").2.memberInfo = stdGroup.memberInfo) :=
  addMember_results stdGroupEnv (fun _ _ => rfl) stdGroup 2 "guest"

/-- C30 fails on the code: for the empty string and the mask of one question
mark the loop `while(*szWildCard == '?')` advances `szString` behind the
terminating NUL (position 0) and the comparison that follows reads
`szString[1]`. The same happens for the string "a" and the mask "??.txt"
(read of `szString[2]`), while "ab" against "a?" stays inside both buffers. -/
theorem CheckWildCard_reads_beyond_string :
    CheckWildCard asciiUpper 10 [] [63] = WildCardOutcome.readBeyondString 1 ∧
    CheckWildCard asciiUpper 20 [97] [63, 63, 46, 116, 120, 116] =
      WildCardOutcome.readBeyondString 2 ∧
    CheckWildCard asciiUpper 20 [97, 98] [97, 63] = WildCardOutcome.result true := by
  decide

end wowpp
